import Mathlib

/-!
# Image setup and peripheral code of Ghostscript

A shallow embedding of the image enumerator setup of `base/gxipixel.c`, of
the colorant lookup, the colour encoding and the curve lookup of
`devices/gdevrinkj.c`, and of the big-endian readers of `base/ttfinp.c`.

Conventions of the embedding:
* C `int` values are integers (`Int`); the C arithmetic on them is taken
  without overflow (signed overflow is undefined in C).  Unsigned
  arithmetic is written out modulo `2^32`.
* `float` and `double` values are rationals (`ℚ`); comparisons and
  assignments are those of the source, and a division by zero (which the
  inputs considered do not produce) has the value 0.  In `image_init_map`
  and in the grid-fit blocks `grid_fit_pos_double` and `grid_fit_neg_double`
  every operation is rounded to its format (section "Floating-point
  rounding"); elsewhere the arithmetic is exact.
* A pointer that may be `NULL` is an `Option`.
* Where bits are shifted and combined, an integer of width `w` is its bit
  pattern, a natural number below `2^w`.
* Collaborators that are not part of the sources (allocators, device
  procedures, colour-space procedures, the renderer classes) appear as
  explicit inputs holding what the call returns.
-/

namespace Ghostpdl

/-! ## Error codes and basic types -/

/-- Modelled from the spec: the range/configuration error kind; `gserrors.h`, which
gives it its number, is not among the sources. -/
def gs_error_rangecheck : Int := -15

/-- Modelled from the spec: the resource-exhaustion error kind; `gserrors.h`, which
gives it its number, is not among the sources. -/
def gs_error_VMerror : Int := -25

/-- Modelled from the spec: the error returned for a missing target device;
`gserrors.h`, which gives it its number, is not among the sources. -/
def gs_error_undefined : Int := -21

/-- Modelled from the spec: the transform/geometry error kind of a singular matrix;
`gserrors.h`, which gives it its number, is not among the sources. -/
def gs_error_undefinedresult : Int := -23

/-- Modelled from the spec: the internal "cannot happen" error; `gserrors.h`, which
gives it its number, is not among the sources. -/
def gs_error_Fatal : Int := -100

/-- The sample layouts of `gs_image_format_t`; `other` stands for any value
of the C enum type that none of the `case` labels matches. -/
inductive gs_image_format_t where
  | chunky
  | component_planar
  | bit_planar
  | other
  deriving DecidableEq, Repr

/-- Integer point, `gs_int_point`. -/
structure gs_int_point where
  x : Int
  y : Int
  deriving DecidableEq, Repr

/-- Integer rectangle given by two corners, `gs_int_rect`. -/
structure gs_int_rect where
  p : gs_int_point
  q : gs_int_point
  deriving DecidableEq, Repr

/-- The `x, y, w, h` rectangles `rect`, `rrect` and `drect` of the enumerator. -/
structure image_rect where
  x : Int
  y : Int
  w : Int
  h : Int
  deriving DecidableEq, Repr

/-- The fields of `gs_pixel_image_t` read by `gx_image_enum_alloc`. -/
structure gs_pixel_image_t where
  Width : Int
  Height : Int
  BitsPerComponent : Int
  format : gs_image_format_t
  deriving DecidableEq, Repr

/-- The members of `gx_image_enum` filled in by `gx_image_enum_alloc`
(everything else is zeroed by the `memset`). -/
structure gx_image_enum where
  rect : image_rect
  rrect : image_rect
  drect : image_rect
  deriving DecidableEq, Repr

/-- Result of `gx_image_enum_alloc`: the return code and the value of
`*ppenum` after the call. -/
structure alloc_result where
  code : Int
  ppenum : Option gx_image_enum
  deriving DecidableEq, Repr

/-- The `switch (pim->format)` of `gx_image_enum_alloc`: `true` when the
bit depth is rejected. -/
def alloc_bpc_rejected (format : gs_image_format_t) (bpc : Int) : Bool :=
  match format with
  | .chunky | .component_planar =>
      if bpc = 1 ∨ bpc = 2 ∨ bpc = 4 ∨ bpc = 8 ∨ bpc = 12 ∨ bpc = 16 then false else true
  | .bit_planar => if bpc < 1 ∨ bpc > 8 then true else false
  | .other => false

/-- The `if (prect)` validation of `gx_image_enum_alloc`: `true` when the
sub-rectangle is rejected. -/
def alloc_prect_rejected (prect : Option gs_int_rect) (width height : Int) : Bool :=
  match prect with
  | some r =>
      if r.p.x < 0 ∨ r.p.y < 0 ∨ r.q.x < r.p.x ∨ r.q.y < r.p.y ∨
          r.q.x > width ∨ r.q.y > height then true else false
  | none => false

/-- The rectangle stored in `penum->rect`. -/
def alloc_rect (prect : Option gs_int_rect) (width height : Int) : image_rect :=
  match prect with
  | some r => { x := r.p.x, y := r.p.y, w := r.q.x - r.p.x, h := r.q.y - r.p.y }
  | none => { x := 0, y := 0, w := width, h := height }

/-- The routine `gx_image_enum_alloc`.  `alloc_ok` says whether `gs_alloc_struct`
returns a non-null pointer; `ppenum0` is the caller's `*ppenum` before the
call (left untouched by the range checks). -/
def gx_image_enum_alloc (pim : gs_pixel_image_t) (prect : Option gs_int_rect)
    (alloc_ok : Bool) (ppenum0 : Option gx_image_enum) : alloc_result :=
  let width := pim.Width
  let height := pim.Height
  let bpc := pim.BitsPerComponent
  if width < 0 ∨ height < 0 then
    { code := gs_error_rangecheck, ppenum := ppenum0 }
  else if alloc_bpc_rejected pim.format bpc then
    { code := gs_error_rangecheck, ppenum := ppenum0 }
  else if alloc_prect_rejected prect width height then
    { code := gs_error_rangecheck, ppenum := ppenum0 }
  else if !alloc_ok then
    { code := gs_error_VMerror, ppenum := none }
  else
    let rect := alloc_rect prect width height
    { code := 0, ppenum := some { rect := rect, rrect := rect, drect := rect } }

/-! ## Rectangle restriction (`gx_image_enum_begin`, "Can we restrict the amount of image we need?") -/

/-- The block `if (r.x < irect.p.x) { r.w -= irect.p.x - r.x; if (r.w < 0) r.w = 0; r.x = irect.p.x; }`. -/
def restrict_x_min (r : image_rect) (irect : gs_int_rect) : image_rect :=
  if r.x < irect.p.x then
    let w := r.w - (irect.p.x - r.x)
    let w := if w < 0 then 0 else w
    { r with w := w, x := irect.p.x }
  else r

/-- The block `if (r.x + r.w > irect.q.x) { r.w = irect.q.x - r.x; if (r.w < 0) r.w = 0; }`. -/
def restrict_x_max (r : image_rect) (irect : gs_int_rect) : image_rect :=
  if r.x + r.w > irect.q.x then
    let w := irect.q.x - r.x
    let w := if w < 0 then 0 else w
    { r with w := w }
  else r

/-- The block `if (r.y < irect.p.y) { r.h -= irect.p.y - r.y; if (r.h < 0) r.h = 0; r.y = irect.p.y; }`. -/
def restrict_y_min (r : image_rect) (irect : gs_int_rect) : image_rect :=
  if r.y < irect.p.y then
    let h := r.h - (irect.p.y - r.y)
    let h := if h < 0 then 0 else h
    { r with h := h, y := irect.p.y }
  else r

/-- The block `if (r.y + r.h > irect.q.y) { r.h = irect.q.y - r.y; if (r.h < 0) r.h = 0; }`. -/
def restrict_y_max (r : image_rect) (irect : gs_int_rect) : image_rect :=
  if r.y + r.h > irect.q.y then
    let h := irect.q.y - r.y
    let h := if h < 0 then 0 else h
    { r with h := h }
  else r

/-- The four blocks applied in the order of the source to one rectangle
(the source writes them out once for `rrect` and once for `drect`). -/
def restrict_to_irect (r : image_rect) (irect : gs_int_rect) : image_rect :=
  restrict_y_max (restrict_y_min (restrict_x_max (restrict_x_min r irect) irect) irect) irect

/-- The body of the `while (!pim->imagematrices_are_untrustworthy)` loop as
far as the rectangles go: `irect` is the projected integer box, or `none`
when the loop is not entered or is left by one of its early `break`s. -/
def restrict_rects (e : gx_image_enum) (irect : Option gs_int_rect) : gx_image_enum :=
  match irect with
  | none => e
  | some ir =>
      { e with rrect := restrict_to_irect e.rrect ir, drect := restrict_to_irect e.drect ir }

/-- The test "Check for the intersection being null" of `a` against `b`. -/
def null_intersection (a b : image_rect) : Bool :=
  decide (a.x + a.w ≤ b.x ∨ b.x + b.w ≤ a.x ∨ a.y + a.h ≤ b.y ∨ b.y + b.h ≤ a.y)

/-- The two null-intersection resets: `drect` against `rect`, then `rrect`
against the (possibly reset) `drect`. -/
def null_intersection_reset (e : gx_image_enum) : gx_image_enum :=
  let e1 : gx_image_enum :=
    if null_intersection e.drect e.rect then
      { e with drect := { x := e.rect.x, y := e.rect.y, w := 0, h := 0 } }
    else e
  if null_intersection e1.rrect e1.drect then
    { e1 with rrect := { x := e1.drect.x, y := e1.drect.y, w := 0, h := 0 } }
  else e1

/-- The rectangle-restriction and null-intersection stage of
`gx_image_enum_begin`, starting from the enumerator left by
`gx_image_enum_alloc` (`rrect = drect = rect`). -/
def restriction_stage (rect : image_rect) (irect : Option gs_int_rect) : gx_image_enum :=
  null_intersection_reset
    (restrict_rects { rect := rect, rrect := rect, drect := rect } irect)

/-! ## Matrices and `gx_image_compute_mat` -/

/-- The six coefficients of `gs_matrix` / `gs_matrix_double`. -/
structure gs_matrix where
  xx : ℚ
  xy : ℚ
  yx : ℚ
  yy : ℚ
  tx : ℚ
  ty : ℚ
  deriving DecidableEq, Repr

/-- Modelled from the spec: `gs_matrix_invert_to_double` of `gsmatrix.c`, which is not
among the sources: "invert the image-to-user matrix ...; fails with a geometry
error if the matrix is singular".  Returns the code and the matrix written
to the result (left alone on failure). -/
def gs_matrix_invert_to_double (m : gs_matrix) (r0 : gs_matrix) : Int × gs_matrix :=
  let det := m.xx * m.yy - m.xy * m.yx
  if det = 0 then (gs_error_undefinedresult, r0)
  else
    let ixx := m.yy / det
    let ixy := -m.xy / det
    let iyx := -m.yx / det
    let iyy := m.xx / det
    (0, { xx := ixx, xy := ixy, yx := iyx, yy := iyy,
          tx := -(m.tx * ixx + m.ty * iyx), ty := -(m.tx * ixy + m.ty * iyy) })

/-- Modelled from the spec: `gs_matrix_multiply_double` of `gsmatrix.c`, which is not
among the sources: "multiply by the destination transform". -/
def gs_matrix_multiply_double (a b : gs_matrix) : Int × gs_matrix :=
  (0, { xx := a.xx * b.xx + a.xy * b.yx, xy := a.xx * b.xy + a.xy * b.yy,
        yx := a.yx * b.xx + a.yy * b.yx, yy := a.yx * b.xy + a.yy * b.yy,
        tx := a.tx * b.xx + a.ty * b.yx + b.tx, ty := a.tx * b.xy + a.ty * b.yy + b.ty })

/-- Result of `gx_image_compute_mat`: the return code, the contents of
`*rmat` after the call, and how many matrix inversions were performed. -/
structure compute_mat_result where
  code : Int
  rmat : gs_matrix
  inversions : Nat
  deriving DecidableEq, Repr

/-- The routine `gx_image_compute_mat`.  `invert` and `multiply` are the two matrix
procedures it calls, `ctm` is `ctm_only(pgs)`, `rmat0` the contents of
`*rmat` on entry. -/
def gx_image_compute_mat (invert : gs_matrix → gs_matrix → Int × gs_matrix)
    (multiply : gs_matrix → gs_matrix → Int × gs_matrix)
    (ctm : gs_matrix) (pmat : Option gs_matrix) (ImageMatrix : gs_matrix)
    (rmat0 : gs_matrix) : compute_mat_result :=
  let pmat := pmat.getD ctm
  if ImageMatrix.xx = pmat.xx ∧ ImageMatrix.xy = pmat.xy ∧
      ImageMatrix.yx = pmat.yx ∧ ImageMatrix.yy = pmat.yy then
    { code := 0,
      rmat := { xx := 1, yy := 1, xy := 0, yx := 0,
                tx := pmat.tx - ImageMatrix.tx, ty := pmat.ty - ImageMatrix.ty },
      inversions := 0 }
  else
    let r1 := invert ImageMatrix rmat0
    if r1.1 < 0 then { code := r1.1, rmat := r1.2, inversions := 1 }
    else
      let r2 := multiply r1.2 pmat
      if r2.1 < 0 then { code := r2.1, rmat := r2.2, inversions := 1 }
      else { code := r2.1, rmat := r2.2, inversions := 1 }

/-! ## Fixed-point conversions -/

/-- The fixed-point type and conversion macros of `gxfixed.h`, which is not
among the sources; the code that uses them takes them as a parameter. -/
structure fixed_ops where
  fixed_scale : ℚ
  min_fixed : Int
  max_fixed : Int
  float2fixed : ℚ → Int
  fixed2int : Int → Int
  fixed2int_ceiling : Int → Int
  int2fixed : Int → Int
  fixed2float : Int → ℚ

/-- Modelled from the spec: the "fixed-point device coordinates" of `gxfixed.h`, which
is not among the sources, as a 32-bit integer with 8 fraction bits:
conversion from floating point is the C cast (truncation toward zero),
`fixed2int` the arithmetic right shift (floor), `fixed2int_ceiling` the
shift after adding `fixed_1 - 1`. -/
def gxfixed : fixed_ops where
  fixed_scale := 256
  min_fixed := -2147483648
  max_fixed := 2147483647
  float2fixed := fun f => if 0 ≤ f then ⌊f * 256⌋ else ⌈f * 256⌉
  fixed2int := fun x => x / 256
  fixed2int_ceiling := fun x => (x + 255) / 256
  int2fixed := fun i => i * 256
  fixed2float := fun x => (x : ℚ) / 256

/-- The routine `float2fixed_rounded_boxed`: "Convert and restrict to a valid range." -/
def float2fixed_rounded_boxed (fx : fixed_ops) (src : ℚ) : Int :=
  let v : Int := ⌊src * fx.fixed_scale + 1 / 2⌋
  if v ≤ fx.min_fixed then fx.min_fixed
  else if v ≥ fx.max_fixed then fx.max_fixed
  else v

/-! ## Grid fitting (`gx_image_enum_begin`) -/

/-- The members of the graphics state read by the grid-fit stage. -/
structure gs_gstate where
  show_gstate : Bool
  fill_adjust : gs_int_point
  deriving DecidableEq, Repr

/-- The step "Figure out if we are orthogonal": 1 when both cross terms are zero,
2 when both diagonal terms are zero, 0 otherwise. -/
def orthogonal (mat : gs_matrix) : Int :=
  if mat.xy = 0 ∧ mat.yx = 0 then 1
  else if mat.xx = 0 ∧ mat.yy = 0 then 2
  else 0

/-- The variable `in_pattern_accumulator`: the answer of the device to
`gxdso_in_pattern_accumulator`, with a negative answer replaced by 0. -/
def in_pattern_accumulator (dso_in_pattern_accumulator : Int) : Int :=
  if dso_in_pattern_accumulator < 0 then 0 else dso_in_pattern_accumulator

/-- The assignment `in_smask = (pim->override_in_smask || dev_spec_op(dev, gxdso_in_smask) > 0)`. -/
def in_smask (override_in_smask : Bool) (dso_in_smask : Int) : Bool :=
  override_in_smask || decide (dso_in_smask > 0)

/-- The assignment `gridfitimages = (in_smask || in_pattern_accumulator) && orthogonal`. -/
def gridfitimages (override_in_smask : Bool) (dso_in_smask dso_in_pattern_accumulator : Int)
    (mat : gs_matrix) : Bool :=
  (in_smask override_in_smask dso_in_smask ||
      decide (in_pattern_accumulator dso_in_pattern_accumulator ≠ 0)) &&
    decide (orthogonal mat ≠ 0)

/-- The block for a positive scale `s` along an axis of `n` samples starting
at `t`, in exact arithmetic (`grid_fit_pos_double` rounds): returns the new
translation and the new scale. -/
def grid_fit_pos (fx : fixed_ops) (t s : ℚ) (n : Int) : ℚ × ℚ :=
  let i0 := fx.int2fixed (fx.fixed2int (fx.float2fixed t))
  let x1 := t + s * n
  let i1 := fx.int2fixed (fx.fixed2int_ceiling (fx.float2fixed x1))
  (fx.fixed2float i0, fx.fixed2float (i1 - i0) / n)

/-- The block for a negative scale `s` along an axis of `n` samples starting
at `t`, in exact arithmetic (`grid_fit_neg_double` rounds): returns the new
translation and the new scale. -/
def grid_fit_neg (fx : fixed_ops) (t s : ℚ) (n : Int) : ℚ × ℚ :=
  let i0 := fx.int2fixed (fx.fixed2int_ceiling (fx.float2fixed t))
  let x1 := t + s * n
  let i1 := fx.int2fixed (fx.fixed2int (fx.float2fixed x1))
  (fx.fixed2float i0, fx.fixed2float (i1 - i0) / n)

/-- One `if (s > 0) { ... } else if (s < 0) { ... }` of the grid-fit stage. -/
def grid_fit_axis (fx : fixed_ops) (t s : ℚ) (n : Int) : ℚ × ℚ :=
  if s > 0 then grid_fit_pos fx t s n
  else if s < 0 then grid_fit_neg fx t s n
  else (t, s)

/-- The branch `orthogonal == 1` of the grid-fit stage. -/
def grid_fit_portrait (fx : fixed_ops) (gridfit : Bool) (width height : Int)
    (mat : gs_matrix) : gs_matrix :=
  let mat :=
    if width = 1 ∨ gridfit = true then
      let r := grid_fit_axis fx mat.tx mat.xx width
      { mat with tx := r.1, xx := r.2 }
    else mat
  if height = 1 ∨ gridfit = true then
    let r := grid_fit_axis fx mat.ty mat.yy height
    { mat with ty := r.1, yy := r.2 }
  else mat

/-- The branch `orthogonal == 2` of the grid-fit stage. -/
def grid_fit_landscape (fx : fixed_ops) (gridfit : Bool) (width height : Int)
    (mat : gs_matrix) : gs_matrix :=
  let mat :=
    if height = 1 ∨ gridfit = true then
      let r := grid_fit_axis fx mat.tx mat.yx height
      { mat with tx := r.1, yx := r.2 }
    else mat
  if width = 1 ∨ gridfit = true then
    let r := grid_fit_axis fx mat.ty mat.xy width
    { mat with ty := r.1, xy := r.2 }
  else mat

/-- The grid-fit stage of `gx_image_enum_begin`: the `if ... else if` chain
from `if (pgs != NULL && pgs->show_gstate != NULL)` to the end of the
`orthogonal == 2` branch.  `pgs` is `none` for a `NULL` graphics state,
`masked` and `image_parent_type` are the members of `penum`. -/
def grid_fit (fx : fixed_ops) (pgs : Option gs_gstate) (masked : Bool)
    (image_parent_type : Int) (override_in_smask : Bool)
    (dso_in_smask dso_in_pattern_accumulator : Int) (width height : Int)
    (mat : gs_matrix) : gs_matrix :=
  let orth := orthogonal mat
  let gridfit := gridfitimages override_in_smask dso_in_smask dso_in_pattern_accumulator mat
  let in_show := match pgs with
    | some g => g.show_gstate
    | none => false
  let no_adjust := match pgs with
    | some g => decide (g.fill_adjust.x = 0 ∧ g.fill_adjust.y = 0)
    | none => false
  if in_show = true then mat
  else if gridfit = false ∧ (masked = false ∨ image_parent_type ≠ 0) then mat
  else if gridfit = true ∧ (masked = true ∧ image_parent_type = 0) then mat
  else if no_adjust = true then mat
  else if orth = 1 then grid_fit_portrait fx gridfit width height mat
  else if orth = 2 then grid_fit_landscape fx gridfit width height mat
  else mat

/-! ## Extents and posture (`gx_image_enum_begin`) -/

/-- Fixed-point point, `gs_fixed_point`. -/
structure gs_fixed_point where
  x : Int
  y : Int
  deriving DecidableEq, Repr

/-- The enumeration `image_posture`. -/
inductive image_posture where
  | image_portrait
  | image_landscape
  | image_skewed
  deriving DecidableEq, Repr

/-- Modelled from the spec: the macro `is_fzero` of `gxarith.h`, which is not among the
sources: the test that a floating-point term "is zero". -/
def is_fzero (f : ℚ) : Bool := decide (f = 0)

/-- The extent of `n` samples along a row: `x` is
`float2fixed_rounded_boxed(n * mat.xx)`, `y` is `fixed_0` when `mat.xy` is
zero and `float2fixed_rounded_boxed(n * mat.xy)` otherwise. -/
def row_extent_of (fx : fixed_ops) (n : Int) (mat : gs_matrix) : gs_fixed_point :=
  { x := float2fixed_rounded_boxed fx (n * mat.xx),
    y := if is_fzero mat.xy then 0 else float2fixed_rounded_boxed fx (n * mat.xy) }

/-- The extent of `n` samples along a column: `x` is `fixed_0` when `mat.yx`
is zero and `float2fixed_rounded_boxed(n * mat.yx)` otherwise, `y` is
`float2fixed_rounded_boxed(n * mat.yy)`. -/
def col_extent_of (fx : fixed_ops) (n : Int) (mat : gs_matrix) : gs_fixed_point :=
  { x := if is_fzero mat.yx then 0 else float2fixed_rounded_boxed fx (n * mat.yx),
    y := float2fixed_rounded_boxed fx (n * mat.yy) }

/-- The variable `x_extent`: `row_extent` when `rect` is the whole image, the extent of
`rect.w` samples otherwise. -/
def x_extent (fx : fixed_ops) (width height : Int) (rect : image_rect) (mat : gs_matrix) :
    gs_fixed_point :=
  if rect.w = width ∧ rect.h = height then row_extent_of fx width mat
  else row_extent_of fx rect.w mat

/-- The variable `y_extent`: `col_extent` when `rect` is the whole image, the extent of
`rect.h` samples otherwise. -/
def y_extent (fx : fixed_ops) (width height : Int) (rect : image_rect) (mat : gs_matrix) :
    gs_fixed_point :=
  if rect.w = width ∧ rect.h = height then col_extent_of fx height mat
  else col_extent_of fx rect.h mat

/-- The member `penum->posture`, from the two extents. -/
def posture_of (xe ye : gs_fixed_point) : image_posture :=
  if Int.lor xe.y ye.x = 0 then .image_portrait
  else if Int.lor xe.x ye.y = 0 then .image_landscape
  else .image_skewed

/-- The member `penum->posture` as `gx_image_enum_begin` sets it from the combined
matrix, the image size and `penum->rect`. -/
def posture (fx : fixed_ops) (width height : Int) (rect : image_rect) (mat : gs_matrix) :
    image_posture :=
  posture_of (x_extent fx width height rect mat) (y_extent fx width height rect mat)

/-! ## Floating-point rounding

Where a claim depends on it, a floating-point operation is the exact operation on
rationals followed by the rounding of the format: `float` has 24 significant bits,
`double` has 53.  The exponent range is not bounded: overflow and subnormal numbers
are not modelled. -/

/-- The integer nearest to `q`, the even one of the two when `q` lies halfway. -/
def round_half_even (q : ℚ) : Int :=
  if q - ⌊q⌋ < 1 / 2 then ⌊q⌋
  else if 1 / 2 < q - ⌊q⌋ then ⌊q⌋ + 1
  else if ⌊q⌋ % 2 = 0 then ⌊q⌋
  else ⌊q⌋ + 1

/-- The number of `p` significant bits nearest to `q`, ties to even: the rounding of a
binary floating-point format in the default rounding mode. -/
def round_to (p : Nat) (q : ℚ) : ℚ :=
  if q = 0 then 0
  else
    let u : ℚ := (2 : ℚ) ^ (Int.log 2 |q| + 1 - (p : Int))
    (round_half_even (q / u) : ℚ) * u

/-- The rounding of the C type `float` (binary32). -/
def round_float (q : ℚ) : ℚ := round_to 24 q

/-- The rounding of the C type `double` (binary64). -/
def round_double (q : ℚ) : ℚ := round_to 53 q

/-! ## Sample maps (`image_init_map`) -/

/-- The C conversion of a floating-point value to an integer type:
truncation toward zero. -/
def c_trunc (f : ℚ) : Int :=
  if 0 ≤ f then ⌊f⌋ else ⌈f⌉

/-- The integer-stepping loop of `image_init_map`:
`for (; map != limit; map++, value += diff) *map = value >> 8;`
with `value` an unsigned 32-bit integer and each entry stored in a byte.
`n` is the number of entries still to write. -/
def init_map_step_loop (n : Nat) (value : Nat) (diff : Int) : List Nat :=
  match n with
  | 0 => []
  | n + 1 =>
      ((value >>> 8) % 256) ::
        init_map_step_loop n (((value : Int) + diff) % 4294967296).toNat diff

/-- The successive values of the unsigned variable `value` at the `n` writes
of the integer-stepping loop of `image_init_map`. -/
def init_map_step_values (n : Nat) (value : Nat) (diff : Int) : List Nat :=
  match n with
  | 0 => []
  | n + 1 =>
      value :: init_map_step_values n (((value : Int) + diff) % 4294967296).toNat diff

/-- The floating-point loop of `image_init_map`, entries `i .. map_size - 1`
(`n` entries still to write):
`int value = (int)((min_v + diff_v * i / (map_size - 1)) * 255);`
with every operation a `float` operation. -/
def init_map_float_loop (n : Nat) (i : Int) (map_size : Int) (min_v diff_v : ℚ) :
    List Nat :=
  match n with
  | 0 => []
  | n + 1 =>
      let value : Int := c_trunc (round_float (round_float (min_v +
        round_float (round_float (diff_v * i) / ((map_size - 1 : Int) : ℚ))) * 255))
      (if value < 0 then 0 else if value > 255 then 255 else value.toNat) ::
        init_map_float_loop n (i + 1) map_size min_v diff_v

/-- The routine `image_init_map`: the `map_size` bytes written to `map` for the Decode
pair `(decode0, decode1)`; the operations on `min_v` and `diff_v` are `float`
operations. -/
def image_init_map (map_size : Nat) (decode0 decode1 : ℚ) : List Nat :=
  let min_v := decode0
  let diff_v := round_float (decode1 - min_v)
  if diff_v = 1 ∨ diff_v = -1 then
    let value : Nat := ((c_trunc (round_float (min_v * 65535))) % 4294967296).toNat
    let diff : Int :=
      c_trunc (round_float (diff_v * ((Int.tdiv 65535 ((map_size : Int) - 1) : Int) : ℚ)))
    init_map_step_loop map_size value diff
  else
    init_map_float_loop map_size 0 map_size min_v diff_v

/-! ## Control flow of `gx_image_enum_begin`

The setup routine is modelled stage by stage, in the order of the source.
What the collaborators return (allocators, colour-space and device
procedures, the renderer classes) is an input; the state records which
resources the routine holds. -/

/-- A resource acquired during setup: never acquired, acquired and still
held, or released (freed, or its reference dropped). -/
inductive resource where
  | absent
  | held
  | released
  deriving DecidableEq, Repr

/-- A DDA generator (`gx_dda_fixed`), recorded by the arguments of its
`dda_init` and the number of steps applied to it since (`dda_next` is one
step, `dda_advance(dda, n)` is `n` steps).  The macros of `gxdda.h` that
interpret it are not among the sources. -/
structure gx_dda_fixed where
  init : Int
  diff : Int
  N : Int
  steps : Int
  deriving DecidableEq, Repr

/-- The macro `dda_init(dda, init, diff, N)`. -/
def dda_init (init diff N : Int) : gx_dda_fixed :=
  { init := init, diff := diff, N := N, steps := 0 }

/-- The macro `dda_advance(dda, n)`; `dda_next(dda)` is `dda_advance dda 1`. -/
def dda_advance (dda : gx_dda_fixed) (n : Int) : gx_dda_fixed :=
  { dda with steps := dda.steps + n }

/-- What one renderer class procedure `gx_image_class_table[i]` does when
called: its return code and the renderer it stores in `render_fn`
(`none` when it leaves `render_fn` `NULL`). -/
structure class_result where
  code : Int
  render_fn : Option Nat
  deriving DecidableEq, Repr

/-- The inputs of `gx_image_enum_begin` that decide its control flow. -/
structure begin_env where
  /-- return code of `gx_image_compute_mat` -/
  mat_code : Int
  width : Int
  height : Int
  bps : Int
  format : gs_image_format_t
  /-- The value of `penum->masked` on entry -/
  masked : Bool
  /-- The value of `penum->alpha` -/
  alpha : Bool
  /-- Whether `pim->ColorSpace != NULL` -/
  has_pcs : Bool
  /-- The value of `cs_num_components(pcs)` -/
  num_components : Int
  decode0 : ℚ
  decode1 : ℚ
  /-- The value of `penum->rect` -/
  rect : image_rect
  /-- Whether `gs_alloc_bytes` of the clue table returns non-null -/
  clues_alloc : Bool
  /-- return code of `image_init_colors` -/
  init_colors_code : Int
  /-- Whether `gs_color_space_is_PSCIE(pcs) && pcs->icc_equivalent == NULL` -/
  pscie_without_equivalent : Bool
  /-- return code of `gs_colorspace_set_icc_equivalent` -/
  set_icc_equivalent_code : Int
  /-- Whether `gs_alloc_bytes` of the sample buffer returns non-null -/
  buffer_alloc : Bool
  /-- Whether `lop != (masked ? rop3_T : rop3_S)` after the raster-op simplifications -/
  use_rop : Bool
  mtx : Int
  mty : Int
  row_extent : gs_fixed_point
  col_extent : gs_fixed_point
  /-- the macro `dda_will_overflow` of `gxdda.h` -/
  dda_will_overflow : gx_dda_fixed → Bool
  /-- the macro `dda_current` of `gxdda.h` -/
  dda_current : gx_dda_fixed → Int
  /-- Whether `penum->clip_image` is non-zero when the clipping device is considered -/
  clip_image : Bool
  /-- Whether `pcpath != NULL` -/
  has_pcpath : Bool
  /-- Whether `gs_alloc_struct` of the clip device returns non-null -/
  cdev_alloc : Bool
  /-- return code of `gx_alloc_rop_texture_device` -/
  rop_alloc_code : Int
  /-- Whether `dev != NULL` -/
  has_dev : Bool
  /-- The table `gx_image_class_table`, by what each class answers -/
  class_table : List class_result

/-- The resources and members tracked through `gx_image_enum_begin`. -/
structure begin_state where
  /-- the enumerator allocated by `gx_image_enum_alloc` -/
  penum : resource
  clues : resource
  buffer : resource
  /-- the sample-buffer allocation has been attempted -/
  buffer_alloc_attempted : Bool
  clip_dev : resource
  rop_dev : resource
  /-- Whether `penum->pcs != NULL` -/
  pcs_set : Bool
  /-- net change made to the reference count of the colour space -/
  pcs_rc : Int
  spp : Int
  format : gs_image_format_t
  row_x : Option gx_dda_fixed
  row_y : Option gx_dda_fixed
  strip_x : Option gx_dda_fixed
  strip_y : Option gx_dda_fixed
  /-- The value of `penum->render` -/
  render : Option Nat
  /-- number of renderer classes called -/
  classes_called : Nat
  deriving DecidableEq, Repr

/-- What `gx_image_enum_begin` returns, with the state it leaves. -/
structure begin_result where
  code : Int
  state : begin_state
  deriving DecidableEq, Repr

/-- The state on entry: the enumerator is held, `penum->pcs` and
`penum->clues` have been set to `NULL`. -/
def begin_state_init (env : begin_env) : begin_state :=
  { penum := .held, clues := .absent, buffer := .absent, buffer_alloc_attempted := false,
    clip_dev := .absent, rop_dev := .absent, pcs_set := false, pcs_rc := 0,
    spp := 0, format := env.format, row_x := none, row_y := none,
    strip_x := none, strip_y := none, render := none, classes_called := 0 }

/-- The call `gs_free_object` on a pointer that is `NULL` when the resource was never
acquired. -/
def free_resource (r : resource) : resource :=
  match r with
  | .held => .released
  | r => r

/-- The code at the label `fail:`: free the buffer and the clues, drop the
reference to the clip device if there is one, drop the reference to
`penum->pcs`, free the enumerator, return `code`. -/
def begin_fail (code : Int) (s : begin_state) : begin_result :=
  { code := code,
    state := { s with
      buffer := free_resource s.buffer,
      clues := free_resource s.clues,
      clip_dev := free_resource s.clip_dev,
      pcs_rc := if s.pcs_set then s.pcs_rc - 1 else s.pcs_rc,
      pcs_set := false,
      penum := free_resource s.penum } }

/-- The `switch (format)` "Use a less expensive format if possible" of the
non-mask branch. -/
def cheaper_format (format : gs_image_format_t) (bps spp : Int) : gs_image_format_t :=
  match format with
  | .bit_planar =>
      if bps > 1 then .bit_planar
      else if spp = 1 then .chunky else .component_planar
  | .component_planar => if spp = 1 then .chunky else .component_planar
  | f => f

/-- First stage: the matrix, the clue table and the colour set-up, up to
`penum->device_color = device_color`.  An `error` is a return of
`gx_image_enum_begin`. -/
def begin_colors (env : begin_env) : Except begin_result begin_state :=
  let s := begin_state_init env
  if env.mat_code < 0 then
    .error { code := env.mat_code, state := s }
  else if (env.masked || decide (env.num_components = 1)) && !env.clues_alloc then
    .error (begin_fail gs_error_VMerror s)
  else
    let s := if env.masked || decide (env.num_components = 1) then { s with clues := .held }
      else s
    if env.masked then
      if env.bps ≠ 1 ∨ env.has_pcs = true ∨ env.alpha = true ∨ env.decode0 = env.decode1 then
        .error (begin_fail gs_error_rangecheck s)
      else
        .ok { s with spp := 1 }
    else
      let spp := env.num_components
      if spp < 0 then
        .error (begin_fail gs_error_rangecheck s)
      else
        let spp := if env.alpha then spp + 1 else spp
        let s := { s with spp := spp, format := cheaper_format env.format env.bps spp }
        if env.init_colors_code < 0 then
          .error { code := env.init_colors_code,
                   state := { s with clues := free_resource s.clues,
                                     penum := free_resource s.penum } }
        else if env.pscie_without_equivalent = true ∧ env.set_icc_equivalent_code < 0 then
          .error (begin_fail env.set_icc_equivalent_code s)
        else
          .ok s

/-- Second stage: the sample buffer, the `switch (format)` that sets the
planes, and the reference taken on the colour space. -/
def begin_buffer (env : begin_env) (s : begin_state) : Except begin_result begin_state :=
  let s := { s with buffer_alloc_attempted := true }
  if !env.buffer_alloc then
    .error (begin_fail gs_error_VMerror s)
  else
    let s := { s with buffer := .held }
    if s.format = .other then
      .error { code := gs_error_Fatal, state := s }
    else
      .ok { s with pcs_set := env.has_pcs,
                   pcs_rc := if env.has_pcs then s.pcs_rc + 1 else s.pcs_rc }

/-- Third stage: the row and strip generators. -/
def begin_dda (env : begin_env) (s : begin_state) : Except begin_result begin_state :=
  let row_x := dda_init env.mtx env.col_extent.x env.height
  let row_y := dda_init env.mty env.col_extent.y env.height
  let s := { s with row_x := some row_x, row_y := some row_y }
  if env.dda_will_overflow row_x || env.dda_will_overflow row_y then
    .error (begin_fail gs_error_rangecheck s)
  else
    let row_x := if env.rect.y ≠ 0 then dda_advance row_x env.rect.y else row_x
    let row_y := if env.rect.y ≠ 0 then dda_advance row_y env.rect.y else row_y
    let cur_x := env.dda_current row_x
    let cur_y := env.dda_current row_y
    let strip_x := dda_init cur_x env.row_extent.x env.width
    let strip_y := dda_init cur_y env.row_extent.y env.width
    let s := { s with row_x := some row_x, row_y := some row_y,
                      strip_x := some strip_x, strip_y := some strip_y }
    if env.dda_will_overflow strip_x || env.dda_will_overflow strip_y then
      .error (begin_fail gs_error_rangecheck s)
    else
      let strip_x := if env.rect.x ≠ 0 then dda_advance strip_x env.rect.x else strip_x
      let strip_y := if env.rect.x ≠ 0 then dda_advance strip_y env.rect.x else strip_y
      .ok { s with strip_x := some strip_x, strip_y := some strip_y }

/-- Fourth stage: the clipping device and the RasterOp source device. -/
def begin_wrappers (env : begin_env) (s : begin_state) : Except begin_result begin_state :=
  if (env.clip_image && env.has_pcpath) && !env.cdev_alloc then
    .error (begin_fail gs_error_VMerror s)
  else
    let s := if env.clip_image && env.has_pcpath then { s with clip_dev := .held } else s
    if env.use_rop then
      if env.rop_alloc_code < 0 then
        .error (begin_fail env.rop_alloc_code s)
      else if s.clip_dev ≠ .held ∧ env.has_dev = false then
        .error { code := gs_error_undefined, state := s }
      else
        .ok { s with rop_dev := .held }
    else
      .ok s

/-- Outcome of the loop over `gx_image_class_table`. -/
inductive probe_outcome where
  /-- a class returned a negative code -/
  | failed (code : Int) (called : Nat)
  /-- a class stored a renderer; the loop was left by `break` -/
  | claimed (render_fn : Nat) (called : Nat)
  /-- the loop ran to `i == gx_image_class_table_count` -/
  | unclaimed (called : Nat)
  deriving DecidableEq, Repr

/-- The loop `for (i = 0; i < gx_image_class_table_count; ++i)`; `called`
counts the classes called so far. -/
def probe_classes (table : List class_result) (called : Nat) : probe_outcome :=
  match table with
  | [] => .unclaimed called
  | c :: rest =>
      if c.code < 0 then .failed c.code (called + 1)
      else
        match c.render_fn with
        | some f => .claimed f (called + 1)
        | none => probe_classes rest (called + 1)

/-- Last stage: the renderer classes are probed and the routine returns. -/
def begin_dispatch (env : begin_env) (s : begin_state) : begin_result :=
  match probe_classes env.class_table 0 with
  | .failed code called => begin_fail code { s with classes_called := called }
  | .claimed f called =>
      { code := 0, state := { s with render := some f, classes_called := called } }
  | .unclaimed called =>
      { code := gs_error_rangecheck, state := { s with classes_called := called } }

/-- The stages of `gx_image_enum_begin` that precede the renderer dispatch,
in the order of the source. -/
def begin_setup (env : begin_env) : Except begin_result begin_state :=
  match begin_colors env with
  | .error r => .error r
  | .ok s1 =>
    match begin_buffer env s1 with
    | .error r => .error r
    | .ok s2 =>
      match begin_dda env s2 with
      | .error r => .error r
      | .ok s3 => begin_wrappers env s3

/-- The control flow of `gx_image_enum_begin`. -/
def gx_image_enum_begin (env : begin_env) : begin_result :=
  match begin_setup env with
  | .error r => r
  | .ok s => begin_dispatch env s

/-- Scenario A of the specification as an input of the control flow: an 8-bit
grayscale 4x4 chunky image, every allocation succeeding, no clip path, no
raster operation, generators that never overflow, and a class table whose
second class claims the image with renderer 7. -/
def scenario_env : begin_env where
  mat_code := 0
  width := 4
  height := 4
  bps := 8
  format := .chunky
  masked := false
  alpha := false
  has_pcs := true
  num_components := 1
  decode0 := 0
  decode1 := 1
  rect := ⟨0, 0, 4, 4⟩
  clues_alloc := true
  init_colors_code := 0
  pscie_without_equivalent := false
  set_icc_equivalent_code := 0
  buffer_alloc := true
  use_rop := false
  mtx := 0
  mty := 0
  row_extent := ⟨1024, 0⟩
  col_extent := ⟨0, 1024⟩
  dda_will_overflow := fun _ => false
  dda_current := fun d => d.init
  clip_image := false
  has_pcpath := false
  cdev_alloc := true
  rop_alloc_code := 0
  has_dev := true
  class_table := [⟨0, none⟩, ⟨0, some 7⟩, ⟨0, some 9⟩]

/-! ## Clue table and the mask branch -/

/-- The kinds of device colour that matter here: `gx_dc_type_none`
(unresolved), `gx_dc_type_pure`, and any other type, by a number. -/
inductive gx_device_color_type where
  | gx_dc_type_none
  | gx_dc_type_pure
  | gx_dc_type_other (n : Nat)
  deriving DecidableEq, Repr

/-- The members of `gx_device_color` written by the setup code: the type,
the pure colour index `colors.pure`, and the tag. -/
structure gx_device_color where
  type : gx_device_color_type
  pure : Int
  tag : Int
  deriving DecidableEq, Repr

/-- One entry of the clue table, `gx_image_clue`. -/
structure gx_image_clue where
  dev_color : gx_device_color
  key : Int
  deriving DecidableEq, Repr

/-- Modelled from the spec: the colour index of the "transparent" colour,
`gx_no_color_index`, all ones in a 64-bit `gx_color_index`; `gxcindex.h` is
not among the sources. -/
def gx_no_color_index : Int := 18446744073709551615

/-- Modelled from the spec: the macro `set_nonclient_dev_color` of `gxdcolor.h`, which
is not among the sources: the colour becomes the pure colour of the given
index ("pre-resolved"). -/
def set_nonclient_dev_color (c : gx_device_color) (index : Int) : gx_device_color :=
  { c with type := .gx_dc_type_pure, pure := index }

/-- Assignment `penum->clues[i].dev_color.type = t`. -/
def set_clue_type (clues : Nat → gx_image_clue) (i : Nat) (t : gx_device_color_type) :
    Nat → gx_image_clue :=
  fun j => if j = i then { clues j with dev_color := { (clues j).dev_color with type := t } }
    else clues j

/-- Assignment of `gx_dc_type_none` to the type of each listed entry. -/
def set_clue_types_none (clues : Nat → gx_image_clue) (is : List Nat) : Nat → gx_image_clue :=
  is.foldl (fun c i => set_clue_type c i .gx_dc_type_none) clues

/-- The function `image_init_clues`: the clue table after the call, from the
table before it (256 entries, indexed from 0). -/
def image_init_clues (clues : Nat → gx_image_clue) (bps spp : Int) : Nat → gx_image_clue :=
  let sel := if spp = 1 then bps else 8
  if sel = 8 then
    fun j =>
      if j < 256 then
        { dev_color := { (clues j).dev_color with type := .gx_dc_type_none },
          key := if j = 0 then 1 else 0 }
      else clues j
  else if sel = 4 then
    set_clue_types_none
      (set_clue_types_none clues
        [17, 2 * 17, 3 * 17, 4 * 17, 6 * 17, 7 * 17, 8 * 17, 9 * 17, 11 * 17, 12 * 17,
          13 * 17, 14 * 17])
      [5 * 17, 10 * 17]
  else if sel = 2 then
    set_clue_types_none clues [5 * 17, 10 * 17]
  else clues

/-- Which of the two constant tables was copied into
`map[0].table.lookup4x1to32`. -/
inductive lookup4x1to32_table where
  | lookup4x1to32_identity
  | lookup4x1to32_inverted
  deriving DecidableEq, Repr

/-- The decoding modes of `sample_map`. -/
inductive sample_decoding where
  | sd_none
  | sd_lookup
  | sd_compute
  deriving DecidableEq, Repr

/-- What the mask branch of `gx_image_enum_begin` sets. -/
structure mask_setup where
  clues : Nat → gx_image_clue
  table : lookup4x1to32_table
  decoding : sample_decoding
  spp : Int

/-- The mask branch of `gx_image_enum_begin` (`if (masked) { ... }`) with
the assignment of the tags that precedes it: `clues` is the freshly
allocated clue table, `tag` is `device_current_tag(dev)`, `pdcolor` the
drawing colour.  The error is the code with which the routine goes to
`fail:`. -/
def begin_mask_branch (clues : Nat → gx_image_clue) (tag : Int) (pdcolor : gx_device_color)
    (bps : Int) (has_pcs alpha : Bool) (decode0 decode1 : ℚ) : Except Int mask_setup :=
  let clues : Nat → gx_image_clue := fun j =>
    if j = 0 ∨ j = 255 then { clues j with dev_color := { (clues j).dev_color with tag := tag } }
    else clues j
  if bps ≠ 1 ∨ has_pcs = true ∨ alpha = true ∨ decode0 = decode1 then
    .error gs_error_rangecheck
  else
    let clues : Nat → gx_image_clue := fun j =>
      if j = 0 then
        { clues j with dev_color := set_nonclient_dev_color (clues j).dev_color gx_no_color_index }
      else clues j
    let clues : Nat → gx_image_clue := fun j =>
      if j = 255 then
        { clues j with dev_color := set_nonclient_dev_color (clues j).dev_color gx_no_color_index }
      else clues j
    let clues : Nat → gx_image_clue := fun j =>
      if j = 255 then { clues j with dev_color := pdcolor } else clues j
    .ok { clues := clues,
          table := if decode0 < decode1 then .lookup4x1to32_inverted
            else .lookup4x1to32_identity,
          decoding := .sd_none,
          spp := 1 }

/-! ## Colour cache (`image_init_color_cache`) -/

/-- The ICC link as far as `image_init_color_cache` looks at it. -/
structure gsicc_link where
  is_identity : Bool
  deriving DecidableEq, Repr

/-- How the cache (or the temporary source buffer) was filled. -/
inductive cache_fill where
  /-- identity link, decode and/or transfer applied per entry -/
  | identity_decode_transfer
  /-- identity link: "Indexing only.  No CM, decode or transfer functions." -/
  | identity_indexing_only
  /-- Branch "Decode and lookup in index", then colour management -/
  | cm_decode_indexed
  /-- Branch "Decode only", then colour management -/
  | cm_decode_only
  /-- indexed palette looked up entry by entry, then colour management -/
  | cm_indexed_slow
  /-- Branch "Use the index table directly", then colour management -/
  | cm_indexed_table
  /-- Branch "CM only" -/
  | cm_only
  deriving DecidableEq, Repr

/-- The cache `gx_image_color_cache_t` as allocated: the number of entries
of `is_transparent` (all false) and the number of bytes of
`device_contone`. -/
structure gx_image_color_cache_t where
  num_entries : Nat
  contone_bytes : Nat
  deriving DecidableEq, Repr

/-- The inputs of `image_init_color_cache` that decide its control flow. -/
structure color_cache_env where
  /-- The value of `penum->icc_link`, `none` for `NULL` -/
  icc_link : Option gsicc_link
  /-- The value of `penum->dev->color_info.num_components` -/
  num_des_comp : Nat
  need_decode : Bool
  has_transfer : Bool
  /-- the colour space is an Indexed space -/
  is_indexed : Bool
  /-- The value of `pcs->params.indexed.use_proc` -/
  use_proc : Bool
  /-- The value of `pcs->params.indexed.hival` -/
  hival : Int
  /-- Whether `gs_alloc_struct` of the cache returns non-null -/
  cache_alloc : Bool
  /-- Whether `gs_alloc_bytes` of `device_contone` returns non-null -/
  contone_alloc : Bool
  /-- Whether `gs_alloc_bytes` of `is_transparent` returns non-null -/
  transparent_alloc : Bool
  /-- Whether `gs_alloc_bytes` of the temporary buffer returns non-null -/
  temp_alloc : Bool
  /-- return code of the link's `map_buffer` procedure -/
  map_buffer_code : Int
  deriving DecidableEq, Repr

/-- What `image_init_color_cache` returns and leaves. -/
structure color_cache_result where
  code : Int
  /-- The value of `penum->color_cache` after the call -/
  color_cache : Option gx_image_color_cache_t
  /-- number of allocation requests made -/
  allocations : Nat
  /-- how the cache was filled, when it was -/
  fill : Option cache_fill
  /-- number of calls of the colour-management transform -/
  map_buffer_calls : Nat
  /-- the temporary buffer -/
  temp_buffer : resource
  deriving DecidableEq, Repr

/-- The function `image_init_color_cache`; `cache0` is `penum->color_cache`
on entry. -/
def image_init_color_cache (env : color_cache_env) (bps : Nat)
    (cache0 : Option gx_image_color_cache_t) : color_cache_result :=
  let num_entries := 1 <<< bps
  match env.icc_link with
  | none =>
      { code := -1, color_cache := cache0, allocations := 0, fill := none,
        map_buffer_calls := 0, temp_buffer := .absent }
  | some link =>
    if env.is_indexed = false ∧ link.is_identity = true ∧ env.need_decode = false ∧
        env.has_transfer = false then
      { code := 0, color_cache := cache0, allocations := 0, fill := none,
        map_buffer_calls := 0, temp_buffer := .absent }
    else if env.cache_alloc = false then
      { code := gs_error_VMerror, color_cache := none, allocations := 1, fill := none,
        map_buffer_calls := 0, temp_buffer := .absent }
    else if env.contone_alloc = false ∨ env.transparent_alloc = false then
      { code := gs_error_VMerror, color_cache := none, allocations := 3, fill := none,
        map_buffer_calls := 0, temp_buffer := .absent }
    else
      let cache : gx_image_color_cache_t :=
        { num_entries := num_entries, contone_bytes := env.num_des_comp * num_entries }
      if link.is_identity then
        { code := 0, color_cache := some cache, allocations := 3,
          fill := some (if env.need_decode = true ∨ env.has_transfer = true
            then .identity_decode_transfer else .identity_indexing_only),
          map_buffer_calls := 0, temp_buffer := .absent }
      else if env.temp_alloc = false then
        { code := gs_error_VMerror, color_cache := some cache, allocations := 4, fill := none,
          map_buffer_calls := 0, temp_buffer := .absent }
      else
        let fill : cache_fill :=
          if env.need_decode then
            if env.is_indexed then .cm_decode_indexed else .cm_decode_only
          else if env.is_indexed then
            if env.use_proc = true ∨ env.hival < (num_entries : Int) - 1 then .cm_indexed_slow
            else .cm_indexed_table
          else .cm_only
        let temp : resource := if fill = .cm_indexed_table then .released else .held
        if env.map_buffer_code < 0 then
          { code := env.map_buffer_code, color_cache := some cache, allocations := 4,
            fill := some fill, map_buffer_calls := 1, temp_buffer := temp }
        else
          { code := 0, color_cache := some cache, allocations := 4, fill := some fill,
            map_buffer_calls := 1, temp_buffer := free_resource temp }

/-! ## Colorant lookup (`devices/gdevrinkj.c`) -/

/-- The C function `strlen`: the number of bytes before the first zero
byte.  A C string is given by its bytes; reading past the end of the list
gives the terminating zero. -/
def c_strlen (s : List Nat) : Nat :=
  (s.takeWhile (fun b => b ≠ 0)).length

/-- The test `strncmp(a, b, n) == 0`: the first `n` bytes are compared one by
one, and the comparison stops with "equal" at a zero byte present in both. -/
def strncmp_eq (a b : List Nat) (n : Nat) : Bool :=
  match n with
  | 0 => true
  | n + 1 =>
      if a.headD 0 ≠ b.headD 0 then false
      else if a.headD 0 = 0 then true
      else strncmp_eq a.tail b.tail n

/-- The macro `compare_color_names(name, name_size, str, str_size)`. -/
def compare_color_names (name : List Nat) (name_size : Nat) (str : List Nat)
    (str_size : Nat) : Bool :=
  decide (name_size = str_size) && strncmp_eq name str name_size

/-- The loop `while (*pcolor)` over the standard colorant names: the result
of the `return` inside the loop, or the value of `color_component_number`
when the list is exhausted. -/
def std_names_loop (pname : List Nat) (name_size : Nat) (names : List (List Nat))
    (color_component_number : Int) : Int ⊕ Int :=
  match names with
  | [] => .inr color_component_number
  | pcolor :: rest =>
      if compare_color_names pname name_size pcolor (c_strlen pcolor) then
        .inl color_component_number
      else std_names_loop pname name_size rest (color_component_number + 1)

/-- The loop `for (i = 0; i < num_spot; i++)` over the separation names, each
given by its `data` bytes (its `size` is their number): the colorant number
returned, or -1. -/
def separation_names_loop (pname : List Nat) (name_size : Nat) (names : List (List Nat))
    (color_component_number : Int) : Int :=
  match names with
  | [] => -1
  | sep :: rest =>
      if compare_color_names sep sep.length pname name_size then color_component_number
      else separation_names_loop pname name_size rest (color_component_number + 1)

/-- The function `rinkj_get_color_comp_index`.  `std_colorant_names` is
`none` for a `NULL` list; `separation_names` holds the first `num_names`
entries of `separation_names.names`; `pname` holds the `name_size` bytes of
the name. -/
def rinkj_get_color_comp_index (std_colorant_names : Option (List (List Nat)))
    (separation_names : List (List Nat)) (pname : List Nat) : Int :=
  let name_size := pname.length
  let r : Int ⊕ Int :=
    match std_colorant_names with
    | some names => std_names_loop pname name_size names 0
    | none => .inr 0
  match r with
  | .inl n => n
  | .inr color_component_number =>
      separation_names_loop pname name_size separation_names color_component_number

/-- The bytes of a C string: those before the first zero byte. -/
def c_string (s : List Nat) : List Nat :=
  s.takeWhile (fun b => b ≠ 0)

/-- Position of the first entry of `names` equal to `name` (the length of
`names` when there is none). -/
def first_index (name : List Nat) (names : List (List Nat)) : Nat :=
  match names with
  | [] => 0
  | s :: rest => if s = name then 0 else first_index name rest + 1

/-! ## Sample maps of a non-mask image (`image_init_colors`) -/

/-- Modelled from the spec: the constant `frac_1` of `gxfrac.h`, which is not among the
sources: the full scale of the samples unpacked to fractions (bit depths
above 8). -/
def frac_1 : Int := 32760

/-- The members of `sample_map` set by `image_init_colors`.  `map` is the byte
table `image_init_map` builds for the component (its packing into
`lookup4x1to32` or `lookup2x2to16` for 1- and 2-bit chunky data is not
modelled); `decode_lookup` lists the entries written by the `sd_lookup`
loop, as index and value. -/
structure sample_map where
  decoding : sample_decoding
  inverted : Bool
  decode_base : ℚ
  decode_factor : ℚ
  decode_max : ℚ
  map : List Nat
  decode_lookup : List (Nat × ℚ)
  deriving DecidableEq, Repr

/-- The value and-ed into `decode_type` for one Decode pair:
`(d0 == 0. && d1 == 1.) | (d0 == 1. && d1 == 0.) << 1`. -/
def decode_pair_type (d0 d1 : ℚ) : Nat :=
  (if d0 = 0 ∧ d1 = 1 then 1 else 0) ||| ((if d0 = 1 ∧ d1 = 0 then 1 else 0) <<< 1)

/-- The loop `for (ci = 0; ci < spp; ci += 2) decode_type &= ...` from the
index `ci` on; `fuel` bounds the number of iterations. -/
def decode_type_loop (decode : Nat → ℚ) (spp : Int) (fuel : Nat) (ci : Nat)
    (decode_type : Nat) : Nat :=
  match fuel with
  | 0 => decode_type
  | fuel + 1 =>
      if (ci : Int) < spp then
        decode_type_loop decode spp fuel (ci + 2)
          (decode_type &&& decode_pair_type (decode ci) (decode (ci + 1)))
      else decode_type

/-- The variable `decode_type` after its loop: "0=custom, 1=identity,
2=inverted, 3=impossible".  The loop runs at most `spp` times. -/
def decode_type_of (decode : Nat → ℚ) (spp : Int) : Nat :=
  decode_type_loop decode spp spp.toNat 0 3

/-- The loop `for (i = 15 - step; i > 0; i -= step) decode_lookup[i] = ...`
from the index `i` on. -/
def decode_lookup_loop (fuel : Nat) (i : Int) (step : Int) (decode_base decode_factor : ℚ) :
    List (Nat × ℚ) :=
  match fuel with
  | 0 => []
  | fuel + 1 =>
      if i > 0 then
        (i.toNat, decode_base + (i : ℚ) * (255 / 15) * decode_factor) ::
          decode_lookup_loop fuel (i - step) step decode_base decode_factor
      else []

/-- The body of the loop "Initialize the maps from samples to intensities"
for one component with Decode pair `(d0, d1)`: the sample map, and whether
`*pdcb` is cleared. -/
def init_sample_map (bps : Int) (decode_type : Nat) (d0 d1 : ℚ) : sample_map × Bool :=
  let use_default_real := decode_type &&& 1 = 0 ∧ (decode_type &&& 2 ≠ 0 ∧ bps ≤ 8)
  let use_default_map := decode_type &&& 1 = 0 ∧ ¬ (decode_type &&& 2 ≠ 0 ∧ bps ≤ 8)
  let real0 : ℚ := if use_default_real then 0 else d0
  let real1 : ℚ := if use_default_real then 1 else d1
  let map0 : ℚ := if use_default_map then 0 else d0
  let map1 : ℚ := if use_default_map then 1 else d1
  let map := if bps ≤ 8 then image_init_map (2 ^ bps.toNat) map0 map1 else []
  let decode_base := real0
  let decode_factor := (real1 - real0) / (if bps ≤ 8 then 255 else (frac_1 : ℚ))
  let decode_max := real1
  let m : sample_map :=
    if decode_type ≠ 0 then
      { decoding := .sd_none, inverted := decide (map0 ≠ 0), decode_base := decode_base,
        decode_factor := decode_factor, decode_max := decode_max, map := map,
        decode_lookup := [] }
    else if bps ≤ 4 then
      let step : Int := Int.tdiv 15 (2 ^ bps.toNat - 1)
      { decoding := .sd_lookup, inverted := false, decode_base := decode_base,
        decode_factor := decode_factor, decode_max := decode_max, map := map,
        decode_lookup := decode_lookup_loop 15 (15 - step) step decode_base decode_factor }
    else
      { decoding := .sd_compute, inverted := false, decode_base := decode_base,
        decode_factor := decode_factor, decode_max := decode_max, map := map,
        decode_lookup := [] }
  (m, decide use_default_map)

/-- What `image_init_colors` returns and leaves. -/
structure init_colors_result where
  code : Int
  /-- The members `penum->map[0 .. spp - 1]` -/
  maps : List sample_map
  /-- The value of `*pdcb` after the call -/
  device_color : Bool
  clues : Nat → gx_image_clue

/-- The function `image_init_colors`.  `decode` is the Decode array,
`remap_color` the colour-space procedure (its code and the colour it
stores), `pdcb0` the value of `*pdcb` on entry.  Only a single-component
source can return early, after its one map has been set, so the loop over
the components is written as a map over their indices. -/
def image_init_colors (clues : Nat → gx_image_clue) (bps spp : Int)
    (decode : Nat → ℚ) (remap_color : ℚ → Int × gx_device_color) (pdcb0 : Bool) :
    init_colors_result :=
  let clues := if spp = 1 then image_init_clues clues bps spp else clues
  let decode_type := decode_type_of decode spp
  let comps := (List.range spp.toNat).map
    (fun ci => init_sample_map bps decode_type (decode (ci * 2)) (decode (ci * 2 + 1)))
  let maps := comps.map (fun c => c.1)
  let pdcb := pdcb0 && !(comps.any (fun c => c.2))
  if spp = 1 then
    let m := (init_sample_map bps decode_type (decode 0) (decode 1)).1
    let r0 := remap_color m.decode_base
    let clues0 : Nat → gx_image_clue := fun j =>
      if j = 0 then { clues j with dev_color := r0.2 } else clues j
    if r0.1 < 0 then
      { code := r0.1, maps := maps, device_color := pdcb, clues := clues0 }
    else
      let r1 := remap_color m.decode_max
      let clues1 : Nat → gx_image_clue := fun j =>
        if j = 255 then { clues0 j with dev_color := r1.2 } else clues0 j
      if r1.1 < 0 then
        { code := r1.1, maps := maps, device_color := pdcb, clues := clues1 }
      else
        { code := 0, maps := maps, device_color := pdcb, clues := clues1 }
  else
    { code := 0, maps := maps, device_color := pdcb, clues := clues }

/-! ## Big-endian readers (`ttfinp.c`)

Integers of width `w` are represented by their bit patterns, naturals below
`2 ^ w`, on which `<<` and `|` act; a conversion to a signed type reads the
pattern in two's complement. -/

/-- Modelled from the spec: the "minimal binary-format reader" object of `ttfoutl.h`,
which is not among the sources, as the bytes its `Read` callback has still to
deliver and the sizes of the `Read` calls made so far. -/
structure ttfReader where
  data : List Nat
  calls : List Nat
  deriving DecidableEq, Repr

/-- The call `r->Read(r, buf, n)`: delivers the next `n` bytes into `buf`. -/
def ttfReader.Read (r : ttfReader) (n : Nat) : List Nat × ttfReader :=
  (r.data.take n, { data := r.data.drop n, calls := r.calls ++ [n] })

/-- The value of `buf[i]` as an `unsigned char`; a byte that `Read` did not deliver reads
as 0. -/
def buf_at (buf : List Nat) (i : Nat) : Nat :=
  buf.getD i 0 % 256

/-- The conversion of the bit pattern `v` to a signed integer of `w` bits. -/
def to_signed (w : Nat) (v : Nat) : Int :=
  if v % 2 ^ w < 2 ^ (w - 1) then ((v % 2 ^ w : Nat) : Int)
  else ((v % 2 ^ w : Nat) : Int) - ((2 ^ w : Nat) : Int)

/-- The routine `ttfReader__Byte`. -/
def ttfReader__Byte (r : ttfReader) : Nat × ttfReader :=
  let (buf, r) := r.Read 1
  (buf_at buf 0, r)

/-- The routine `ttfReader__SignedByte`: the byte is read into a `signed char`. -/
def ttfReader__SignedByte (r : ttfReader) : Int × ttfReader :=
  let (buf, r) := r.Read 1
  (to_signed 8 (buf_at buf 0), r)

/-- The routine `ttfReader__Short`:
`return ((int16)buf[0] << 8) | (int16)buf[1];` converted to `signed short`. -/
def ttfReader__Short (r : ttfReader) : Int × ttfReader :=
  let (buf, r) := r.Read 2
  (to_signed 16 ((buf_at buf 0 <<< 8) ||| buf_at buf 1), r)

/-- The routine `ttfReader__UShort`:
`return ((uint16)buf[0] << 8) | (uint16)buf[1];` converted to `unsigned short`. -/
def ttfReader__UShort (r : ttfReader) : Nat × ttfReader :=
  let (buf, r) := r.Read 2
  (((buf_at buf 0 <<< 8) ||| buf_at buf 1) % 65536, r)

/-- The routine `ttfReader__UInt`: the four bytes are shifted as 32-bit integers,
`((int32)buf[0] << 24) | ((int32)buf[1] << 16) | ((int32)buf[2] << 8) | (int32)buf[3]`,
and the result converted to `unsigned int`. -/
def ttfReader__UInt (r : ttfReader) : Nat × ttfReader :=
  let (buf, r) := r.Read 4
  ((((((buf_at buf 0 <<< 24) % 4294967296) ||| ((buf_at buf 1 <<< 16) % 4294967296)) |||
      ((buf_at buf 2 <<< 8) % 4294967296)) ||| buf_at buf 3) % 4294967296, r)

/-- The routine `ttfReader__Int`: `return (int)ttfReader__UInt(r);`. -/
def ttfReader__Int (r : ttfReader) : Int × ttfReader :=
  let (v, r) := ttfReader__UInt r
  (to_signed 32 v, r)

/-! ## Pixel-centre adjustment (`gx_image_enum_begin`) -/

/-- Modelled from the spec: the constant `fixed_1` of `gxfixed.h`, which is not among the
sources: one device pixel in the 8 fraction bits of `gxfixed`. -/
def fixed_1 : Int := 256

/-- Modelled from the spec: the constant `fixed_half` of `gxfixed.h`, which is not among
the sources: half a device pixel, `fixed_1 / 2`. -/
def fixed_half : Int := 128

/-- Modelled from the spec: the constant `fixed_epsilon` of `gxfixed.h`, which is not
among the sources: the smallest positive fixed-point value. -/
def fixed_epsilon : Int := 1

/-- Modelled from the spec: the macro `arith_rshift_1` of `stdpre.h`, which is not among
the sources: the arithmetic right shift by one bit. -/
def arith_rshift_1 (x : Int) : Int := x / 2

/-- The assignment `mtx = (((mtx + diff) | fixed_half) & -fixed_half) - diff;`. -/
def centre_origin (mt diff : Int) : Int :=
  Int.land (Int.lor (mt + diff) fixed_half) (-fixed_half) - diff

/-- The block "If the image is only 1 sample wide or high, and is less than
1 device pixel wide or high, move it slightly so that it covers pixel
centers": the new `(mtx, mty)`. -/
def centre_thin_image (posture : image_posture) (width height : Int)
    (row_extent col_extent : gs_fixed_point) (mtx mty : Int) : Int × Int :=
  let epx := min row_extent.x 0 + min col_extent.x 0
  let eqx := max row_extent.x 0 + max col_extent.x 0
  let epy := min row_extent.y 0 + min col_extent.y 0
  let eqy := max row_extent.y 0 + max col_extent.y 0
  let hw : Int × Int :=
    match posture with
    | .image_portrait => (width, height)
    | .image_landscape => (height, width)
    | .image_skewed => (0, 0)
  let mtx :=
    if hw.1 = 1 ∧ eqx - epx < fixed_1 then
      centre_origin mtx (arith_rshift_1 (row_extent.x + col_extent.x))
    else mtx
  let mty :=
    if hw.2 = 1 ∧ eqy - epy < fixed_1 then
      centre_origin mty (arith_rshift_1 (row_extent.y + col_extent.y))
    else mty
  (mtx, mty)

/-- The entry the specification gives for index `i` of a table of `map_size`
entries: the linear interpolation of the Decode pair,
`255 * (d0 + (d1 - d0) * i / (map_size - 1))`, truncated to an integer and
clamped to 0..255. -/
def interpolated_entry (map_size : Nat) (d0 d1 : ℚ) (i : Nat) : Nat :=
  let value : Int := c_trunc (255 * (d0 + (d1 - d0) * (i : ℚ) / ((map_size : ℚ) - 1)))
  if value < 0 then 0 else if value > 255 then 255 else value.toNat

/-! ## Mask colours (`gx_image_scale_mask_colors`) -/

/-- The routine `gx_image_scale_mask_colors` for the component whose sample map is `m`:
the new pair `values[0], values[1]` of `penum->mask_color.values` for that
component; the arithmetic is unsigned, of 32 bits. -/
def gx_image_scale_mask_colors (bps : Int) (m : sample_map) (values : Nat × Nat) :
    Nat × Nat :=
  let scale : Nat := ((Int.tdiv 255 ((2 : Int) ^ bps.toNat - 1)) % 4294967296).toNat
  let v0 := (values.1 * scale) % 4294967296
  let v1 := (values.2 * scale) % 4294967296
  if m.decoding = .sd_none ∧ m.inverted = true then
    ((((255 : Int) - v1) % 4294967296).toNat, (((255 : Int) - v0) % 4294967296).toNat)
  else (v0, v1)

/-! ## Decoding for the colour cache (`image_cache_decode`) -/

/-- The value of `penum->map[0].decode_lookup[j]`: `decode_base` and `decode_max` are
the entries 0 and 15 of the array, the other entries are those written by the
`sd_lookup` loop of `image_init_colors`, and an entry never written is 0, as
`gx_image_enum_alloc` clears the enumerator. -/
def decode_lookup_at (m : sample_map) (j : Nat) : ℚ :=
  if j = 0 then m.decode_base
  else if j = 15 then m.decode_max
  else ((m.decode_lookup.find? (fun e => e.1 = j)).map (fun e => e.2)).getD 0

/-- The statements `if (temp > 255) temp = 255; if (temp < 0) temp = 0;`. -/
def clamp_255 (temp : ℚ) : ℚ :=
  let temp := if temp > 255 then 255 else temp
  if temp < 0 then 0 else temp

/-- The routine `image_cache_decode` for the sample map `m` of component 0: the byte
stored in `*output`.  `input` is a `byte` parameter. -/
def image_cache_decode (m : sample_map) (input : Nat) (scale : Bool) : Nat :=
  let input := input % 256
  match m.decoding with
  | .sd_none => input
  | .sd_lookup =>
      let temp := decode_lookup_at m (input >>> 4) * 255
      (c_trunc (clamp_255 temp)).toNat % 256
  | .sd_compute =>
      let temp := m.decode_base + (input : ℚ) * m.decode_factor
      let temp := if scale then temp * 255 else temp
      (c_trunc (clamp_255 temp)).toNat % 256

/-- The decoded source values of `image_init_color_cache`: the results of the calls
`image_cache_decode(penum, k, ..., decode_scale)` of its loops
`for (k = 0; k < num_entries; k++)`, with `num_entries = 1 << bps`. -/
def cache_decoded_values (m : sample_map) (bps : Nat) (decode_scale : Bool) : List Nat :=
  (List.range (1 <<< bps)).map (fun k => image_cache_decode m k decode_scale)

/-- The decoded value the specification gives for sample `k` of a source of `bps`
bits: the Decode pair's linear interpolation
`255 * (d0 + (d1 - d0) * k / (2^bps - 1))`, clamped to 0..255 and truncated to a
byte. -/
def interpolated_byte (bps : Nat) (d0 d1 : ℚ) (k : Nat) : Nat :=
  (c_trunc (clamp_255 (255 * (d0 + (d1 - d0) * (k : ℚ) / ((2 : ℚ) ^ bps - 1))))).toNat % 256

/-- The coordinate `v` as the grid-fit blocks see it, `fixed2float(float2fixed(v))`:
with `gxfixed`, `v` truncated toward zero to a multiple of 1/256. -/
def fixed_value (fx : fixed_ops) (v : ℚ) : ℚ :=
  fx.fixed2float (fx.float2fixed v)

/-- The end of an axis of `n` samples of scale `s` starting at `t`, as the grid-fit
blocks compute it: `double x1 = mat.tx + mat.xx * width;`. -/
def axis_end_double (t s : ℚ) (n : Int) : ℚ :=
  round_double (t + round_double (s * n))

/-- The block for a positive scale `s` along an axis of `n` samples starting at `t`,
with the `double` arithmetic of the source rounded:
the end `x1` and the quotient `fixed2float(ix1 - ix0)/width`.  The
conversions to and from `fixed` are exact.  Returns the new translation and the new
scale. -/
def grid_fit_pos_double (fx : fixed_ops) (t s : ℚ) (n : Int) : ℚ × ℚ :=
  let i0 := fx.int2fixed (fx.fixed2int (fx.float2fixed t))
  let x1 := axis_end_double t s n
  let i1 := fx.int2fixed (fx.fixed2int_ceiling (fx.float2fixed x1))
  (fx.fixed2float i0, round_double (fx.fixed2float (i1 - i0) / n))

/-- The block for a negative scale `s` along an axis of `n` samples starting at `t`,
with the `double` arithmetic of the source rounded. -/
def grid_fit_neg_double (fx : fixed_ops) (t s : ℚ) (n : Int) : ℚ × ℚ :=
  let i0 := fx.int2fixed (fx.fixed2int_ceiling (fx.float2fixed t))
  let x1 := axis_end_double t s n
  let i1 := fx.int2fixed (fx.fixed2int (fx.float2fixed x1))
  (fx.fixed2float i0, round_double (fx.fixed2float (i1 - i0) / n))

/-- One `if (s > 0) { ... } else if (s < 0) { ... }` of the grid-fit stage, with the
`double` arithmetic rounded: the x axis of an untransposed matrix has
`(t, s, n) = (tx, xx, width)`, its y axis `(ty, yy, height)`, and the transposed case
`(tx, yx, height)` and `(ty, xy, width)`. -/
def grid_fit_axis_double (fx : fixed_ops) (t s : ℚ) (n : Int) : ℚ × ℚ :=
  if s > 0 then grid_fit_pos_double fx t s n
  else if s < 0 then grid_fit_neg_double fx t s n
  else (t, s)

/-! ## Interpolation and the projected source box (`gx_image_enum_begin`) -/

/-- Floating-point point, `gs_point`. -/
structure gs_point where
  x : ℚ
  y : ℚ
  deriving DecidableEq, Repr

/-- Floating-point rectangle given by two corners, `gs_rect`. -/
structure gs_rect where
  p : gs_point
  q : gs_point
  deriving DecidableEq, Repr

/-- The values of `penum->interpolate`. -/
inductive interpolate_mode where
  | interp_off
  | interp_on
  | interp_force
  deriving DecidableEq, Repr

/-- Modelled from the spec: the macro `any_abs` of `gsmisc.h`, which is not among the
sources: the magnitude of a number. -/
def any_abs (x : ℚ) : ℚ := if x < 0 then -x else x

/-- The block "When rendering to a pattern accumulator, if we are downscaling
then enable interpolation": the value of `force_interpolation` after it.
`in_pattern_acc` and `orth` are the variables `in_pattern_accumulator` and
`orthogonal`. -/
def force_interpolation (in_pattern_acc orth : Int) (mat : gs_matrix) : Bool :=
  let ome : ℚ := ((fixed_1 - fixed_epsilon : Int) : ℚ) / ((fixed_1 : Int) : ℚ)
  if in_pattern_acc ≠ 0 then
    if orth = 1 then
      decide ((mat.xx > -ome ∧ mat.xx < ome) ∨ (mat.yy > -ome ∧ mat.yy < ome))
    else if orth = 2 then
      decide ((mat.xy > -ome ∧ mat.xy < ome) ∨ (mat.yx > -ome ∧ mat.yx < ome))
    else false
  else false

/-- The assignment `penum->interpolate = force_interpolation ? interp_force :
pim->Interpolate ? interp_on : interp_off;`. -/
def interpolate_of (force : Bool) (Interpolate : Bool) : interpolate_mode :=
  if force then .interp_force else if Interpolate then .interp_on else .interp_off

/-- The variable `isupport` of the block guarded by `if (pim->Interpolate)`: 2,
"Mitchell support", or `(int)ceil(isupport * support)` when the largest
magnitude of the four coefficients of `mi` exceeds 1. -/
def filter_isupport (mi : gs_matrix) : Int :=
  let support := any_abs mi.xx
  let support := if any_abs mi.yy > support then any_abs mi.yy else support
  let support := if any_abs mi.xy > support then any_abs mi.xy else support
  let support := if any_abs mi.yx > support then any_abs mi.yx else support
  let isupport : Int := 2
  if support > 1 then ⌈(isupport : ℚ) * support⌉ else isupport

/-- The source box grown by `isupport` on each side, and by one more on the
trailing y edge ("+1 is a fudge!"). -/
def expand_rect (rect_src : gs_rect) (isupport : Int) : gs_rect :=
  { p := { x := rect_src.p.x - isupport, y := rect_src.p.y - isupport },
    q := { x := rect_src.q.x + isupport, y := rect_src.q.y + (isupport + 1 : Int) } }

/-- The integer box `irect`: `floor` of the corner `p`, `ceil` of the corner `q`. -/
def irect_of (rect_src : gs_rect) : gs_int_rect :=
  { p := { x := ⌊rect_src.p.x⌋, y := ⌊rect_src.p.y⌋ },
    q := { x := ⌈rect_src.q.x⌉, y := ⌈rect_src.q.y⌉ } }

/-- The box `irect` of the restriction loop, from the matrix `mi` and the box
`rect_src` that `gs_bbox_transform` returned; `Interpolate` is
`pim->Interpolate`. -/
def restriction_irect (Interpolate : Bool) (mi : gs_matrix) (rect_src : gs_rect) :
    gs_int_rect :=
  irect_of (if Interpolate then expand_rect rect_src (filter_isupport mi) else rect_src)

/-- The interpolation mode and the rectangles that `gx_image_enum_begin` leaves:
`dso` is the answer of the device to `gxdso_in_pattern_accumulator`, `mat` the
matrix after grid fitting, `projection` the matrix `mi` and the box `rect_src` of
the restriction loop, or `none` when the loop is not entered or is left by one of
its early `break`s. -/
def begin_interpolation (dso : Int) (mat : gs_matrix) (Interpolate : Bool)
    (projection : Option (gs_matrix × gs_rect)) (rect : image_rect) :
    interpolate_mode × gx_image_enum :=
  let force := force_interpolation (in_pattern_accumulator dso) (orthogonal mat) mat
  let irect := projection.map (fun pr => restriction_irect Interpolate pr.1 pr.2)
  (interpolate_of force Interpolate, restriction_stage rect irect)

/-! ## Colour encoding (`devices/gdevrinkj.c`)

`index_bits` is the width of `gx_color_index`; a `gx_color_value` has 16 bits. -/

/-- The value of `gx_no_color_index`, all bits set, for a `gx_color_index` of `index_bits`
bits. -/
def gx_no_color_index_of (index_bits : Nat) : Nat :=
  2 ^ index_bits - 1

/-- The loop of `rinkj_encode_color` over the colorants still to encode:
`color <<= bpc; color |= COLROUND_ROUND(colors[i]);`.  `colround` is the macro
`COLROUND_ROUND` of `gxcvalue.h`, which is not among the sources, as set up by
`COLROUND_SETUP(bpc)`. -/
def encode_color_loop (index_bits bpc : Nat) (colround : Nat → Nat) (color : Nat)
    (colors : List Nat) : Nat :=
  match colors with
  | [] => color
  | c :: rest =>
      encode_color_loop index_bits bpc colround
        (((color <<< bpc) % 2 ^ index_bits) ||| (colround c % 2 ^ index_bits)) rest

/-- The routine `rinkj_encode_color` on the `ncomp` colorant values `colors`. -/
def rinkj_encode_color (index_bits bpc : Nat) (colround : Nat → Nat) (colors : List Nat) :
    Nat :=
  let color := encode_color_loop index_bits bpc colround 0 colors
  if color = gx_no_color_index_of index_bits then color ^^^ 1 else color

/-- The loop of `rinkj_decode_color` with `n` colorants still to write:
`out[ncomp - i - 1] = (color & mask) << drop; color >>= bpc;`, the entries in the
order of `out`.  A `drop` below 0 (more than 16 bits per component) makes the
shift undefined and is taken as 0. -/
def decode_color_loop (bpc : Nat) (n : Nat) (color : Nat) : List Nat :=
  match n with
  | 0 => []
  | n + 1 =>
      let drop := 16 - bpc
      let mask := (1 <<< bpc) - 1
      decode_color_loop bpc n (color >>> bpc) ++ [((color &&& mask) <<< drop) % 65536]

/-- The routine `rinkj_decode_color`: the `ncomp` values written to `out`. -/
def rinkj_decode_color (bpc ncomp : Nat) (color : Nat) : List Nat :=
  decode_color_loop bpc ncomp color

/-! ## Curve lookup (`devices/gdevrinkj.c`)

An array is given by the value found at each index, also past its end, so that
every read has a value; the indices read are recorded. -/

/-- The loop `for (i = 0; i < n_graph - 1; i++) if (graph_x[i + 1] > x) break;` from
the index `i` on, with `remaining` passes left before `i` reaches `n_graph - 1`:
the final `i` and the indices of `graph_x` read. -/
def graph_lookup_loop (graph_x : Nat → ℚ) (x : ℚ) (remaining : Nat) (i : Nat) :
    Nat × List Nat :=
  match remaining with
  | 0 => (i, [])
  | remaining + 1 =>
      if graph_x (i + 1) > x then (i, [i + 1])
      else
        let r := graph_lookup_loop graph_x x remaining (i + 1)
        (r.1, (i + 1) :: r.2)

/-- What `rinkj_graph_lookup` returns, and the indices at which it read `graph_x` and
`graph_y`. -/
structure graph_lookup_result where
  value : ℚ
  x_reads : List Nat
  y_reads : List Nat
  deriving DecidableEq, Repr

/-- The routine `rinkj_graph_lookup`, "simple linear interpolation". -/
def rinkj_graph_lookup (graph_x graph_y : Nat → ℚ) (n_graph : Int) (x : ℚ) :
    graph_lookup_result :=
  let r := graph_lookup_loop graph_x x (n_graph - 1).toNat 0
  let i := r.1
  { value := graph_y i + (x - graph_x i) * (graph_y (i + 1) - graph_y i) /
      (graph_x (i + 1) - graph_x i),
    x_reads := r.2 ++ [i, i + 1, i],
    y_reads := [i, i + 1, i] }

/-- The array of `n_graph` doubles that `rinkj_add_lut` fills from `values`; `past` is
what lies behind it. -/
def graph_array (values : List ℚ) (past : ℚ) : Nat → ℚ :=
  fun i => values.getD i past

/-- The loop of `rinkj_apply_luts` over one chain of a single curve: the lookups for
`g = i / 255.0`, `i` from 0 to 255. -/
def rinkj_apply_luts_lookups (graph_x graph_y : Nat → ℚ) (n_graph : Int) :
    List graph_lookup_result :=
  (List.range 256).map (fun (i : Nat) => rinkj_graph_lookup graph_x graph_y n_graph ((i : ℚ) / 255))

/-! ## Theorems -/

/-- C1: for a chunky, component-planar or bit-planar image,
`gx_image_enum_alloc` returns `gs_error_rangecheck` exactly when the width or
height is negative, the bit depth is outside the set accepted for the
format, or a supplied sub-rectangle is negative, non-monotonic or out of
bounds; otherwise it returns 0, or `gs_error_VMerror` when the allocation
fails. -/
theorem alloc_rangecheck_iff (pim : gs_pixel_image_t) (prect : Option gs_int_rect)
    (alloc_ok : Bool) (ppenum0 : Option gx_image_enum)
    (hfmt : pim.format = .chunky ∨ pim.format = .component_planar ∨
      pim.format = .bit_planar) :
    ((gx_image_enum_alloc pim prect alloc_ok ppenum0).code = gs_error_rangecheck ↔
      (pim.Width < 0 ∨ pim.Height < 0 ∨
       ((pim.format = .chunky ∨ pim.format = .component_planar) ∧
         ¬ (pim.BitsPerComponent = 1 ∨ pim.BitsPerComponent = 2 ∨
            pim.BitsPerComponent = 4 ∨ pim.BitsPerComponent = 8 ∨
            pim.BitsPerComponent = 12 ∨ pim.BitsPerComponent = 16)) ∨
       (pim.format = .bit_planar ∧
         (pim.BitsPerComponent < 1 ∨ 8 < pim.BitsPerComponent)) ∨
       (∃ r, prect = some r ∧
         (r.p.x < 0 ∨ r.p.y < 0 ∨ r.q.x < r.p.x ∨ r.q.y < r.p.y ∨
           r.q.x > pim.Width ∨ r.q.y > pim.Height)))) ∧
    ((gx_image_enum_alloc pim prect alloc_ok ppenum0).code ≠ gs_error_rangecheck →
      (gx_image_enum_alloc pim prect alloc_ok ppenum0).code =
        if alloc_ok then 0 else gs_error_VMerror) := by
  obtain ⟨W, H, bpc, fmt⟩ := pim
  simp only at hfmt
  have hne1 : gs_error_VMerror ≠ gs_error_rangecheck := by decide
  have hne2 : (0 : Int) ≠ gs_error_rangecheck := by decide
  unfold gx_image_enum_alloc
  simp only
  by_cases hwh : W < 0 ∨ H < 0
  · rw [if_pos hwh]
    refine ⟨⟨fun _ => ?_, fun _ => rfl⟩, fun h => absurd rfl h⟩
    rcases hwh with h | h
    · exact Or.inl h
    · exact Or.inr (Or.inl h)
  · rw [if_neg hwh]
    have hW : ¬ W < 0 := fun h => hwh (Or.inl h)
    have hH : ¬ H < 0 := fun h => hwh (Or.inr h)
    by_cases hb : alloc_bpc_rejected fmt bpc = true
    · rw [if_pos hb]
      refine ⟨⟨fun _ => ?_, fun _ => rfl⟩, fun h => absurd rfl h⟩
      rcases hfmt with rfl | rfl | rfl
      · refine Or.inr (Or.inr (Or.inl ⟨Or.inl rfl, ?_⟩))
        intro hc
        simp [alloc_bpc_rejected, hc] at hb
      · refine Or.inr (Or.inr (Or.inl ⟨Or.inr rfl, ?_⟩))
        intro hc
        simp [alloc_bpc_rejected, hc] at hb
      · refine Or.inr (Or.inr (Or.inr (Or.inl ⟨rfl, ?_⟩)))
        by_contra hc
        simp [alloc_bpc_rejected, hc] at hb
    · rw [if_neg hb]
      have hbits : ¬ (((fmt = .chunky ∨ fmt = .component_planar) ∧
          ¬ (bpc = 1 ∨ bpc = 2 ∨ bpc = 4 ∨ bpc = 8 ∨ bpc = 12 ∨ bpc = 16))) ∧
          ¬ (fmt = .bit_planar ∧ (bpc < 1 ∨ 8 < bpc)) := by
        constructor
        · rintro ⟨hf | hf, hc⟩ <;> subst hf <;> simp [alloc_bpc_rejected, hc] at hb
        · rintro ⟨hf, hc⟩
          subst hf
          simp [alloc_bpc_rejected, hc] at hb
      by_cases hr : alloc_prect_rejected prect W H = true
      · rw [if_pos hr]
        refine ⟨⟨fun _ => ?_, fun _ => rfl⟩, fun h => absurd rfl h⟩
        refine Or.inr (Or.inr (Or.inr (Or.inr ?_)))
        cases prect with
        | none => simp [alloc_prect_rejected] at hr
        | some r =>
          refine ⟨r, rfl, ?_⟩
          by_contra hc
          simp [alloc_prect_rejected, hc] at hr
      · rw [if_neg hr]
        have hrect : ¬ ∃ r, prect = some r ∧
            (r.p.x < 0 ∨ r.p.y < 0 ∨ r.q.x < r.p.x ∨ r.q.y < r.p.y ∨
              r.q.x > W ∨ r.q.y > H) := by
          rintro ⟨r, rfl, hc⟩
          simp [alloc_prect_rejected, hc] at hr
        have hcond : ¬ (W < 0 ∨ H < 0 ∨
            ((fmt = .chunky ∨ fmt = .component_planar) ∧
              ¬ (bpc = 1 ∨ bpc = 2 ∨ bpc = 4 ∨ bpc = 8 ∨ bpc = 12 ∨ bpc = 16)) ∨
            (fmt = .bit_planar ∧ (bpc < 1 ∨ 8 < bpc)) ∨
            (∃ r, prect = some r ∧
              (r.p.x < 0 ∨ r.p.y < 0 ∨ r.q.x < r.p.x ∨ r.q.y < r.p.y ∨
                r.q.x > W ∨ r.q.y > H))) := by
          rintro (h | h | h | h | h)
          · exact hW h
          · exact hH h
          · exact hbits.1 h
          · exact hbits.2 h
          · exact hrect h
        cases alloc_ok with
        | false =>
          simp only [Bool.not_false, if_true, Bool.false_eq_true, if_false]
          exact ⟨⟨fun h => absurd h hne1, fun h => absurd h hcond⟩, fun _ => trivial⟩
        | true =>
          simp only [Bool.not_true, Bool.false_eq_true, if_false, if_true]
          exact ⟨⟨fun h => absurd h hne2, fun h => absurd h hcond⟩, fun _ => trivial⟩

/-- Witness of C1: a 4x4 chunky image of 3 bits per component is valid input
for the theorem and is rejected with a range error; the same image at 8
bits is accepted. -/
theorem alloc_rangecheck_iff_witness :
    (gs_image_format_t.chunky = .chunky ∨
        gs_image_format_t.chunky = .component_planar ∨
        gs_image_format_t.chunky = .bit_planar) ∧
      (gx_image_enum_alloc ⟨4, 4, 3, .chunky⟩ none true none).code = gs_error_rangecheck ∧
      (gx_image_enum_alloc ⟨4, 4, 8, .chunky⟩ none true none).code = 0 :=
  ⟨Or.inl rfl,
    (alloc_rangecheck_iff ⟨4, 4, 3, .chunky⟩ none true none (Or.inl rfl)).1.2
      (Or.inr (Or.inr (Or.inl ⟨Or.inl rfl, by decide⟩))),
    (alloc_rangecheck_iff ⟨4, 4, 8, .chunky⟩ none true none (Or.inl rfl)).2 (by decide)⟩

/-- C2: whenever `gx_image_enum_alloc` returns 0, `*ppenum` holds an
enumerator whose `rect` is `(0, 0, Width, Height)` when no sub-rectangle was
given and `(p.x, p.y, q.x - p.x, q.y - p.y)` when `prect` was given, and whose
`rrect` and `drect` are both equal to `rect`. -/
theorem alloc_success_rects (pim : gs_pixel_image_t) (prect : Option gs_int_rect)
    (alloc_ok : Bool) (ppenum0 : Option gx_image_enum)
    (h : (gx_image_enum_alloc pim prect alloc_ok ppenum0).code = 0) :
    ∃ e, (gx_image_enum_alloc pim prect alloc_ok ppenum0).ppenum = some e ∧
      (prect = none → e.rect = ⟨0, 0, pim.Width, pim.Height⟩) ∧
      (∀ r, prect = some r →
        e.rect = ⟨r.p.x, r.p.y, r.q.x - r.p.x, r.q.y - r.p.y⟩) ∧
      e.rrect = e.rect ∧ e.drect = e.rect := by
  have hne1 : gs_error_VMerror ≠ 0 := by decide
  have hne2 : gs_error_rangecheck ≠ 0 := by decide
  unfold gx_image_enum_alloc at h ⊢
  simp only at h ⊢
  split_ifs at h ⊢ with h1 h2 h3 h4
  · exact absurd h hne2
  · exact absurd h hne2
  · exact absurd h hne2
  · exact absurd h hne1
  · refine ⟨_, rfl, ?_, ?_, rfl, rfl⟩
    · intro hp
      subst hp
      rfl
    · intro r hp
      subst hp
      rfl

/-- Witness of C2: the sub-rectangle (1,2)-(3,4) of a 4x4 image. -/
theorem alloc_success_rects_witness :
    (gx_image_enum_alloc ⟨4, 4, 8, .chunky⟩ (some ⟨⟨1, 2⟩, ⟨3, 4⟩⟩) true none).code = 0 ∧
    ∃ e, (gx_image_enum_alloc ⟨4, 4, 8, .chunky⟩ (some ⟨⟨1, 2⟩, ⟨3, 4⟩⟩) true none).ppenum
        = some e ∧
      ((some ⟨⟨1, 2⟩, ⟨3, 4⟩⟩ : Option gs_int_rect) = none → e.rect = ⟨0, 0, 4, 4⟩) ∧
      (∀ r, (some ⟨⟨1, 2⟩, ⟨3, 4⟩⟩ : Option gs_int_rect) = some r →
        e.rect = ⟨r.p.x, r.p.y, r.q.x - r.p.x, r.q.y - r.p.y⟩) ∧
      e.rrect = e.rect ∧ e.drect = e.rect :=
  ⟨by decide,
    alloc_success_rects ⟨4, 4, 8, .chunky⟩ (some ⟨⟨1, 2⟩, ⟨3, 4⟩⟩) true none (by decide)⟩

/-! ### Rectangle restriction -/

theorem restrict_x_min_fields (r : image_rect) (ir : gs_int_rect) :
    (restrict_x_min r ir).x = (if r.x < ir.p.x then ir.p.x else r.x) ∧
    (restrict_x_min r ir).w =
      (if r.x < ir.p.x then
        (if r.w - (ir.p.x - r.x) < 0 then 0 else r.w - (ir.p.x - r.x)) else r.w) ∧
    (restrict_x_min r ir).y = r.y ∧ (restrict_x_min r ir).h = r.h := by
  by_cases hc : r.x < ir.p.x
  · simp only [restrict_x_min, if_pos hc, and_self]
  · simp only [restrict_x_min, if_neg hc, and_self]

theorem restrict_x_max_fields (r : image_rect) (ir : gs_int_rect) :
    (restrict_x_max r ir).x = r.x ∧
    (restrict_x_max r ir).w =
      (if r.x + r.w > ir.q.x then
        (if ir.q.x - r.x < 0 then 0 else ir.q.x - r.x) else r.w) ∧
    (restrict_x_max r ir).y = r.y ∧ (restrict_x_max r ir).h = r.h := by
  by_cases hc : r.x + r.w > ir.q.x
  · simp only [restrict_x_max, if_pos hc, and_self]
  · simp only [restrict_x_max, if_neg hc, and_self]

theorem restrict_y_min_fields (r : image_rect) (ir : gs_int_rect) :
    (restrict_y_min r ir).y = (if r.y < ir.p.y then ir.p.y else r.y) ∧
    (restrict_y_min r ir).h =
      (if r.y < ir.p.y then
        (if r.h - (ir.p.y - r.y) < 0 then 0 else r.h - (ir.p.y - r.y)) else r.h) ∧
    (restrict_y_min r ir).x = r.x ∧ (restrict_y_min r ir).w = r.w := by
  by_cases hc : r.y < ir.p.y
  · simp only [restrict_y_min, if_pos hc, and_self]
  · simp only [restrict_y_min, if_neg hc, and_self]

theorem restrict_y_max_fields (r : image_rect) (ir : gs_int_rect) :
    (restrict_y_max r ir).y = r.y ∧
    (restrict_y_max r ir).h =
      (if r.y + r.h > ir.q.y then
        (if ir.q.y - r.y < 0 then 0 else ir.q.y - r.y) else r.h) ∧
    (restrict_y_max r ir).x = r.x ∧ (restrict_y_max r ir).w = r.w := by
  by_cases hc : r.y + r.h > ir.q.y
  · simp only [restrict_y_max, if_pos hc, and_self]
  · simp only [restrict_y_max, if_neg hc, and_self]

/-- The x extent left by the four restriction blocks. -/
theorem restrict_to_irect_x (r : image_rect) (ir : gs_int_rect) :
    (restrict_to_irect r ir).x = (restrict_x_max (restrict_x_min r ir) ir).x ∧
    (restrict_to_irect r ir).w = (restrict_x_max (restrict_x_min r ir) ir).w := by
  unfold restrict_to_irect
  rw [(restrict_y_max_fields _ _).2.2.1, (restrict_y_max_fields _ _).2.2.2,
    (restrict_y_min_fields _ _).2.2.1, (restrict_y_min_fields _ _).2.2.2]
  exact ⟨rfl, rfl⟩

/-- The y extent left by the four restriction blocks. -/
theorem restrict_to_irect_y (r : image_rect) (ir : gs_int_rect) :
    (restrict_to_irect r ir).y = (restrict_y_max (restrict_y_min r ir) ir).y ∧
    (restrict_to_irect r ir).h = (restrict_y_max (restrict_y_min r ir) ir).h := by
  unfold restrict_to_irect
  rw [(restrict_y_max_fields _ _).1, (restrict_y_max_fields _ _).2.1,
    (restrict_y_min_fields _ _).1, (restrict_y_min_fields _ _).2.1,
    (restrict_x_max_fields _ _).2.2.1, (restrict_x_max_fields _ _).2.2.2,
    (restrict_x_min_fields _ _).2.2.1, (restrict_x_min_fields _ _).2.2.2,
    (restrict_y_max_fields _ _).1, (restrict_y_max_fields _ _).2.1,
    (restrict_y_min_fields _ _).1, (restrict_y_min_fields _ _).2.1]
  exact ⟨rfl, rfl⟩

/-- Bounds on the x extent after restriction: the origin only moves right,
the width stays non-negative, and the right edge either stays inside the
original extent or the rectangle has moved wholly past it. -/
theorem restrict_to_irect_x_bounds (r : image_rect) (ir : gs_int_rect) (hw : 0 ≤ r.w) :
    r.x ≤ (restrict_to_irect r ir).x ∧ 0 ≤ (restrict_to_irect r ir).w ∧
    ((restrict_to_irect r ir).x + (restrict_to_irect r ir).w ≤ r.x + r.w ∨
      r.x + r.w ≤ (restrict_to_irect r ir).x) := by
  rw [(restrict_to_irect_x r ir).1, (restrict_to_irect_x r ir).2,
    (restrict_x_max_fields _ ir).1, (restrict_x_max_fields _ ir).2.1,
    (restrict_x_min_fields r ir).1, (restrict_x_min_fields r ir).2.1]
  split_ifs <;> omega

/-- Bounds on the y extent after restriction. -/
theorem restrict_to_irect_y_bounds (r : image_rect) (ir : gs_int_rect) (hh : 0 ≤ r.h) :
    r.y ≤ (restrict_to_irect r ir).y ∧ 0 ≤ (restrict_to_irect r ir).h ∧
    ((restrict_to_irect r ir).y + (restrict_to_irect r ir).h ≤ r.y + r.h ∨
      r.y + r.h ≤ (restrict_to_irect r ir).y) := by
  rw [(restrict_to_irect_y r ir).1, (restrict_to_irect_y r ir).2,
    (restrict_y_max_fields _ ir).1, (restrict_y_max_fields _ ir).2.1,
    (restrict_y_min_fields r ir).1, (restrict_y_min_fields r ir).2.1]
  split_ifs <;> omega

/-- The three outcomes of the null-intersection resets on an enumerator with
`rrect = drect = d` whose origin is not left of the request origin. -/
theorem null_intersection_reset_cases (rect d : image_rect) (hx : rect.x ≤ d.x) :
    (null_intersection d rect = true ∧
      null_intersection_reset ⟨rect, d, d⟩ =
        ⟨rect, ⟨rect.x, rect.y, 0, 0⟩, ⟨rect.x, rect.y, 0, 0⟩⟩) ∨
    (null_intersection d rect = false ∧ (d.w ≤ 0 ∨ d.h ≤ 0) ∧
      null_intersection_reset ⟨rect, d, d⟩ = ⟨rect, ⟨d.x, d.y, 0, 0⟩, d⟩) ∨
    (null_intersection d rect = false ∧ 0 < d.w ∧ 0 < d.h ∧
      null_intersection_reset ⟨rect, d, d⟩ = ⟨rect, d, d⟩) := by
  by_cases h1 : null_intersection d rect = true
  · have h2 : null_intersection d ⟨rect.x, rect.y, 0, 0⟩ = true := by
      simp only [null_intersection, decide_eq_true_eq]
      omega
    refine Or.inl ⟨h1, ?_⟩
    simp only [null_intersection_reset, h1, h2, if_true]
  · have h1f : null_intersection d rect = false := by
      simpa using h1
    by_cases h2 : null_intersection d d = true
    · refine Or.inr (Or.inl ⟨h1f, ?_, ?_⟩)
      · simp only [null_intersection, decide_eq_true_eq] at h2
        omega
      · simp only [null_intersection_reset, h1, h2, if_true, Bool.false_eq_true, if_false]
    · refine Or.inr (Or.inr ⟨h1f, ?_, ?_, ?_⟩)
      · simp only [null_intersection, decide_eq_true_eq] at h2
        omega
      · simp only [null_intersection, decide_eq_true_eq] at h2
        omega
      · simp only [null_intersection_reset, h1, h2, Bool.false_eq_true, if_false]

/-- The null-intersection resets establish the containment chain from the
per-axis bounds left by the restriction blocks. -/
theorem null_intersection_reset_contained (rect d : image_rect)
    (hw : 0 ≤ rect.w) (hh : 0 ≤ rect.h)
    (hx : rect.x ≤ d.x ∧ 0 ≤ d.w ∧ (d.x + d.w ≤ rect.x + rect.w ∨ rect.x + rect.w ≤ d.x))
    (hy : rect.y ≤ d.y ∧ 0 ≤ d.h ∧ (d.y + d.h ≤ rect.y + rect.h ∨ rect.y + rect.h ≤ d.y)) :
    (null_intersection_reset ⟨rect, d, d⟩).rect = rect ∧
    (0 ≤ (null_intersection_reset ⟨rect, d, d⟩).rrect.w ∧
      0 ≤ (null_intersection_reset ⟨rect, d, d⟩).rrect.h ∧
      0 ≤ (null_intersection_reset ⟨rect, d, d⟩).drect.w ∧
      0 ≤ (null_intersection_reset ⟨rect, d, d⟩).drect.h) ∧
    ((null_intersection_reset ⟨rect, d, d⟩).drect.x ≤
        (null_intersection_reset ⟨rect, d, d⟩).rrect.x ∧
      (null_intersection_reset ⟨rect, d, d⟩).rrect.x +
          (null_intersection_reset ⟨rect, d, d⟩).rrect.w ≤
        (null_intersection_reset ⟨rect, d, d⟩).drect.x +
          (null_intersection_reset ⟨rect, d, d⟩).drect.w ∧
      (null_intersection_reset ⟨rect, d, d⟩).drect.y ≤
        (null_intersection_reset ⟨rect, d, d⟩).rrect.y ∧
      (null_intersection_reset ⟨rect, d, d⟩).rrect.y +
          (null_intersection_reset ⟨rect, d, d⟩).rrect.h ≤
        (null_intersection_reset ⟨rect, d, d⟩).drect.y +
          (null_intersection_reset ⟨rect, d, d⟩).drect.h) ∧
    (rect.x ≤ (null_intersection_reset ⟨rect, d, d⟩).drect.x ∧
      (null_intersection_reset ⟨rect, d, d⟩).drect.x +
          (null_intersection_reset ⟨rect, d, d⟩).drect.w ≤ rect.x + rect.w ∧
      rect.y ≤ (null_intersection_reset ⟨rect, d, d⟩).drect.y ∧
      (null_intersection_reset ⟨rect, d, d⟩).drect.y +
          (null_intersection_reset ⟨rect, d, d⟩).drect.h ≤ rect.y + rect.h) := by
  obtain ⟨hx1, hx2, hx3⟩ := hx
  obtain ⟨hy1, hy2, hy3⟩ := hy
  rcases null_intersection_reset_cases rect d hx1 with ⟨_, he⟩ | ⟨h1, _, he⟩ | ⟨h1, _, _, he⟩
  · rw [he]
    refine ⟨rfl, ?_⟩
    simp only
    omega
  · rw [he]
    have h1n : ¬ null_intersection d rect = true := by simp [h1]
    simp only [null_intersection, decide_eq_true_eq] at h1n
    refine ⟨rfl, ?_⟩
    simp only
    omega
  · rw [he]
    have h1n : ¬ null_intersection d rect = true := by simp [h1]
    simp only [null_intersection, decide_eq_true_eq] at h1n
    refine ⟨rfl, ?_⟩
    simp only
    omega
/-- The enumerator before the null-intersection resets has `rrect = drect`. -/
theorem restrict_rects_same (rect : image_rect) (irect : Option gs_int_rect) :
    ∃ d, restrict_rects ⟨rect, rect, rect⟩ irect = ⟨rect, d, d⟩ ∧
      (irect = none → d = rect) ∧ (∀ ir, irect = some ir → d = restrict_to_irect rect ir) := by
  cases irect with
  | none => exact ⟨rect, rfl, fun _ => rfl, fun ir h => Option.noConfusion h⟩
  | some ir =>
    refine ⟨restrict_to_irect rect ir, rfl, fun h => Option.noConfusion h, fun ir2 h => ?_⟩
    rw [Option.some.inj h]

/-- C3: for every starting `rect` of non-negative width and height and every
projected box `irect` (`none` when the restriction loop is skipped), after
the rectangle-restriction and null-intersection stage the widths and
heights of `rrect` and `drect` are non-negative, `rrect` is contained in
`drect` and `drect` is contained in `rect`. -/
theorem restriction_stage_contained (rect : image_rect) (irect : Option gs_int_rect)
    (hw : 0 ≤ rect.w) (hh : 0 ≤ rect.h) :
    (restriction_stage rect irect).rect = rect ∧
    (0 ≤ (restriction_stage rect irect).rrect.w ∧
      0 ≤ (restriction_stage rect irect).rrect.h ∧
      0 ≤ (restriction_stage rect irect).drect.w ∧
      0 ≤ (restriction_stage rect irect).drect.h) ∧
    ((restriction_stage rect irect).drect.x ≤ (restriction_stage rect irect).rrect.x ∧
      (restriction_stage rect irect).rrect.x + (restriction_stage rect irect).rrect.w ≤
        (restriction_stage rect irect).drect.x + (restriction_stage rect irect).drect.w ∧
      (restriction_stage rect irect).drect.y ≤ (restriction_stage rect irect).rrect.y ∧
      (restriction_stage rect irect).rrect.y + (restriction_stage rect irect).rrect.h ≤
        (restriction_stage rect irect).drect.y + (restriction_stage rect irect).drect.h) ∧
    (rect.x ≤ (restriction_stage rect irect).drect.x ∧
      (restriction_stage rect irect).drect.x + (restriction_stage rect irect).drect.w ≤
        rect.x + rect.w ∧
      rect.y ≤ (restriction_stage rect irect).drect.y ∧
      (restriction_stage rect irect).drect.y + (restriction_stage rect irect).drect.h ≤
        rect.y + rect.h) := by
  obtain ⟨d, hd, hnone, hsome⟩ := restrict_rects_same rect irect
  unfold restriction_stage
  rw [hd]
  apply null_intersection_reset_contained rect d hw hh
  · cases irect with
    | none =>
      rw [hnone rfl]
      omega
    | some ir =>
      rw [hsome ir rfl]
      exact restrict_to_irect_x_bounds rect ir hw
  · cases irect with
    | none =>
      rw [hnone rfl]
      omega
    | some ir =>
      rw [hsome ir rfl]
      exact restrict_to_irect_y_bounds rect ir hh

/-- Witness of C3: the 10x10 request restricted to the box (5,0)-(5,10). -/
theorem restriction_stage_contained_witness :
    ((0 : Int) ≤ 10 ∧ (0 : Int) ≤ 10) ∧
    (restriction_stage ⟨0, 0, 10, 10⟩ (some ⟨⟨5, 0⟩, ⟨5, 10⟩⟩)).drect.x ≤
      (restriction_stage ⟨0, 0, 10, 10⟩ (some ⟨⟨5, 0⟩, ⟨5, 10⟩⟩)).rrect.x :=
  ⟨by decide,
    (restriction_stage_contained ⟨0, 0, 10, 10⟩ (some ⟨⟨5, 0⟩, ⟨5, 10⟩⟩)
      (by decide) (by decide)).2.2.1.1⟩

/-- C9 fails as stated: restricting the request (0,0,10,10) to the projected
box (5,0)-(5,10) leaves `drect` with zero width at (5,0,0,10) and collapses
`rrect` to (5,0,0,0); neither is (0,0,0,0), the empty rectangle at the
request origin. -/
theorem restriction_stage_empty_not_at_origin :
    (restriction_stage ⟨0, 0, 10, 10⟩ (some ⟨⟨5, 0⟩, ⟨5, 10⟩⟩)).drect.w = 0 ∧
    (restriction_stage ⟨0, 0, 10, 10⟩ (some ⟨⟨5, 0⟩, ⟨5, 10⟩⟩)).drect = ⟨5, 0, 0, 10⟩ ∧
    (restriction_stage ⟨0, 0, 10, 10⟩ (some ⟨⟨5, 0⟩, ⟨5, 10⟩⟩)).drect ≠ ⟨0, 0, 0, 0⟩ ∧
    (restriction_stage ⟨0, 0, 10, 10⟩ (some ⟨⟨5, 0⟩, ⟨5, 10⟩⟩)).rrect.w = 0 ∧
    (restriction_stage ⟨0, 0, 10, 10⟩ (some ⟨⟨5, 0⟩, ⟨5, 10⟩⟩)).rrect = ⟨5, 0, 0, 0⟩ ∧
    (restriction_stage ⟨0, 0, 10, 10⟩ (some ⟨⟨5, 0⟩, ⟨5, 10⟩⟩)).rrect ≠ ⟨0, 0, 0, 0⟩ := by
  decide

/-- When the request is empty or the projected box misses it on some axis,
the first null-intersection test holds (for a projected box with
`p ≤ q`). -/
theorem restrict_null_of_disjoint (rect : image_rect) (ir : gs_int_rect)
    (hord : ir.p.x ≤ ir.q.x ∧ ir.p.y ≤ ir.q.y)
    (hmiss : rect.w = 0 ∨ rect.h = 0 ∨ ir.q.x ≤ rect.x ∨ rect.x + rect.w ≤ ir.p.x ∨
      ir.q.y ≤ rect.y ∨ rect.y + rect.h ≤ ir.p.y) :
    null_intersection (restrict_to_irect rect ir) rect = true := by
  simp only [null_intersection, decide_eq_true_eq]
  rw [(restrict_to_irect_x rect ir).1, (restrict_to_irect_x rect ir).2,
    (restrict_to_irect_y rect ir).1, (restrict_to_irect_y rect ir).2,
    (restrict_x_max_fields _ ir).1, (restrict_x_max_fields _ ir).2.1,
    (restrict_x_min_fields rect ir).1, (restrict_x_min_fields rect ir).2.1,
    (restrict_y_max_fields _ ir).1, (restrict_y_max_fields _ ir).2.1,
    (restrict_y_min_fields rect ir).1, (restrict_y_min_fields rect ir).2.1]
  split_ifs <;> omega

/-- The restriction blocks never move the origin of a rectangle to the left
or upwards. -/
theorem restrict_to_irect_origin (r : image_rect) (ir : gs_int_rect) :
    r.x ≤ (restrict_to_irect r ir).x ∧ r.y ≤ (restrict_to_irect r ir).y := by
  rw [(restrict_to_irect_x r ir).1, (restrict_to_irect_y r ir).1,
    (restrict_x_max_fields _ ir).1, (restrict_y_max_fields _ ir).1,
    (restrict_x_min_fields r ir).1, (restrict_y_min_fields r ir).1]
  split_ifs <;> omega

/-- C9 (amended): when the projected box `irect` (with `p ≤ q`) misses the
request rectangle on some axis, or the request rectangle has zero width or
height, both `drect` and `rrect` end as `(rect.x, rect.y, 0, 0)`; and
whenever `rrect` ends with zero width or zero height it is exactly
`(drect.x, drect.y, 0, 0)`, anchored at the origin of the final `drect`. -/
theorem restriction_stage_empty_anchor (rect : image_rect) (ir : gs_int_rect)
    (hord : ir.p.x ≤ ir.q.x ∧ ir.p.y ≤ ir.q.y) :
    ((rect.w = 0 ∨ rect.h = 0 ∨ ir.q.x ≤ rect.x ∨ rect.x + rect.w ≤ ir.p.x ∨
        ir.q.y ≤ rect.y ∨ rect.y + rect.h ≤ ir.p.y) →
      (restriction_stage rect (some ir)).drect = ⟨rect.x, rect.y, 0, 0⟩ ∧
      (restriction_stage rect (some ir)).rrect = ⟨rect.x, rect.y, 0, 0⟩) ∧
    (((restriction_stage rect (some ir)).rrect.w = 0 ∨
        (restriction_stage rect (some ir)).rrect.h = 0) →
      (restriction_stage rect (some ir)).rrect =
        ⟨(restriction_stage rect (some ir)).drect.x,
          (restriction_stage rect (some ir)).drect.y, 0, 0⟩) := by
  have hstage : restriction_stage rect (some ir) =
      null_intersection_reset ⟨rect, restrict_to_irect rect ir, restrict_to_irect rect ir⟩ :=
    rfl
  rw [hstage]
  rcases null_intersection_reset_cases rect (restrict_to_irect rect ir)
      (restrict_to_irect_origin rect ir).1 with
    ⟨_, he⟩ | ⟨h1, _, he⟩ | ⟨h1, hw, hh, he⟩
  · rw [he]
    exact ⟨fun _ => ⟨rfl, rfl⟩, fun _ => rfl⟩
  · rw [he]
    refine ⟨fun hmiss => ?_, fun _ => rfl⟩
    rw [restrict_null_of_disjoint rect ir hord hmiss] at h1
    cases h1
  · rw [he]
    refine ⟨fun hmiss => ?_, fun hz => ?_⟩
    · rw [restrict_null_of_disjoint rect ir hord hmiss] at h1
      cases h1
    · simp only at hz
      omega

/-- Witness of C9 (amended): the box (12,0)-(15,10) lies to the right of the
request (0,0,10,10). -/
theorem restriction_stage_empty_anchor_witness :
    ((12 : Int) ≤ 15 ∧ (0 : Int) ≤ 10) ∧
    (restriction_stage ⟨0, 0, 10, 10⟩ (some ⟨⟨12, 0⟩, ⟨15, 10⟩⟩)).drect = ⟨0, 0, 0, 0⟩ ∧
    (restriction_stage ⟨0, 0, 10, 10⟩ (some ⟨⟨12, 0⟩, ⟨15, 10⟩⟩)).rrect = ⟨0, 0, 0, 0⟩ :=
  ⟨by decide,
    (restriction_stage_empty_anchor ⟨0, 0, 10, 10⟩ ⟨⟨12, 0⟩, ⟨15, 10⟩⟩ (by decide)).1
      (by decide)⟩

/-! ### Matrix computation and grid fitting -/

/-- C8: whenever the `xx`, `xy`, `yx` and `yy` coefficients of `ImageMatrix`
equal those of the destination transform (`pmat`, or the CTM when `pmat` is
`NULL`), `gx_image_compute_mat` returns 0 without inverting any matrix
(whatever the inversion procedure would have answered, so also for a
singular `ImageMatrix`) and `rmat` is the translation by
`pmat.tx - ImageMatrix.tx`, `pmat.ty - ImageMatrix.ty`. -/
theorem compute_mat_fast_path (invert : gs_matrix → gs_matrix → Int × gs_matrix)
    (multiply : gs_matrix → gs_matrix → Int × gs_matrix)
    (ctm : gs_matrix) (pmat : Option gs_matrix) (ImageMatrix rmat0 : gs_matrix)
    (heq : ImageMatrix.xx = (pmat.getD ctm).xx ∧ ImageMatrix.xy = (pmat.getD ctm).xy ∧
      ImageMatrix.yx = (pmat.getD ctm).yx ∧ ImageMatrix.yy = (pmat.getD ctm).yy) :
    (gx_image_compute_mat invert multiply ctm pmat ImageMatrix rmat0).code = 0 ∧
    (gx_image_compute_mat invert multiply ctm pmat ImageMatrix rmat0).inversions = 0 ∧
    (gx_image_compute_mat invert multiply ctm pmat ImageMatrix rmat0).rmat =
      { xx := 1, xy := 0, yx := 0, yy := 1,
        tx := (pmat.getD ctm).tx - ImageMatrix.tx,
        ty := (pmat.getD ctm).ty - ImageMatrix.ty } := by
  unfold gx_image_compute_mat
  simp only
  rw [if_pos heq]
  exact ⟨rfl, rfl, rfl⟩

/-- Witness of C8: the singular all-zero `ImageMatrix` against an all-zero
linear part of the CTM, with the modelled inversion that rejects it. -/
theorem compute_mat_fast_path_witness :
    (gx_image_compute_mat gs_matrix_invert_to_double gs_matrix_multiply_double
        ⟨0, 0, 0, 0, 7, 9⟩ none ⟨0, 0, 0, 0, 2, 3⟩ ⟨0, 0, 0, 0, 0, 0⟩).code = 0 ∧
    (gx_image_compute_mat gs_matrix_invert_to_double gs_matrix_multiply_double
        ⟨0, 0, 0, 0, 7, 9⟩ none ⟨0, 0, 0, 0, 2, 3⟩ ⟨0, 0, 0, 0, 0, 0⟩).inversions = 0 ∧
    (gx_image_compute_mat gs_matrix_invert_to_double gs_matrix_multiply_double
        ⟨0, 0, 0, 0, 7, 9⟩ none ⟨0, 0, 0, 0, 2, 3⟩ ⟨0, 0, 0, 0, 0, 0⟩).rmat =
      { xx := 1, xy := 0, yx := 0, yy := 1,
        tx := ((none : Option gs_matrix).getD ⟨0, 0, 0, 0, 7, 9⟩).tx -
          (⟨0, 0, 0, 0, 2, 3⟩ : gs_matrix).tx,
        ty := ((none : Option gs_matrix).getD ⟨0, 0, 0, 0, 7, 9⟩).ty -
          (⟨0, 0, 0, 0, 2, 3⟩ : gs_matrix).ty } :=
  compute_mat_fast_path gs_matrix_invert_to_double gs_matrix_multiply_double
    ⟨0, 0, 0, 0, 7, 9⟩ none ⟨0, 0, 0, 0, 2, 3⟩ ⟨0, 0, 0, 0, 0, 0⟩ ⟨rfl, rfl, rfl, rfl⟩

/-- Coefficients left alone by the `orthogonal == 1` branch, and the guards
under which it changes the others. -/
theorem grid_fit_portrait_changes (fx : fixed_ops) (gridfit : Bool) (width height : Int)
    (mat : gs_matrix) :
    (grid_fit_portrait fx gridfit width height mat).xy = mat.xy ∧
    (grid_fit_portrait fx gridfit width height mat).yx = mat.yx ∧
    (((grid_fit_portrait fx gridfit width height mat).xx ≠ mat.xx ∨
        (grid_fit_portrait fx gridfit width height mat).tx ≠ mat.tx) →
      (width = 1 ∨ gridfit = true)) ∧
    (((grid_fit_portrait fx gridfit width height mat).yy ≠ mat.yy ∨
        (grid_fit_portrait fx gridfit width height mat).ty ≠ mat.ty) →
      (height = 1 ∨ gridfit = true)) := by
  unfold grid_fit_portrait
  by_cases hw : width = 1 ∨ gridfit = true <;> by_cases hh : height = 1 ∨ gridfit = true <;>
    simp only [hw, hh, if_true, if_false, ne_eq, not_true_eq_false, or_self, imp_self,
      implies_true, and_self, false_implies]

/-- Coefficients left alone by the `orthogonal == 2` branch, and the guards
under which it changes the others. -/
theorem grid_fit_landscape_changes (fx : fixed_ops) (gridfit : Bool) (width height : Int)
    (mat : gs_matrix) :
    (grid_fit_landscape fx gridfit width height mat).xx = mat.xx ∧
    (grid_fit_landscape fx gridfit width height mat).yy = mat.yy ∧
    (((grid_fit_landscape fx gridfit width height mat).yx ≠ mat.yx ∨
        (grid_fit_landscape fx gridfit width height mat).tx ≠ mat.tx) →
      (height = 1 ∨ gridfit = true)) ∧
    (((grid_fit_landscape fx gridfit width height mat).xy ≠ mat.xy ∨
        (grid_fit_landscape fx gridfit width height mat).ty ≠ mat.ty) →
      (width = 1 ∨ gridfit = true)) := by
  unfold grid_fit_landscape
  by_cases hw : width = 1 ∨ gridfit = true <;> by_cases hh : height = 1 ∨ gridfit = true <;>
    simp only [hw, hh, if_true, if_false, ne_eq, not_true_eq_false, or_self, imp_self,
      implies_true, and_self, false_implies]
/-- The three outcomes of the grid-fit stage: the matrix is left alone, or
one of the two orthogonal branches runs, outside glyph rendering and not
for a top-level image mask in a flagged context. -/
theorem grid_fit_cases (fx : fixed_ops) (pgs : Option gs_gstate) (masked : Bool)
    (image_parent_type : Int) (override_in_smask : Bool)
    (dso_in_smask dso_in_pattern_accumulator : Int) (width height : Int)
    (mat : gs_matrix) :
    grid_fit fx pgs masked image_parent_type override_in_smask dso_in_smask
        dso_in_pattern_accumulator width height mat = mat ∨
    (((∀ g, pgs = some g → g.show_gstate = false) ∧
        ¬ (gridfitimages override_in_smask dso_in_smask dso_in_pattern_accumulator mat = true ∧
          (masked = true ∧ image_parent_type = 0))) ∧
      ((orthogonal mat = 1 ∧
          grid_fit fx pgs masked image_parent_type override_in_smask dso_in_smask
              dso_in_pattern_accumulator width height mat =
            grid_fit_portrait fx
              (gridfitimages override_in_smask dso_in_smask dso_in_pattern_accumulator mat)
              width height mat) ∨
        (orthogonal mat = 2 ∧
          grid_fit fx pgs masked image_parent_type override_in_smask dso_in_smask
              dso_in_pattern_accumulator width height mat =
            grid_fit_landscape fx
              (gridfitimages override_in_smask dso_in_smask dso_in_pattern_accumulator mat)
              width height mat))) := by
  unfold grid_fit
  simp only
  split_ifs with h1 h2 h3 h4 h5 h6
  · exact Or.inl rfl
  · exact Or.inl rfl
  · exact Or.inl rfl
  · exact Or.inl rfl
  · refine Or.inr ⟨⟨?_, h3⟩, Or.inl ⟨h5, rfl⟩⟩
    intro g hg
    subst hg
    simpa using h1
  · refine Or.inr ⟨⟨?_, h3⟩, Or.inr ⟨h6, rfl⟩⟩
    intro g hg
    subst hg
    simpa using h1
  · exact Or.inl rfl

/-- C10: if the grid-fit stage changes the combined matrix then the caller is
not inside glyph rendering (`pgs` is `NULL` or `pgs->show_gstate` is `NULL`)
and the transform is orthogonal; and each coefficient is changed only when
the source has exactly 1 sample on the axis that coefficient is fitted with
(`width` for `xx`/`xy`, `height` for `yy`/`yx`; for `tx` and `ty` the axis
depends on the orientation), or grid fitting was flagged by the
pattern-accumulator or soft-mask context and the image is not a top-level
image mask (`masked` with `image_parent_type == 0`).  In every other case
the matrix is left unchanged. -/
theorem grid_fit_changes_guarded (fx : fixed_ops) (pgs : Option gs_gstate) (masked : Bool)
    (image_parent_type : Int) (override_in_smask : Bool)
    (dso_in_smask dso_in_pattern_accumulator : Int) (width height : Int)
    (mat m' : gs_matrix)
    (hm : m' = grid_fit fx pgs masked image_parent_type override_in_smask dso_in_smask
      dso_in_pattern_accumulator width height mat) :
    (m' ≠ mat → (∀ g, pgs = some g → g.show_gstate = false) ∧ orthogonal mat ≠ 0) ∧
    ((m'.xx ≠ mat.xx ∨ m'.xy ≠ mat.xy) →
      (width = 1 ∨
        ((in_smask override_in_smask dso_in_smask = true ∨
            in_pattern_accumulator dso_in_pattern_accumulator ≠ 0) ∧
          ¬ (masked = true ∧ image_parent_type = 0)))) ∧
    ((m'.yy ≠ mat.yy ∨ m'.yx ≠ mat.yx) →
      (height = 1 ∨
        ((in_smask override_in_smask dso_in_smask = true ∨
            in_pattern_accumulator dso_in_pattern_accumulator ≠ 0) ∧
          ¬ (masked = true ∧ image_parent_type = 0)))) ∧
    (m'.tx ≠ mat.tx →
      ((orthogonal mat = 1 ∧ width = 1) ∨ (orthogonal mat = 2 ∧ height = 1) ∨
        ((in_smask override_in_smask dso_in_smask = true ∨
            in_pattern_accumulator dso_in_pattern_accumulator ≠ 0) ∧
          ¬ (masked = true ∧ image_parent_type = 0)))) ∧
    (m'.ty ≠ mat.ty →
      ((orthogonal mat = 1 ∧ height = 1) ∨ (orthogonal mat = 2 ∧ width = 1) ∨
        ((in_smask override_in_smask dso_in_smask = true ∨
            in_pattern_accumulator dso_in_pattern_accumulator ≠ 0) ∧
          ¬ (masked = true ∧ image_parent_type = 0)))) := by
  have hflag : gridfitimages override_in_smask dso_in_smask dso_in_pattern_accumulator mat
        = true →
      (in_smask override_in_smask dso_in_smask = true ∨
        in_pattern_accumulator dso_in_pattern_accumulator ≠ 0) := by
    intro h
    simp only [gridfitimages, Bool.and_eq_true, Bool.or_eq_true, decide_eq_true_eq] at h
    exact h.1
  rcases grid_fit_cases fx pgs masked image_parent_type override_in_smask dso_in_smask
      dso_in_pattern_accumulator width height mat with he | ⟨⟨hshow, h3⟩, hbr⟩
  · rw [he] at hm
    subst hm
    simp
  · have hguard : gridfitimages override_in_smask dso_in_smask
          dso_in_pattern_accumulator mat = true →
          ((in_smask override_in_smask dso_in_smask = true ∨
              in_pattern_accumulator dso_in_pattern_accumulator ≠ 0) ∧
            ¬ (masked = true ∧ image_parent_type = 0)) :=
      fun hn => ⟨hflag hn, fun ht => h3 ⟨hn, ht⟩⟩
    rcases hbr with ⟨h5, he⟩ | ⟨h6, he⟩
    · rw [he] at hm
      subst hm
      obtain ⟨c1, c2, c3, c4⟩ := grid_fit_portrait_changes fx
        (gridfitimages override_in_smask dso_in_smask dso_in_pattern_accumulator mat)
        width height mat
      refine ⟨fun _ => ⟨hshow, by rw [h5]; decide⟩, ?_, ?_, ?_, ?_⟩
      · rintro (h | h)
        · exact (c3 (Or.inl h)).imp id hguard
        · exact absurd c1 h
      · rintro (h | h)
        · exact (c4 (Or.inl h)).imp id hguard
        · exact absurd c2 h
      · intro h
        rcases c3 (Or.inr h) with hn | hn
        · exact Or.inl ⟨h5, hn⟩
        · exact Or.inr (Or.inr (hguard hn))
      · intro h
        rcases c4 (Or.inr h) with hn | hn
        · exact Or.inl ⟨h5, hn⟩
        · exact Or.inr (Or.inr (hguard hn))
    · rw [he] at hm
      subst hm
      obtain ⟨c1, c2, c3, c4⟩ := grid_fit_landscape_changes fx
        (gridfitimages override_in_smask dso_in_smask dso_in_pattern_accumulator mat)
        width height mat
      refine ⟨fun _ => ⟨hshow, by rw [h6]; decide⟩, ?_, ?_, ?_, ?_⟩
      · rintro (h | h)
        · exact absurd c1 h
        · exact (c4 (Or.inl h)).imp id hguard
      · rintro (h | h)
        · exact absurd c2 h
        · exact (c3 (Or.inl h)).imp id hguard
      · intro h
        rcases c3 (Or.inr h) with hn | hn
        · exact Or.inr (Or.inl ⟨h6, hn⟩)
        · exact Or.inr (Or.inr (hguard hn))
      · intro h
        rcases c4 (Or.inr h) with hn | hn
        · exact Or.inr (Or.inl ⟨h6, hn⟩)
        · exact Or.inr (Or.inr (hguard hn))

/-- The grid-fit stage evaluated on a 1x100 top-level image mask. -/
theorem grid_fit_example :
    grid_fit gxfixed none true 0 false 0 0 1 100 ⟨1 / 2, 0, 0, 3, 1 / 4, 0⟩ =
      ⟨1, 0, 0, 3, 0, 0⟩ := by
  have h1 : gridfitimages false 0 0 ⟨1 / 2, 0, 0, 3, 1 / 4, 0⟩ = false := by
    simp [gridfitimages, in_smask, in_pattern_accumulator]
  have h2 : orthogonal ⟨1 / 2, 0, 0, 3, 1 / 4, 0⟩ = 1 := by
    simp [orthogonal]
  have h3 : grid_fit_axis gxfixed (1 / 4) (1 / 2) 1 = (0, 1) := by
    simp only [grid_fit_axis, grid_fit_pos, gxfixed]
    norm_num
  simp only [grid_fit, h1, h2, grid_fit_portrait, h3]
  simp

/-- Witness of C10: a 1x100 top-level image mask outside any pattern or
soft-mask context; the x axis (1 sample) is fitted, `xx` goes from 1/2 to 1. -/
theorem grid_fit_changes_guarded_witness :
    (⟨1, 0, 0, 3, 0, 0⟩ : gs_matrix) =
        grid_fit gxfixed none true 0 false 0 0 1 100 ⟨1 / 2, 0, 0, 3, 1 / 4, 0⟩ ∧
      ((1 : Int) = 1 ∨
        ((in_smask false 0 = true ∨ in_pattern_accumulator 0 ≠ 0) ∧
          ¬ (true = true ∧ (0 : Int) = 0))) :=
  ⟨grid_fit_example.symm,
    (grid_fit_changes_guarded gxfixed none true 0 false 0 0 1 100
      ⟨1 / 2, 0, 0, 3, 1 / 4, 0⟩ ⟨1, 0, 0, 3, 0, 0⟩ grid_fit_example.symm).2.1
      (Or.inl (by norm_num))⟩

/-! ### Posture -/

/-- A bitwise "or" of natural numbers is zero only when both are. -/
theorem nat_lor_eq_zero (m n : Nat) : m ||| n = 0 ↔ m = 0 ∧ n = 0 := by
  constructor
  · intro h
    have hb : ∀ i, m.testBit i = false ∧ n.testBit i = false := by
      intro i
      have hi : (m ||| n).testBit i = false := by
        rw [h]
        exact Nat.zero_testBit i
      rw [Nat.testBit_or] at hi
      simpa using hi
    constructor
    · apply Nat.eq_of_testBit_eq
      intro i
      rw [(hb i).1, Nat.zero_testBit]
    · apply Nat.eq_of_testBit_eq
      intro i
      rw [(hb i).2, Nat.zero_testBit]
  · rintro ⟨rfl, rfl⟩
    rfl

/-- The C expression `(a | b) == 0` holds exactly when both operands are 0. -/
theorem int_lor_eq_zero (a b : Int) : Int.lor a b = 0 ↔ a = 0 ∧ b = 0 := by
  cases a with
  | ofNat m =>
    cases b with
    | ofNat n =>
      show ((m ||| n : Nat) : Int) = 0 ↔ _
      rw [Int.natCast_eq_zero, nat_lor_eq_zero]
      simp
    | negSucc n =>
      constructor
      · intro h
        exact absurd h (by simp [Int.lor])
      · rintro ⟨_, h⟩
        exact absurd h (by simp)
  | negSucc m =>
    constructor
    · intro h
      cases b <;> exact absurd h (by simp [Int.lor])
    · rintro ⟨h, _⟩
      exact absurd h (by simp)

/-- The posture in terms of the fixed-point extents. -/
theorem posture_of_iff (xe ye : gs_fixed_point) :
    (posture_of xe ye = .image_portrait ↔ (xe.y = 0 ∧ ye.x = 0)) ∧
    (posture_of xe ye = .image_landscape ↔
      (¬ (xe.y = 0 ∧ ye.x = 0) ∧ (xe.x = 0 ∧ ye.y = 0))) ∧
    (posture_of xe ye = .image_skewed ↔
      (¬ (xe.y = 0 ∧ ye.x = 0) ∧ ¬ (xe.x = 0 ∧ ye.y = 0))) := by
  unfold posture_of
  by_cases h1 : xe.y = 0 ∧ ye.x = 0
  · have l1 : Int.lor xe.y ye.x = 0 := (int_lor_eq_zero _ _).2 h1
    rw [if_pos l1]
    exact ⟨⟨fun _ => h1, fun _ => rfl⟩,
      ⟨fun h => image_posture.noConfusion h, fun h => absurd h1 h.1⟩,
      ⟨fun h => image_posture.noConfusion h, fun h => absurd h1 h.1⟩⟩
  · have l1 : ¬ Int.lor xe.y ye.x = 0 := fun h => h1 ((int_lor_eq_zero _ _).1 h)
    rw [if_neg l1]
    by_cases h2 : xe.x = 0 ∧ ye.y = 0
    · have l2 : Int.lor xe.x ye.y = 0 := (int_lor_eq_zero _ _).2 h2
      rw [if_pos l2]
      exact ⟨⟨fun h => image_posture.noConfusion h, fun h => absurd h h1⟩,
        ⟨fun _ => ⟨h1, h2⟩, fun _ => rfl⟩,
        ⟨fun h => image_posture.noConfusion h, fun h => absurd h2 h.2⟩⟩
    · have l2 : ¬ Int.lor xe.x ye.y = 0 := fun h => h2 ((int_lor_eq_zero _ _).1 h)
      rw [if_neg l2]
      exact ⟨⟨fun h => image_posture.noConfusion h, fun h => absurd h h1⟩,
        ⟨fun h => image_posture.noConfusion h, fun h => absurd h.2 h2⟩,
        ⟨fun _ => ⟨h1, h2⟩, fun _ => rfl⟩⟩
/-- C7 fails as stated: a 1x1 image under the matrix
`[1 1/1024 0 1 0 0]` has a non-zero cross term `xy`, yet its extent
`1/1024 * 256` rounds to the fixed-point value 0 and the posture is
`image_portrait`; and under `[1/1024 1 1 1/1024 0 0]` the posture is
`image_landscape` although the diagonal terms are not zero. -/
theorem posture_small_cross_term :
    posture gxfixed 1 1 ⟨0, 0, 1, 1⟩ ⟨1, 1 / 1024, 0, 1, 0, 0⟩ = .image_portrait ∧
    (⟨1, 1 / 1024, 0, 1, 0, 0⟩ : gs_matrix).xy = 1 / 1024 ∧
    posture gxfixed 1 1 ⟨0, 0, 1, 1⟩ ⟨1 / 1024, 1, 1, 1 / 1024, 0, 0⟩ = .image_landscape ∧
    (⟨1 / 1024, 1, 1, 1 / 1024, 0, 0⟩ : gs_matrix).xx = 1 / 1024 := by
  have e0 : float2fixed_rounded_boxed gxfixed (1 / 1024) = 0 := by
    simp only [float2fixed_rounded_boxed, gxfixed]
    norm_num
  have e1 : float2fixed_rounded_boxed gxfixed 1 = 256 := by
    simp only [float2fixed_rounded_boxed, gxfixed]
    norm_num
  refine ⟨?_, rfl, ?_, rfl⟩
  · simp only [posture, x_extent, y_extent, row_extent_of, col_extent_of, is_fzero]
    norm_num [e0, e1, posture_of]
    decide
  · simp only [posture, x_extent, y_extent, row_extent_of, col_extent_of, is_fzero]
    norm_num [e0, e1, posture_of]
    decide

/-- C7 (amended): `penum->posture` is decided on the fixed-point extents:
`image_portrait` exactly when `x_extent.y` and `y_extent.x` are both 0,
`image_landscape` exactly when it is not portrait and `x_extent.x` and
`y_extent.y` are both 0, `image_skewed` otherwise.  When the cross terms
`mat.xy` and `mat.yx` are both zero the posture is `image_portrait`; when it
is not portrait and the diagonal terms `mat.xx` and `mat.yy` are both zero
it is `image_landscape` (for a fixed-point range that contains 0 in its
interior). -/
theorem posture_from_extents (fx : fixed_ops) (width height : Int) (rect : image_rect)
    (mat : gs_matrix) :
    (posture fx width height rect mat = .image_portrait ↔
      ((x_extent fx width height rect mat).y = 0 ∧
        (y_extent fx width height rect mat).x = 0)) ∧
    (posture fx width height rect mat = .image_landscape ↔
      (posture fx width height rect mat ≠ .image_portrait ∧
        (x_extent fx width height rect mat).x = 0 ∧
        (y_extent fx width height rect mat).y = 0)) ∧
    (posture fx width height rect mat = .image_skewed ↔
      (posture fx width height rect mat ≠ .image_portrait ∧
        ¬ ((x_extent fx width height rect mat).x = 0 ∧
          (y_extent fx width height rect mat).y = 0))) ∧
    ((mat.xy = 0 ∧ mat.yx = 0) → posture fx width height rect mat = .image_portrait) ∧
    ((fx.min_fixed < 0 ∧ 0 < fx.max_fixed) → (mat.xx = 0 ∧ mat.yy = 0) →
      posture fx width height rect mat ≠ .image_portrait →
      posture fx width height rect mat = .image_landscape) := by
  obtain ⟨p1, p2, p3⟩ := posture_of_iff (x_extent fx width height rect mat)
    (y_extent fx width height rect mat)
  have hzero : ∀ n : Int, fx.min_fixed < 0 ∧ 0 < fx.max_fixed →
      float2fixed_rounded_boxed fx (n * 0) = 0 := by
    intro n hr
    have hv : ⌊((n : ℚ) * 0) * fx.fixed_scale + 1 / 2⌋ = 0 := by
      norm_num
    simp only [float2fixed_rounded_boxed, hv]
    rw [if_neg (by omega), if_neg (by omega)]
  refine ⟨p1, ?_, ?_, ?_, ?_⟩
  · unfold posture
    rw [p2, Ne, p1]
  · unfold posture
    rw [p3, Ne, p1]
  · rintro ⟨hxy, hyx⟩
    unfold posture
    rw [p1]
    constructor
    · unfold x_extent row_extent_of is_fzero
      split_ifs <;> simp_all
    · unfold y_extent col_extent_of is_fzero
      split_ifs <;> simp_all
  · rintro hr ⟨hxx, hyy⟩ hnp
    unfold posture at hnp ⊢
    rw [p2]
    refine ⟨fun h => hnp (p1.2 h), ?_, ?_⟩
    · unfold x_extent row_extent_of
      rw [hxx]
      split_ifs <;> exact hzero _ hr
    · unfold y_extent col_extent_of
      rw [hyy]
      split_ifs <;> exact hzero _ hr

/-! ### Floating-point rounding -/

/-- The binary exponent of a positive number is determined by the powers of two
around it. -/
theorem log_two_eq (q : ℚ) (e : Int) (h1 : (2 : ℚ) ^ e ≤ q) (h2 : q < (2 : ℚ) ^ (e + 1)) :
    Int.log 2 q = e := by
  have hq : 0 < q := lt_of_lt_of_le (zpow_pos (by norm_num) e) h1
  have a : e ≤ Int.log 2 q := by
    have := (Int.zpow_le_iff_le_log (by norm_num : 1 < 2) hq).1 (by exact_mod_cast h1)
    exact this
  have b : Int.log 2 q < e + 1 := by
    have := (Int.lt_zpow_iff_log_lt (by norm_num : 1 < 2) hq).1 (by exact_mod_cast h2)
    exact this
  omega

/-- An integer rounds to itself. -/
theorem round_half_even_intCast (z : Int) : round_half_even (z : ℚ) = z := by
  simp [round_half_even]

/-- A number within less than 1/2 of an integer rounds to that integer. -/
theorem round_half_even_near (q : ℚ) (z : Int) (h1 : (z : ℚ) - 1 / 2 < q)
    (h2 : q < (z : ℚ) + 1 / 2) : round_half_even q = z := by
  unfold round_half_even
  by_cases hf : (z : ℚ) ≤ q
  · have e : ⌊q⌋ = z := by
      rw [Int.floor_eq_iff]
      exact ⟨hf, by linarith⟩
    rw [e, if_pos (by linarith)]
  · have hf' : q < z := not_le.1 hf
    have e : ⌊q⌋ = z - 1 := by
      rw [Int.floor_eq_iff]
      push_cast
      exact ⟨by linarith, by linarith⟩
    rw [e]
    push_cast
    rw [if_neg (by linarith), if_pos (by linarith)]
    ring

/-- A number halfway between two integers rounds to the even one. -/
theorem round_half_even_tie (z : Int) :
    round_half_even ((z : ℚ) + 1 / 2) = if z % 2 = 0 then z else z + 1 := by
  unfold round_half_even
  have e : ⌊(z : ℚ) + 1 / 2⌋ = z := by
    rw [Int.floor_eq_iff]
    exact ⟨by linarith, by linarith⟩
  rw [e, if_neg (by linarith), if_neg (by linarith)]

/-- The rounding of a number whose binary exponent is `e`. -/
theorem round_to_of_exponent (p : Nat) (q : ℚ) (e : Int) (h1 : (2 : ℚ) ^ e ≤ |q|)
    (h2 : |q| < (2 : ℚ) ^ (e + 1)) :
    round_to p q =
      (round_half_even (q / (2 : ℚ) ^ (e + 1 - (p : Int))) : ℚ) *
        (2 : ℚ) ^ (e + 1 - (p : Int)) := by
  have hq : q ≠ 0 := by
    intro h0
    rw [h0, abs_zero] at h1
    exact absurd h1 (not_le.2 (zpow_pos (by norm_num) e))
  simp only [round_to]
  rw [if_neg hq, log_two_eq |q| e h1 h2]

/-- A number of at most `p` significant bits is not changed by the rounding. -/
theorem round_to_representable (p : Nat) (m k : Int) (hm : |m| < 2 ^ p) :
    round_to p ((m : ℚ) * (2 : ℚ) ^ k) = (m : ℚ) * (2 : ℚ) ^ k := by
  by_cases h0 : m = 0
  · subst h0
    simp [round_to]
  · have hq : (m : ℚ) * (2 : ℚ) ^ k ≠ 0 :=
      mul_ne_zero (by exact_mod_cast h0) (zpow_ne_zero _ (by norm_num))
    have habs : |(m : ℚ) * (2 : ℚ) ^ k| = (|m| : Int) * (2 : ℚ) ^ k := by
      rw [abs_mul, abs_of_pos (zpow_pos (by norm_num : (0 : ℚ) < 2) k)]
      push_cast
      rfl
    have hpos : 0 < |(m : ℚ) * (2 : ℚ) ^ k| := abs_pos.2 hq
    have hlt : |(m : ℚ) * (2 : ℚ) ^ k| < (2 : ℚ) ^ ((p : Int) + k) := by
      rw [habs, zpow_add₀ (by norm_num : (2 : ℚ) ≠ 0)]
      apply mul_lt_mul_of_pos_right _ (zpow_pos (by norm_num) k)
      have : ((|m| : Int) : ℚ) < ((2 ^ p : Int) : ℚ) := by exact_mod_cast hm
      simpa using this
    have hlog : Int.log 2 |(m : ℚ) * (2 : ℚ) ^ k| < (p : Int) + k :=
      (Int.lt_zpow_iff_log_lt (by norm_num : 1 < 2) hpos).1 (by exact_mod_cast hlt)
    simp only [round_to]
    rw [if_neg hq]
    set e := Int.log 2 |(m : ℚ) * (2 : ℚ) ^ k| with he
    obtain ⟨d, hd⟩ : ∃ d : Nat, k = (e + 1 - (p : Int)) + d :=
      ⟨(k - (e + 1 - (p : Int))).toNat, by omega⟩
    have hu : (2 : ℚ) ^ k = (2 : ℚ) ^ (e + 1 - (p : Int)) * (2 : ℚ) ^ d := by
      rw [hd, zpow_add₀ (by norm_num : (2 : ℚ) ≠ 0)]
      simp
    have hune : (2 : ℚ) ^ (e + 1 - (p : Int)) ≠ 0 := zpow_ne_zero _ (by norm_num)
    have hquot : (m : ℚ) * (2 : ℚ) ^ k / (2 : ℚ) ^ (e + 1 - (p : Int)) =
        ((m * 2 ^ d : Int) : ℚ) := by
      rw [hu]
      push_cast
      field_simp
      ring
    rw [hquot, round_half_even_intCast, hu]
    push_cast
    ring

/-- An integer of fewer than 24 bits is a `float`. -/
theorem round_float_intCast (z : Int) (h : |z| < 2 ^ 24) : round_float (z : ℚ) = z := by
  have := round_to_representable 24 z 0 h
  simpa [round_float] using this

/-- The C conversion of an integer-valued fraction is that integer. -/
theorem c_trunc_intCast (z : Int) : c_trunc (z : ℚ) = z := by
  unfold c_trunc
  split_ifs <;> simp

/-! ### Sample maps -/

/-- Each byte written by the integer-stepping loop is the low byte of the
shifted value of that iteration. -/
theorem init_map_step_loop_eq_map (n : Nat) (value : Nat) (diff : Int) :
    init_map_step_loop n value diff =
      (init_map_step_values n value diff).map (fun v => (v >>> 8) % 256) := by
  induction n generalizing value with
  | zero => rfl
  | succ n ih =>
    simp only [init_map_step_loop, init_map_step_values, List.map_cons, ih]

/-- With Decode `[0, 1]`, `image_init_map` starts at 0 and steps by
`0xffff / (map_size - 1)`. -/
theorem image_init_map_identity_loop (map_size : Nat)
    (h : map_size = 2 ∨ map_size = 4 ∨ map_size = 16 ∨ map_size = 256) :
    image_init_map map_size 0 1 =
      init_map_step_loop map_size 0 (Int.tdiv 65535 ((map_size : Int) - 1)) := by
  have e1 : round_float ((1 : ℚ) - 0) = 1 := by
    have := round_float_intCast 1 (by norm_num)
    simpa using this
  have e2 : round_float ((0 : ℚ) * 65535) = 0 := by
    have := round_float_intCast 0 (by norm_num)
    simpa using this
  have e3 : ∀ k : Int, |k| < 2 ^ 24 → c_trunc (round_float ((1 : ℚ) * (k : ℚ))) = k := by
    intro k hk
    rw [one_mul, round_float_intCast k hk, c_trunc_intCast]
  have e4 : c_trunc 0 = 0 := by simp [c_trunc]
  have hk : |Int.tdiv 65535 ((map_size : Int) - 1)| < 2 ^ 24 := by
    rcases h with rfl | rfl | rfl | rfl <;> decide
  simp only [image_init_map]
  rw [e1, if_pos (Or.inl rfl), e2, e3 _ hk, e4]
  rfl

/-- With Decode `[1, 0]`, `image_init_map` starts at `0xffff` and steps by
`-(0xffff / (map_size - 1))`. -/
theorem image_init_map_inverted_loop (map_size : Nat)
    (h : map_size = 2 ∨ map_size = 4 ∨ map_size = 16 ∨ map_size = 256) :
    image_init_map map_size 1 0 =
      init_map_step_loop map_size 65535 (-(Int.tdiv 65535 ((map_size : Int) - 1))) := by
  have e1 : round_float ((0 : ℚ) - 1) = -1 := by
    have := round_float_intCast (-1) (by norm_num)
    simpa using this
  have e2 : c_trunc (round_float ((1 : ℚ) * 65535)) = 65535 := by
    have := round_float_intCast 65535 (by norm_num)
    have c := c_trunc_intCast 65535
    rw [one_mul]
    push_cast at this c
    rw [this, c]
  have e3 : ∀ k : Int, |k| < 2 ^ 24 → c_trunc (round_float ((-1 : ℚ) * (k : ℚ))) = -k := by
    intro k hk
    have hk' : |(-k)| < 2 ^ 24 := by rwa [abs_neg]
    have := round_float_intCast (-k) hk'
    have c := c_trunc_intCast (-k)
    push_cast at this c
    rw [neg_one_mul, this, c]
  have hk : |Int.tdiv 65535 ((map_size : Int) - 1)| < 2 ^ 24 := by
    rcases h with rfl | rfl | rfl | rfl <;> decide
  simp only [image_init_map]
  rw [e1, if_pos (Or.inr rfl), e2, e3 _ hk]
  rfl
set_option maxRecDepth 100000 in
/-- C6: for every `map_size` in {2, 4, 16, 256} and every index
`i < map_size`, `image_init_map` with Decode `[0, 1]` writes
`map[i] = i * (255 / (map_size - 1))` and with Decode `[1, 0]` writes
`map[i] = 255 - i * (255 / (map_size - 1))`; at every write the stepped
unsigned value shifted right by 8 is within 0..255. -/
theorem image_init_map_default_decodes (map_size : Nat)
    (h : map_size = 2 ∨ map_size = 4 ∨ map_size = 16 ∨ map_size = 256) :
    image_init_map map_size 0 1 =
      (List.range map_size).map (fun i => i * (255 / (map_size - 1))) ∧
    image_init_map map_size 1 0 =
      (List.range map_size).map (fun i => 255 - i * (255 / (map_size - 1))) ∧
    (∀ v ∈ init_map_step_values map_size 0 (Int.tdiv 65535 ((map_size : Int) - 1)),
      v >>> 8 ≤ 255) ∧
    (∀ v ∈ init_map_step_values map_size 65535 (-(Int.tdiv 65535 ((map_size : Int) - 1))),
      v >>> 8 ≤ 255) := by
  rw [image_init_map_identity_loop map_size h, image_init_map_inverted_loop map_size h]
  rcases h with rfl | rfl | rfl | rfl
  · decide
  · decide
  · decide
  · refine ⟨?_, ?_, ?_, ?_⟩ <;> decide

/-- Witness of C6: the 2-bit map, `[0, 85, 170, 255]` for Decode `[0, 1]` and
`[255, 170, 85, 0]` for Decode `[1, 0]`. -/
theorem image_init_map_default_decodes_witness :
    ((4 : Nat) = 2 ∨ (4 : Nat) = 4 ∨ (4 : Nat) = 16 ∨ (4 : Nat) = 256) ∧
    image_init_map 4 0 1 = [0, 85, 170, 255] ∧
    image_init_map 4 1 0 = [255, 170, 85, 0] :=
  ⟨by decide,
    (image_init_map_default_decodes 4 (by decide)).1.trans (by decide),
    (image_init_map_default_decodes 4 (by decide)).2.1.trans (by decide)⟩

/-! ### Control flow of `gx_image_enum_begin` -/

/-- C4 fails on the code: when `gx_image_compute_mat` fails (here on the
singular all-zero `ImageMatrix` against the identity CTM) the routine returns
the negative code with the enumerator still allocated, and so it does when
no renderer class claims the image; the paths through `fail:` (here a
failed clue allocation) do free it. -/
theorem begin_error_keeps_penum :
    (gx_image_compute_mat gs_matrix_invert_to_double gs_matrix_multiply_double
        ⟨1, 0, 0, 1, 0, 0⟩ none ⟨0, 0, 0, 0, 0, 0⟩ ⟨0, 0, 0, 0, 0, 0⟩).code =
      gs_error_undefinedresult ∧
    (gx_image_enum_begin { scenario_env with mat_code := gs_error_undefinedresult }).code < 0 ∧
    (gx_image_enum_begin { scenario_env with mat_code := gs_error_undefinedresult }).state.penum =
      .held ∧
    (gx_image_enum_begin { scenario_env with class_table := [⟨0, none⟩] }).code =
      gs_error_rangecheck ∧
    (gx_image_enum_begin { scenario_env with class_table := [⟨0, none⟩] }).state.penum =
      .held ∧
    (gx_image_enum_begin { scenario_env with clues_alloc := false }).code = gs_error_VMerror ∧
    (gx_image_enum_begin { scenario_env with clues_alloc := false }).state.penum =
      .released := by
  refine ⟨?_, by decide, by decide, by decide, by decide, by decide, by decide⟩
  simp [gx_image_compute_mat, gs_matrix_invert_to_double, gs_error_undefinedresult]

/-- The loop over the class table when the classes before the first claim
all decline. -/
theorem probe_classes_claimed (pre post : List class_result) (c : class_result) (f : Nat)
    (called : Nat) (hpre : ∀ x ∈ pre, 0 ≤ x.code ∧ x.render_fn = none)
    (hc : 0 ≤ c.code) (hf : c.render_fn = some f) :
    probe_classes (pre ++ c :: post) called = .claimed f (called + pre.length + 1) := by
  induction pre generalizing called with
  | nil =>
    simp only [List.nil_append, probe_classes, List.length_nil, Nat.add_zero]
    rw [if_neg (by omega), hf]
  | cons x xs ih =>
    have hx := hpre x (List.mem_cons_self x xs)
    have ih' := ih (called + 1) (fun y hy => hpre y (List.mem_cons_of_mem x hy))
    show probe_classes (x :: (xs ++ c :: post)) called = _
    simp only [probe_classes, List.length_cons]
    rw [if_neg (by omega), hx.2]
    simp only
    rw [ih']
    congr 1
    omega

/-- The loop over the class table when every class declines. -/
theorem probe_classes_unclaimed (table : List class_result) (called : Nat)
    (hall : ∀ x ∈ table, 0 ≤ x.code ∧ x.render_fn = none) :
    probe_classes table called = .unclaimed (called + table.length) := by
  induction table generalizing called with
  | nil => rfl
  | cons x xs ih =>
    have hx := hall x (List.mem_cons_self x xs)
    simp only [probe_classes, List.length_cons]
    rw [if_neg (by omega), hx.2]
    simp only
    rw [ih (called + 1) (fun y hy => hall y (List.mem_cons_of_mem x hy))]
    congr 1
    omega

/-- What the first stage leaves when it does not return. -/
theorem begin_colors_ok_state (env : begin_env) (s : begin_state)
    (h : begin_colors env = .ok s) :
    s.render = none ∧ s.classes_called = 0 ∧ s.penum = .held ∧ s.buffer = .absent ∧
    s.buffer_alloc_attempted = false ∧ s.clip_dev = .absent ∧ s.rop_dev = .absent ∧
    s.pcs_set = false ∧ s.pcs_rc = 0 := by
  unfold begin_colors at h
  simp only at h
  split_ifs at h <;> cases h <;> simp [begin_state_init]

/-- What the second stage leaves when it does not return. -/
theorem begin_buffer_ok_state (env : begin_env) (s1 s : begin_state)
    (h : begin_buffer env s1 = .ok s) :
    s.render = s1.render ∧ s.classes_called = s1.classes_called ∧ s.penum = s1.penum ∧
    s.clues = s1.clues ∧ s.buffer = .held ∧ s.clip_dev = s1.clip_dev ∧
    s.rop_dev = s1.rop_dev ∧ s.pcs_set = env.has_pcs ∧
    s.pcs_rc = (if env.has_pcs then s1.pcs_rc + 1 else s1.pcs_rc) := by
  unfold begin_buffer at h
  simp only at h
  split_ifs at h <;> cases h <;> simp [*]

/-- What the third stage leaves when it does not return. -/
theorem begin_dda_ok_state (env : begin_env) (s2 s : begin_state)
    (h : begin_dda env s2 = .ok s) :
    s.render = s2.render ∧ s.classes_called = s2.classes_called ∧ s.penum = s2.penum ∧
    s.clues = s2.clues ∧ s.buffer = s2.buffer ∧ s.clip_dev = s2.clip_dev ∧
    s.rop_dev = s2.rop_dev ∧ s.pcs_set = s2.pcs_set ∧ s.pcs_rc = s2.pcs_rc := by
  unfold begin_dda at h
  simp only at h
  split_ifs at h <;> cases h <;> simp

/-- What the fourth stage leaves when it does not return. -/
theorem begin_wrappers_ok_state (env : begin_env) (s3 s : begin_state)
    (h : begin_wrappers env s3 = .ok s) :
    s.render = s3.render ∧ s.classes_called = s3.classes_called ∧ s.penum = s3.penum ∧
    s.clues = s3.clues ∧ s.buffer = s3.buffer ∧ s.pcs_set = s3.pcs_set ∧
    s.pcs_rc = s3.pcs_rc := by
  unfold begin_wrappers at h
  simp only at h
  split_ifs at h <;> cases h <;> simp

/-- The stages a successful `begin_setup` went through. -/
theorem begin_setup_ok_stages (env : begin_env) (s : begin_state)
    (h : begin_setup env = .ok s) :
    ∃ s1 s2 s3, begin_colors env = .ok s1 ∧ begin_buffer env s1 = .ok s2 ∧
      begin_dda env s2 = .ok s3 ∧ begin_wrappers env s3 = .ok s := by
  unfold begin_setup at h
  cases h1 : begin_colors env with
  | error r => rw [h1] at h; cases h
  | ok s1 =>
    rw [h1] at h
    simp only at h
    cases h2 : begin_buffer env s1 with
    | error r => rw [h2] at h; cases h
    | ok s2 =>
      rw [h2] at h
      simp only at h
      cases h3 : begin_dda env s2 with
      | error r => rw [h3] at h; cases h
      | ok s3 =>
        rw [h3] at h
        exact ⟨s1, s2, s3, rfl, h2, h3, h⟩

/-- When setup reaches the renderer dispatch, no renderer has been selected,
no class has been called, and the enumerator, the sample buffer and the
reference on the colour space are held. -/
theorem begin_setup_ok_state (env : begin_env) (s : begin_state)
    (h : begin_setup env = .ok s) :
    s.render = none ∧ s.classes_called = 0 ∧ s.penum = .held ∧ s.buffer = .held ∧
    s.pcs_set = env.has_pcs ∧ s.pcs_rc = (if env.has_pcs then 1 else 0) := by
  obtain ⟨s1, s2, s3, h1, h2, h3, h4⟩ := begin_setup_ok_stages env s h
  obtain ⟨a1, a2, a3, _, _, _, _, _, a9⟩ := begin_colors_ok_state env s1 h1
  obtain ⟨b1, b2, b3, _, b5, _, _, b8, b9⟩ := begin_buffer_ok_state env s1 s2 h2
  obtain ⟨c1, c2, c3, _, c5, _, _, c8, c9⟩ := begin_dda_ok_state env s2 s3 h3
  obtain ⟨d1, d2, d3, _, d5, d6, d7⟩ := begin_wrappers_ok_state env s3 s h4
  refine ⟨?_, ?_, ?_, ?_, ?_, ?_⟩
  · rw [d1, c1, b1, a1]
  · rw [d2, c2, b2, a2]
  · rw [d3, c3, b3, a3]
  · rw [d5, c5, b5]
  · rw [d6, c8, b8]
  · rw [d7, c9, b9, a9]
    simp

/-- C5: when setup reaches the renderer dispatch, the classes are probed in
table order: if the classes before class `i` each return a non-negative code
with a `NULL` renderer and class `i` returns a non-negative code with the
renderer `f`, then `penum->render = f`, exactly `i + 1` classes have been
called (none after `i`) and setup returns 0; if every class returns a
non-negative code with a `NULL` renderer, setup returns
`gs_error_rangecheck` with no renderer selected. -/
theorem dispatch_first_claim_wins (env : begin_env) (s : begin_state)
    (hreach : begin_setup env = .ok s) :
    (∀ (pre post : List class_result) (c : class_result) (f : Nat),
      env.class_table = pre ++ c :: post →
      (∀ x ∈ pre, 0 ≤ x.code ∧ x.render_fn = none) →
      0 ≤ c.code → c.render_fn = some f →
      (gx_image_enum_begin env).code = 0 ∧
      (gx_image_enum_begin env).state.render = some f ∧
      (gx_image_enum_begin env).state.classes_called = pre.length + 1) ∧
    ((∀ x ∈ env.class_table, 0 ≤ x.code ∧ x.render_fn = none) →
      (gx_image_enum_begin env).code = gs_error_rangecheck ∧
      (gx_image_enum_begin env).state.render = none ∧
      (gx_image_enum_begin env).state.classes_called = env.class_table.length) := by
  constructor
  · intro pre post c f htable hpre hc hf
    have hp := probe_classes_claimed pre post c f 0 hpre hc hf
    simp only [gx_image_enum_begin, hreach, begin_dispatch, htable, hp]
    simp
  · intro hall
    have hp := probe_classes_unclaimed env.class_table 0 hall
    simp only [gx_image_enum_begin, hreach, begin_dispatch, hp]
    simp [(begin_setup_ok_state env s hreach).1]

/-- Witness of C5: in the scenario the first class declines and the second
claims the image with renderer 7; the third class is not called. -/
theorem dispatch_first_claim_wins_witness :
    (∃ s, begin_setup scenario_env = .ok s) ∧
    (gx_image_enum_begin scenario_env).code = 0 ∧
    (gx_image_enum_begin scenario_env).state.render = some 7 ∧
    (gx_image_enum_begin scenario_env).state.classes_called = 2 :=
  ⟨⟨_, rfl⟩,
    (dispatch_first_claim_wins scenario_env _ rfl).1 [⟨0, none⟩] [⟨0, some 9⟩] ⟨0, some 7⟩ 7
      rfl (by decide) (by decide) rfl⟩

/-- The result of `gx_image_enum_begin` once the first two stages have run. -/
theorem begin_after_buffer (env : begin_env) (s1 s2 : begin_state)
    (h1 : begin_colors env = .ok s1) (h2 : begin_buffer env s1 = .ok s2) :
    gx_image_enum_begin env =
      match begin_dda env s2 with
      | .error r => r
      | .ok s3 =>
        match begin_wrappers env s3 with
        | .error r => r
        | .ok s4 => begin_dispatch env s4 := by
  unfold gx_image_enum_begin begin_setup
  rw [h1]
  simp only
  rw [h2]
  simp only
  cases begin_dda env s2 with
  | error r => rfl
  | ok s3 => rfl

/-- C12: when setup reaches the generators, `gx_image_enum_begin` returns
`gs_error_rangecheck` whenever `dda_will_overflow` holds for the row
generator initialised from `(mtx, col_extent.x, height)` or
`(mty, col_extent.y, height)`, or for the strip generator initialised from
`(cur.x, row_extent.x, width)` or `(cur.y, row_extent.y, width)`; the
generator that is rejected is still as `dda_init` left it (no step applied)
and no renderer is selected. -/
theorem begin_dda_overflow_rejected (env : begin_env) (s1 s2 : begin_state)
    (h1 : begin_colors env = .ok s1) (h2 : begin_buffer env s1 = .ok s2) :
    ((env.dda_will_overflow (dda_init env.mtx env.col_extent.x env.height) = true ∨
        env.dda_will_overflow (dda_init env.mty env.col_extent.y env.height) = true) →
      (gx_image_enum_begin env).code = gs_error_rangecheck ∧
      (gx_image_enum_begin env).state.render = none ∧
      (gx_image_enum_begin env).state.classes_called = 0 ∧
      (gx_image_enum_begin env).state.row_x =
        some (dda_init env.mtx env.col_extent.x env.height) ∧
      (gx_image_enum_begin env).state.row_y =
        some (dda_init env.mty env.col_extent.y env.height)) ∧
    (¬ (env.dda_will_overflow (dda_init env.mtx env.col_extent.x env.height) = true ∨
        env.dda_will_overflow (dda_init env.mty env.col_extent.y env.height) = true) →
      ∀ cur_x cur_y : Int,
      cur_x = env.dda_current
        (if env.rect.y ≠ 0 then
          dda_advance (dda_init env.mtx env.col_extent.x env.height) env.rect.y
         else dda_init env.mtx env.col_extent.x env.height) →
      cur_y = env.dda_current
        (if env.rect.y ≠ 0 then
          dda_advance (dda_init env.mty env.col_extent.y env.height) env.rect.y
         else dda_init env.mty env.col_extent.y env.height) →
      (env.dda_will_overflow (dda_init cur_x env.row_extent.x env.width) = true ∨
        env.dda_will_overflow (dda_init cur_y env.row_extent.y env.width) = true) →
      (gx_image_enum_begin env).code = gs_error_rangecheck ∧
      (gx_image_enum_begin env).state.render = none ∧
      (gx_image_enum_begin env).state.classes_called = 0 ∧
      (gx_image_enum_begin env).state.strip_x =
        some (dda_init cur_x env.row_extent.x env.width) ∧
      (gx_image_enum_begin env).state.strip_y =
        some (dda_init cur_y env.row_extent.y env.width)) := by
  obtain ⟨a1, a2, _⟩ := begin_colors_ok_state env s1 h1
  obtain ⟨b1, b2, _⟩ := begin_buffer_ok_state env s1 s2 h2
  have hr : s2.render = none := by rw [b1, a1]
  have hc : s2.classes_called = 0 := by rw [b2, a2]
  rw [begin_after_buffer env s1 s2 h1 h2]
  constructor
  · intro hov
    have hov' : (env.dda_will_overflow (dda_init env.mtx env.col_extent.x env.height) ||
        env.dda_will_overflow (dda_init env.mty env.col_extent.y env.height)) = true := by
      simpa using hov
    simp only [begin_dda, hov', if_true, begin_fail, hr, hc]
    simp [gs_error_rangecheck]
  · intro hno cur_x cur_y hx hy hov
    have hno' : ¬ (env.dda_will_overflow (dda_init env.mtx env.col_extent.x env.height) ||
        env.dda_will_overflow (dda_init env.mty env.col_extent.y env.height)) = true := by
      simpa using hno
    subst hx hy
    have hov' : (env.dda_will_overflow (dda_init (env.dda_current
          (if env.rect.y ≠ 0 then
            dda_advance (dda_init env.mtx env.col_extent.x env.height) env.rect.y
           else dda_init env.mtx env.col_extent.x env.height)) env.row_extent.x env.width) ||
        env.dda_will_overflow (dda_init (env.dda_current
          (if env.rect.y ≠ 0 then
            dda_advance (dda_init env.mty env.col_extent.y env.height) env.rect.y
           else dda_init env.mty env.col_extent.y env.height)) env.row_extent.y env.width))
        = true := by
      simpa using hov
    simp only [begin_dda, hno', if_false, hov', if_true, begin_fail, hr, hc]
    simp [gs_error_rangecheck]

/-- Witness of C12: the scenario with a row origin beyond the limit of an
overflow test that rejects origins above 2147483000. -/
theorem begin_dda_overflow_rejected_witness :
    (∃ s1 s2,
      begin_colors { scenario_env with
          mtx := 2147483600, dda_will_overflow := fun d => decide (2147483000 < d.init) } =
        .ok s1 ∧
      begin_buffer { scenario_env with
          mtx := 2147483600, dda_will_overflow := fun d => decide (2147483000 < d.init) } s1 =
        .ok s2) ∧
    (gx_image_enum_begin { scenario_env with
        mtx := 2147483600, dda_will_overflow := fun d => decide (2147483000 < d.init) }).code =
      gs_error_rangecheck ∧
    (gx_image_enum_begin { scenario_env with
        mtx := 2147483600,
        dda_will_overflow := fun d => decide (2147483000 < d.init) }).state.render = none :=
  ⟨⟨_, _, rfl, rfl⟩,
    ((begin_dda_overflow_rejected { scenario_env with
        mtx := 2147483600, dda_will_overflow := fun d => decide (2147483000 < d.init) }
      _ _ rfl rfl).1 (Or.inl (by decide))).1,
    ((begin_dda_overflow_rejected { scenario_env with
        mtx := 2147483600, dda_will_overflow := fun d => decide (2147483000 < d.init) }
      _ _ rfl rfl).1 (Or.inl (by decide))).2.1⟩

/-- C13: for an image mask whose clue table was allocated (setup having got
past the matrix computation), `gx_image_enum_begin` returns
`gs_error_rangecheck` whenever `BitsPerComponent` is not 1, or a colour space
is supplied, or alpha is set, or `decode[0] == decode[1]`; the sample-buffer
allocation is not reached, and the clue table and the enumerator have been
freed. -/
theorem begin_mask_rangecheck (env : begin_env) (hmat : 0 ≤ env.mat_code)
    (hmask : env.masked = true) (hclues : env.clues_alloc = true)
    (hbad : env.bps ≠ 1 ∨ env.has_pcs = true ∨ env.alpha = true ∨
      env.decode0 = env.decode1) :
    (gx_image_enum_begin env).code = gs_error_rangecheck ∧
    (gx_image_enum_begin env).state.buffer_alloc_attempted = false ∧
    (gx_image_enum_begin env).state.buffer = .absent ∧
    (gx_image_enum_begin env).state.clues = .released ∧
    (gx_image_enum_begin env).state.penum = .released ∧
    (gx_image_enum_begin env).state.render = none := by
  have hc : begin_colors env =
      .error (begin_fail gs_error_rangecheck
        { begin_state_init env with clues := .held }) := by
    unfold begin_colors
    simp only [hmask, hclues, Bool.true_or, Bool.not_true, Bool.and_false,
      Bool.false_eq_true, if_false, if_true]
    rw [if_neg (by omega), if_pos hbad]
  simp only [gx_image_enum_begin, begin_setup, hc]
  exact ⟨rfl, rfl, rfl, rfl, rfl, rfl⟩

/-- Witness of C13: a 2-bit "mask". -/
theorem begin_mask_rangecheck_witness :
    ((0 : Int) ≤ 0 ∧ true = true ∧ true = true) ∧
    (gx_image_enum_begin { scenario_env with
        masked := true, has_pcs := false, bps := 2 }).code = gs_error_rangecheck ∧
    (gx_image_enum_begin { scenario_env with
        masked := true, has_pcs := false, bps := 2 }).state.buffer_alloc_attempted = false :=
  ⟨by decide,
    (begin_mask_rangecheck { scenario_env with masked := true, has_pcs := false, bps := 2 }
      (by decide) rfl rfl (Or.inl (by decide))).1,
    (begin_mask_rangecheck { scenario_env with masked := true, has_pcs := false, bps := 2 }
      (by decide) rfl rfl (Or.inl (by decide))).2.1⟩

/-- C17 fails on the code: with a clip device and a RasterOp device both
constructed, a renderer class that returns an error sends the routine
through `fail:`, which drops the reference to the clip device but not the
one to the RasterOp device; and when no class claims the image the routine
returns `gs_error_rangecheck` with both wrappers still held. -/
theorem begin_error_keeps_wrappers :
    (gx_image_enum_begin { scenario_env with
        use_rop := true, clip_image := true, has_pcpath := true,
        class_table := [⟨gs_error_VMerror, none⟩] }).code = gs_error_VMerror ∧
    (gx_image_enum_begin { scenario_env with
        use_rop := true, clip_image := true, has_pcpath := true,
        class_table := [⟨gs_error_VMerror, none⟩] }).state.clip_dev = .released ∧
    (gx_image_enum_begin { scenario_env with
        use_rop := true, clip_image := true, has_pcpath := true,
        class_table := [⟨gs_error_VMerror, none⟩] }).state.rop_dev = .held ∧
    (gx_image_enum_begin { scenario_env with
        use_rop := true, clip_image := true, has_pcpath := true,
        class_table := [⟨0, none⟩] }).code = gs_error_rangecheck ∧
    (gx_image_enum_begin { scenario_env with
        use_rop := true, clip_image := true, has_pcpath := true,
        class_table := [⟨0, none⟩] }).state.clip_dev = .held ∧
    (gx_image_enum_begin { scenario_env with
        use_rop := true, clip_image := true, has_pcpath := true,
        class_table := [⟨0, none⟩] }).state.rop_dev = .held := by
  decide

/-- C18 fails on the code: when no renderer class claims the image the
routine returns `gs_error_rangecheck` after `rc_increment_cs` without the
matching decrement, so the net change to the reference count of the colour
space is +1 on an error return; so it is on the `gs_error_undefined` return
for a missing target device.  On success the change is +1 and on a return
through `fail:` it is 0. -/
theorem begin_error_keeps_colour_space_reference :
    (gx_image_enum_begin { scenario_env with class_table := [⟨0, none⟩] }).code =
      gs_error_rangecheck ∧
    (gx_image_enum_begin { scenario_env with class_table := [⟨0, none⟩] }).state.pcs_rc = 1 ∧
    (gx_image_enum_begin { scenario_env with use_rop := true, has_dev := false }).code =
      gs_error_undefined ∧
    (gx_image_enum_begin { scenario_env with use_rop := true, has_dev := false }).state.pcs_rc
      = 1 ∧
    (gx_image_enum_begin scenario_env).code = 0 ∧
    (gx_image_enum_begin scenario_env).state.pcs_rc = 1 ∧
    (gx_image_enum_begin { scenario_env with
        class_table := [⟨gs_error_VMerror, none⟩] }).code = gs_error_VMerror ∧
    (gx_image_enum_begin { scenario_env with
        class_table := [⟨gs_error_VMerror, none⟩] }).state.pcs_rc = 0 := by
  decide

/-! ### Clue table and mask branch -/

/-- C14: for a valid image mask (1 bit, no colour space, no alpha,
`decode[0] != decode[1]`) the mask branch succeeds and leaves clue entry 0
(`icolor0`) as the pure colour `gx_no_color_index`, clue entry 255
(`icolor1`) equal to the drawing colour `*pdcolor`, `map[0].decoding` equal
to `sd_none`, and the inverted 4x1-to-32 table when `decode[0] < decode[1]`,
the identity table otherwise. -/
theorem begin_mask_branch_valid (clues : Nat → gx_image_clue) (tag : Int)
    (pdcolor : gx_device_color) (bps : Int) (has_pcs alpha : Bool) (decode0 decode1 : ℚ)
    (hbps : bps = 1) (hpcs : has_pcs = false) (halpha : alpha = false)
    (hdec : decode0 ≠ decode1) :
    ∃ r, begin_mask_branch clues tag pdcolor bps has_pcs alpha decode0 decode1 = .ok r ∧
      (r.clues 0).dev_color.type = .gx_dc_type_pure ∧
      (r.clues 0).dev_color.pure = gx_no_color_index ∧
      (r.clues 255).dev_color = pdcolor ∧
      r.decoding = .sd_none ∧
      (decode0 < decode1 → r.table = .lookup4x1to32_inverted) ∧
      (¬ decode0 < decode1 → r.table = .lookup4x1to32_identity) := by
  have hvalid : ¬ (bps ≠ 1 ∨ has_pcs = true ∨ alpha = true ∨ decode0 = decode1) := by
    rintro (h | h | h | h)
    · exact h hbps
    · rw [hpcs] at h
      cases h
    · rw [halpha] at h
      cases h
    · exact hdec h
  unfold begin_mask_branch
  simp only
  rw [if_neg hvalid]
  refine ⟨_, rfl, ?_, ?_, ?_, rfl, ?_, ?_⟩
  · simp [set_nonclient_dev_color]
  · simp [set_nonclient_dev_color]
  · simp
  · intro h
    simp [h]
  · intro h
    simp [h]

/-- Witness of C14: a 1-bit mask with Decode `[0, 1]` drawn in the pure
colour 5. -/
theorem begin_mask_branch_valid_witness :
    ((1 : Int) = 1 ∧ false = false ∧ (0 : ℚ) ≠ 1) ∧
    ∃ r, begin_mask_branch (fun _ => ⟨⟨.gx_dc_type_other 3, 9, 0⟩, 4⟩) 2
        ⟨.gx_dc_type_pure, 5, 1⟩ 1 false false 0 1 = .ok r ∧
      (r.clues 0).dev_color.type = .gx_dc_type_pure ∧
      (r.clues 0).dev_color.pure = gx_no_color_index ∧
      (r.clues 255).dev_color = ⟨.gx_dc_type_pure, 5, 1⟩ ∧
      r.decoding = .sd_none ∧
      ((0 : ℚ) < 1 → r.table = .lookup4x1to32_inverted) ∧
      (¬ (0 : ℚ) < 1 → r.table = .lookup4x1to32_identity) :=
  ⟨⟨rfl, rfl, by norm_num⟩,
    begin_mask_branch_valid (fun _ => ⟨⟨.gx_dc_type_other 3, 9, 0⟩, 4⟩) 2
      ⟨.gx_dc_type_pure, 5, 1⟩ 1 false false 0 1 rfl rfl rfl (by norm_num)⟩

/-- C15 fails as stated: on a table whose entries all hold a pure colour
with key 7, `image_init_clues` for a 1-bit single-component source leaves
entry 3 as it was; for a 4-bit source it sets the type of entry 17 and
leaves its key at 7, and leaves entry 1 as it was. -/
theorem image_init_clues_leaves_entries :
    image_init_clues (fun _ => ⟨⟨.gx_dc_type_pure, 0, 0⟩, 7⟩) 1 1 3 =
      ⟨⟨.gx_dc_type_pure, 0, 0⟩, 7⟩ ∧
    image_init_clues (fun _ => ⟨⟨.gx_dc_type_pure, 0, 0⟩, 7⟩) 4 1 17 =
      ⟨⟨.gx_dc_type_none, 0, 0⟩, 7⟩ ∧
    image_init_clues (fun _ => ⟨⟨.gx_dc_type_pure, 0, 0⟩, 7⟩) 4 1 1 =
      ⟨⟨.gx_dc_type_pure, 0, 0⟩, 7⟩ := by
  decide

/-- Entries outside the list are left alone by `set_clue_types_none`, entries
in the list only get their type changed. -/
theorem set_clue_types_none_apply (is : List Nat) (clues : Nat → gx_image_clue) (j : Nat) :
    (j ∉ is → set_clue_types_none clues is j = clues j) ∧
    (j ∈ is → set_clue_types_none clues is j =
      { clues j with dev_color := { (clues j).dev_color with type := .gx_dc_type_none } }) ∧
    (set_clue_types_none clues is j).key = (clues j).key := by
  induction is generalizing clues with
  | nil => simp [set_clue_types_none]
  | cons i rest ih =>
    have ih' := ih (set_clue_type clues i .gx_dc_type_none)
    simp only [set_clue_types_none, List.foldl_cons] at ih' ⊢
    obtain ⟨i1, i2, i3⟩ := ih'
    by_cases hji : j = i
    · subst hji
      refine ⟨fun h => absurd (List.mem_cons_self _ _) h, fun _ => ?_, ?_⟩
      · by_cases hr : j ∈ rest
        · rw [i2 hr]
          simp [set_clue_type]
        · rw [i1 hr]
          simp [set_clue_type]
      · rw [i3]
        simp [set_clue_type]
    · have hs : set_clue_type clues i .gx_dc_type_none j = clues j := by
        simp [set_clue_type, hji]
      refine ⟨fun h => ?_, fun h => ?_, ?_⟩
      · rw [i1 (fun hr => h (List.mem_cons_of_mem _ hr)), hs]
      · rcases List.mem_cons.1 h with h | h
        · exact absurd h hji
        · rw [i2 h, hs]
      · rw [i3, hs]
/-- C15 (amended): `image_init_clues` initialises the entries used at the
given depth.  For an 8-bit single-component source (and for every source
with more than one component) all 256 entries get type `gx_dc_type_none`
and key 0, except that entry 0 gets key 1.  For a 4-bit single-component
source the interior entries `17 * k`, `k = 1 .. 14`, get type
`gx_dc_type_none`, for a 2-bit one the entries 85 and 170; their keys and
every other entry are left as they were.  For any other depth of a
single-component source the table is left as it was. -/
theorem image_init_clues_by_depth (clues : Nat → gx_image_clue) (bps spp : Int) :
    (((spp = 1 ∧ bps = 8) ∨ spp ≠ 1) →
      ∀ j, j < 256 →
        (image_init_clues clues bps spp j).dev_color.type = .gx_dc_type_none ∧
        (image_init_clues clues bps spp j).key = (if j = 0 then 1 else 0)) ∧
    ((spp = 1 ∧ bps = 4) →
      ∀ j,
        ((j % 17 = 0 ∧ 0 < j ∧ j < 255) →
          image_init_clues clues bps spp j =
            { clues j with
              dev_color := { (clues j).dev_color with type := .gx_dc_type_none } }) ∧
        (¬ (j % 17 = 0 ∧ 0 < j ∧ j < 255) → image_init_clues clues bps spp j = clues j)) ∧
    ((spp = 1 ∧ bps = 2) →
      ∀ j,
        ((j = 85 ∨ j = 170) →
          image_init_clues clues bps spp j =
            { clues j with
              dev_color := { (clues j).dev_color with type := .gx_dc_type_none } }) ∧
        (¬ (j = 85 ∨ j = 170) → image_init_clues clues bps spp j = clues j)) ∧
    ((spp = 1 ∧ bps ≠ 8 ∧ bps ≠ 4 ∧ bps ≠ 2) → image_init_clues clues bps spp = clues) := by
  refine ⟨?_, ?_, ?_, ?_⟩
  · intro h j hj
    have hsel : (if spp = 1 then bps else 8) = 8 := by
      rcases h with ⟨h1, h2⟩ | h
      · rw [if_pos h1, h2]
      · rw [if_neg h]
    simp [image_init_clues, hsel, hj]
  · rintro ⟨h1, h2⟩ j
    subst h1 h2
    have hdef : image_init_clues clues 4 1 =
        set_clue_types_none
          (set_clue_types_none clues
            [17, 2 * 17, 3 * 17, 4 * 17, 6 * 17, 7 * 17, 8 * 17, 9 * 17, 11 * 17, 12 * 17,
              13 * 17, 14 * 17])
          [5 * 17, 10 * 17] := by
      simp [image_init_clues]
    rw [hdef]
    obtain ⟨a1, a2, _⟩ := set_clue_types_none_apply [5 * 17, 10 * 17]
      (set_clue_types_none clues
        [17, 2 * 17, 3 * 17, 4 * 17, 6 * 17, 7 * 17, 8 * 17, 9 * 17, 11 * 17, 12 * 17,
          13 * 17, 14 * 17]) j
    obtain ⟨b1, b2, _⟩ := set_clue_types_none_apply
      [17, 2 * 17, 3 * 17, 4 * 17, 6 * 17, 7 * 17, 8 * 17, 9 * 17, 11 * 17, 12 * 17,
        13 * 17, 14 * 17] clues j
    by_cases hA : j ∈ [5 * 17, 10 * 17]
    · have hB : j ∉ [17, 2 * 17, 3 * 17, 4 * 17, 6 * 17, 7 * 17, 8 * 17, 9 * 17, 11 * 17,
          12 * 17, 13 * 17, 14 * 17] := by
        simp only [List.mem_cons, List.mem_singleton, List.not_mem_nil, or_false] at hA ⊢
        omega
      rw [a2 hA, b1 hB]
      refine ⟨fun _ => rfl, fun h => absurd ?_ h⟩
      simp only [List.mem_cons, List.mem_singleton, List.not_mem_nil, or_false] at hA
      omega
    · rw [a1 hA]
      by_cases hB : j ∈ [17, 2 * 17, 3 * 17, 4 * 17, 6 * 17, 7 * 17, 8 * 17, 9 * 17, 11 * 17,
          12 * 17, 13 * 17, 14 * 17]
      · rw [b2 hB]
        refine ⟨fun _ => rfl, fun h => absurd ?_ h⟩
        simp only [List.mem_cons, List.mem_singleton, List.not_mem_nil, or_false] at hB
        omega
      · rw [b1 hB]
        refine ⟨fun h => absurd h ?_, fun _ => rfl⟩
        simp only [List.mem_cons, List.mem_singleton, List.not_mem_nil, or_false] at hA hB
        omega
  · rintro ⟨h1, h2⟩ j
    subst h1 h2
    have hdef : image_init_clues clues 2 1 = set_clue_types_none clues [5 * 17, 10 * 17] := by
      simp [image_init_clues]
    rw [hdef]
    obtain ⟨a1, a2, _⟩ := set_clue_types_none_apply [5 * 17, 10 * 17] clues j
    constructor
    · intro h
      exact a2 (by
        simp only [List.mem_cons, List.mem_singleton, List.not_mem_nil, or_false]
        omega)
    · intro h
      exact a1 (by
        simp only [List.mem_cons, List.mem_singleton, List.not_mem_nil, or_false]
        omega)
  · rintro ⟨h1, h8, h4, h2⟩
    simp [image_init_clues, h1, h8, h4, h2]

/-! ### Colour cache -/

/-- C16 fails as stated: for an Indexed source with an identity link, no
decode and no transfer function, `image_init_color_cache` allocates the
cache (three allocations) and fills it by palette lookup; here a 2-bit
palette for a 3-component device, giving 4 entries of 12 bytes in all. -/
theorem image_init_color_cache_indexed_allocates :
    (image_init_color_cache
        { icc_link := some ⟨true⟩, num_des_comp := 3, need_decode := false,
          has_transfer := false, is_indexed := true, use_proc := false, hival := 3,
          cache_alloc := true, contone_alloc := true, transparent_alloc := true,
          temp_alloc := true, map_buffer_code := 0 } 2 none).code = 0 ∧
    (image_init_color_cache
        { icc_link := some ⟨true⟩, num_des_comp := 3, need_decode := false,
          has_transfer := false, is_indexed := true, use_proc := false, hival := 3,
          cache_alloc := true, contone_alloc := true, transparent_alloc := true,
          temp_alloc := true, map_buffer_code := 0 } 2 none).color_cache = some ⟨4, 12⟩ ∧
    (image_init_color_cache
        { icc_link := some ⟨true⟩, num_des_comp := 3, need_decode := false,
          has_transfer := false, is_indexed := true, use_proc := false, hival := 3,
          cache_alloc := true, contone_alloc := true, transparent_alloc := true,
          temp_alloc := true, map_buffer_code := 0 } 2 none).allocations = 3 ∧
    (image_init_color_cache
        { icc_link := some ⟨true⟩, num_des_comp := 3, need_decode := false,
          has_transfer := false, is_indexed := true, use_proc := false, hival := 3,
          cache_alloc := true, contone_alloc := true, transparent_alloc := true,
          temp_alloc := true, map_buffer_code := 0 } 2 none).fill =
      some .identity_indexing_only := by
  decide

/-- C16 (amended): for every source that is not Indexed, when the ICC link is
the identity transform and neither decode nor a transfer function applies,
`image_init_color_cache` returns 0 without any allocation and without
calling the colour-management transform, leaving `penum->color_cache` as it
was (`NULL` after `gx_image_enum_begin`).  For an Indexed source under the
same conditions the cache is allocated, with `2^bps` entries, and filled by
palette lookup (when the allocations succeed). -/
theorem image_init_color_cache_identity (env : color_cache_env) (bps : Nat)
    (cache0 : Option gx_image_color_cache_t) (link : gsicc_link)
    (hlink : env.icc_link = some link) (hid : link.is_identity = true)
    (hdec : env.need_decode = false) (htr : env.has_transfer = false) :
    (env.is_indexed = false →
      (image_init_color_cache env bps cache0).code = 0 ∧
      (image_init_color_cache env bps cache0).color_cache = cache0 ∧
      (image_init_color_cache env bps cache0).allocations = 0 ∧
      (image_init_color_cache env bps cache0).map_buffer_calls = 0) ∧
    (env.is_indexed = true → env.cache_alloc = true → env.contone_alloc = true →
      env.transparent_alloc = true →
      (image_init_color_cache env bps cache0).code = 0 ∧
      (image_init_color_cache env bps cache0).color_cache =
        some ⟨2 ^ bps, env.num_des_comp * 2 ^ bps⟩ ∧
      (image_init_color_cache env bps cache0).fill = some .identity_indexing_only ∧
      (image_init_color_cache env bps cache0).map_buffer_calls = 0) := by
  constructor
  · intro hidx
    simp [image_init_color_cache, hlink, hid, hdec, htr, hidx]
  · intro hidx h1 h2 h3
    simp [image_init_color_cache, hlink, hid, hdec, htr, hidx, h1, h2, h3,
      Nat.shiftLeft_eq]

/-- Witness of C16 (amended): an 8-bit gray source with an identity link. -/
theorem image_init_color_cache_identity_witness :
    (image_init_color_cache
        { icc_link := some ⟨true⟩, num_des_comp := 1, need_decode := false,
          has_transfer := false, is_indexed := false, use_proc := false, hival := 0,
          cache_alloc := true, contone_alloc := true, transparent_alloc := true,
          temp_alloc := true, map_buffer_code := 0 } 8 none).code = 0 ∧
    (image_init_color_cache
        { icc_link := some ⟨true⟩, num_des_comp := 1, need_decode := false,
          has_transfer := false, is_indexed := false, use_proc := false, hival := 0,
          cache_alloc := true, contone_alloc := true, transparent_alloc := true,
          temp_alloc := true, map_buffer_code := 0 } 8 none).color_cache = none ∧
    (image_init_color_cache
        { icc_link := some ⟨true⟩, num_des_comp := 1, need_decode := false,
          has_transfer := false, is_indexed := false, use_proc := false, hival := 0,
          cache_alloc := true, contone_alloc := true, transparent_alloc := true,
          temp_alloc := true, map_buffer_code := 0 } 8 none).allocations = 0 ∧
    (image_init_color_cache
        { icc_link := some ⟨true⟩, num_des_comp := 1, need_decode := false,
          has_transfer := false, is_indexed := false, use_proc := false, hival := 0,
          cache_alloc := true, contone_alloc := true, transparent_alloc := true,
          temp_alloc := true, map_buffer_code := 0 } 8 none).map_buffer_calls = 0 :=
  (image_init_color_cache_identity
    { icc_link := some ⟨true⟩, num_des_comp := 1, need_decode := false,
      has_transfer := false, is_indexed := false, use_proc := false, hival := 0,
      cache_alloc := true, contone_alloc := true, transparent_alloc := true,
      temp_alloc := true, map_buffer_code := 0 } 8 none ⟨true⟩ rfl rfl rfl rfl).1 rfl

/-! ### Grid-fit idempotence -/

/-- The conversions of `gxfixed` on a whole number of pixels. -/
theorem gxfixed_on_integers (k : Int) :
    gxfixed.fixed2int (gxfixed.float2fixed (k : ℚ)) = k ∧
    gxfixed.fixed2int_ceiling (gxfixed.float2fixed (k : ℚ)) = k := by
  have hf : gxfixed.float2fixed (k : ℚ) = k * 256 := by
    simp only [gxfixed]
    have hc : ((k : ℚ) * 256) = ((k * 256 : Int) : ℚ) := by push_cast; ring
    split_ifs
    · rw [hc, Int.floor_intCast]
    · rw [hc, Int.ceil_intCast]
  rw [hf]
  simp only [gxfixed]
  constructor <;> omega

/-- The result of a positive or negative grid-fit block is a whole pixel
origin `a` and the scale `(b - a) / n` for whole pixels `a` and `b`. -/
theorem grid_fit_blocks_form (t s : ℚ) (n : Int) :
    (∃ a b : Int, grid_fit_pos gxfixed t s n = ((a : ℚ), ((b : ℚ) - a) / n)) ∧
    (∃ a b : Int, grid_fit_neg gxfixed t s n = ((a : ℚ), ((b : ℚ) - a) / n)) := by
  constructor
  · refine ⟨gxfixed.fixed2int (gxfixed.float2fixed t),
      gxfixed.fixed2int_ceiling (gxfixed.float2fixed (t + s * n)), ?_⟩
    simp only [grid_fit_pos, gxfixed]
    refine Prod.ext ?_ ?_
    · simp only
      push_cast
      ring
    · simp only
      push_cast
      ring
  · refine ⟨gxfixed.fixed2int_ceiling (gxfixed.float2fixed t),
      gxfixed.fixed2int (gxfixed.float2fixed (t + s * n)), ?_⟩
    simp only [grid_fit_neg, gxfixed]
    refine Prod.ext ?_ ?_
    · simp only
      push_cast
      ring
    · simp only
      push_cast
      ring

/-- A whole-pixel origin with a scale spanning whole pixels is a fixed point
of the per-axis grid-fit computation. -/
theorem grid_fit_axis_fixed_point (a b n : Int) :
    grid_fit_axis gxfixed (a : ℚ) (((b : ℚ) - a) / n) n = ((a : ℚ), ((b : ℚ) - a) / n) := by
  by_cases hn : n = 0
  · subst hn
    simp [grid_fit_axis]
  · have hnq : (n : ℚ) ≠ 0 := by exact_mod_cast hn
    have hx1 : (a : ℚ) + ((b : ℚ) - a) / n * n = ((b : Int) : ℚ) := by
      field_simp
    have hpos : grid_fit_pos gxfixed (a : ℚ) (((b : ℚ) - a) / n) n =
        ((a : ℚ), ((b : ℚ) - a) / n) := by
      simp only [grid_fit_pos]
      rw [hx1, (gxfixed_on_integers a).1, (gxfixed_on_integers b).2]
      simp only [gxfixed]
      refine Prod.ext ?_ ?_
      · simp only
        push_cast
        ring
      · simp only
        push_cast
        ring
    have hneg : grid_fit_neg gxfixed (a : ℚ) (((b : ℚ) - a) / n) n =
        ((a : ℚ), ((b : ℚ) - a) / n) := by
      simp only [grid_fit_neg]
      rw [hx1, (gxfixed_on_integers a).2, (gxfixed_on_integers b).1]
      simp only [gxfixed]
      refine Prod.ext ?_ ?_
      · simp only
        push_cast
        ring
      · simp only
        push_cast
        ring
    unfold grid_fit_axis
    split_ifs
    · exact hpos
    · exact hneg
    · rfl

/-- The per-axis grid-fit computation is idempotent. -/
theorem grid_fit_axis_idempotent (t s : ℚ) (n : Int) :
    grid_fit_axis gxfixed (grid_fit_axis gxfixed t s n).1 (grid_fit_axis gxfixed t s n).2 n =
      grid_fit_axis gxfixed t s n := by
  obtain ⟨⟨a, b, hp⟩, ⟨c, d, hq⟩⟩ := grid_fit_blocks_form t s n
  by_cases h1 : s > 0
  · have he : grid_fit_axis gxfixed t s n = ((a : ℚ), ((b : ℚ) - a) / n) := by
      rw [grid_fit_axis, if_pos h1, hp]
    rw [he]
    exact grid_fit_axis_fixed_point a b n
  · by_cases h2 : s < 0
    · have he : grid_fit_axis gxfixed t s n = ((c : ℚ), ((d : ℚ) - c) / n) := by
        rw [grid_fit_axis, if_neg h1, if_pos h2, hq]
      rw [he]
      exact grid_fit_axis_fixed_point c d n
    · have he : grid_fit_axis gxfixed t s n = (t, s) := by
        rw [grid_fit_axis, if_neg h1, if_neg h2]
      rw [he]
      exact he
/-- The `orthogonal == 1` branch is idempotent. -/
theorem grid_fit_portrait_idempotent (gridfit : Bool) (width height : Int) (mat : gs_matrix) :
    grid_fit_portrait gxfixed gridfit width height
        (grid_fit_portrait gxfixed gridfit width height mat) =
      grid_fit_portrait gxfixed gridfit width height mat := by
  have hx := grid_fit_axis_idempotent mat.tx mat.xx width
  have hy := grid_fit_axis_idempotent mat.ty mat.yy height
  unfold grid_fit_portrait
  by_cases hw : width = 1 ∨ gridfit = true <;> by_cases hh : height = 1 ∨ gridfit = true <;>
    simp only [hw, hh, if_true, if_false, hx, hy]

/-- The `orthogonal == 2` branch is idempotent. -/
theorem grid_fit_landscape_idempotent (gridfit : Bool) (width height : Int) (mat : gs_matrix) :
    grid_fit_landscape gxfixed gridfit width height
        (grid_fit_landscape gxfixed gridfit width height mat) =
      grid_fit_landscape gxfixed gridfit width height mat := by
  have hx := grid_fit_axis_idempotent mat.tx mat.yx height
  have hy := grid_fit_axis_idempotent mat.ty mat.xy width
  unfold grid_fit_landscape
  by_cases hw : width = 1 ∨ gridfit = true <;> by_cases hh : height = 1 ∨ gridfit = true <;>
    simp only [hw, hh, if_true, if_false, hx, hy]

/-- The `orthogonal == 1` branch leaves a matrix with zero diagonal terms
alone. -/
theorem grid_fit_portrait_zero_scales (fx : fixed_ops) (gridfit : Bool) (width height : Int)
    (mat : gs_matrix) (hxx : mat.xx = 0) (hyy : mat.yy = 0) :
    grid_fit_portrait fx gridfit width height mat = mat := by
  obtain ⟨xx, xy, yx, yy, tx, ty⟩ := mat
  simp only at hxx hyy
  subst hxx hyy
  unfold grid_fit_portrait grid_fit_axis
  by_cases hw : width = 1 ∨ gridfit = true <;> by_cases hh : height = 1 ∨ gridfit = true <;>
    simp [hw, hh]
/-- Two matrices of the same orientation take the same branch of the grid-fit
stage. -/
theorem grid_fit_same_branch (fx : fixed_ops) (pgs : Option gs_gstate) (masked : Bool)
    (image_parent_type : Int) (override_in_smask : Bool)
    (dso_in_smask dso_in_pattern_accumulator : Int) (width height : Int)
    (m m' : gs_matrix) (horth : orthogonal m' = orthogonal m) :
    (grid_fit fx pgs masked image_parent_type override_in_smask dso_in_smask
          dso_in_pattern_accumulator width height m = m ∧
      grid_fit fx pgs masked image_parent_type override_in_smask dso_in_smask
          dso_in_pattern_accumulator width height m' = m') ∨
    (orthogonal m = 1 ∧
      grid_fit fx pgs masked image_parent_type override_in_smask dso_in_smask
          dso_in_pattern_accumulator width height m =
        grid_fit_portrait fx
          (gridfitimages override_in_smask dso_in_smask dso_in_pattern_accumulator m)
          width height m ∧
      grid_fit fx pgs masked image_parent_type override_in_smask dso_in_smask
          dso_in_pattern_accumulator width height m' =
        grid_fit_portrait fx
          (gridfitimages override_in_smask dso_in_smask dso_in_pattern_accumulator m)
          width height m') ∨
    (orthogonal m = 2 ∧
      grid_fit fx pgs masked image_parent_type override_in_smask dso_in_smask
          dso_in_pattern_accumulator width height m =
        grid_fit_landscape fx
          (gridfitimages override_in_smask dso_in_smask dso_in_pattern_accumulator m)
          width height m ∧
      grid_fit fx pgs masked image_parent_type override_in_smask dso_in_smask
          dso_in_pattern_accumulator width height m' =
        grid_fit_landscape fx
          (gridfitimages override_in_smask dso_in_smask dso_in_pattern_accumulator m)
          width height m') := by
  have hgf : gridfitimages override_in_smask dso_in_smask dso_in_pattern_accumulator m' =
      gridfitimages override_in_smask dso_in_smask dso_in_pattern_accumulator m := by
    simp only [gridfitimages, horth]
  unfold grid_fit
  simp only [hgf, horth]
  split_ifs with h1 h2 h3 h4 h5 h6
  · exact Or.inl ⟨rfl, rfl⟩
  · exact Or.inl ⟨rfl, rfl⟩
  · exact Or.inl ⟨rfl, rfl⟩
  · exact Or.inl ⟨rfl, rfl⟩
  · exact Or.inr (Or.inl ⟨h5, rfl, rfl⟩)
  · exact Or.inr (Or.inr ⟨h6, rfl, rfl⟩)
  · exact Or.inl ⟨rfl, rfl⟩

/-- The orientation in terms of the matrix terms. -/
theorem orthogonal_iff (m : gs_matrix) :
    (orthogonal m = 1 ↔ (m.xy = 0 ∧ m.yx = 0)) ∧
    (orthogonal m = 2 ↔ (¬ (m.xy = 0 ∧ m.yx = 0) ∧ (m.xx = 0 ∧ m.yy = 0))) := by
  unfold orthogonal
  by_cases h1 : m.xy = 0 ∧ m.yx = 0
  · rw [if_pos h1]
    exact ⟨⟨fun _ => h1, fun _ => rfl⟩, ⟨fun h => absurd h (by decide), fun h => absurd h1 h.1⟩⟩
  · rw [if_neg h1]
    by_cases h2 : m.xx = 0 ∧ m.yy = 0
    · rw [if_pos h2]
      exact ⟨⟨fun h => absurd h (by decide), fun h => absurd h h1⟩,
        ⟨fun _ => ⟨h1, h2⟩, fun _ => rfl⟩⟩
    · rw [if_neg h2]
      exact ⟨⟨fun h => absurd h (by decide), fun h => absurd h h1⟩,
        ⟨fun h => absurd h (by decide), fun h => absurd h.2 h2⟩⟩

/-- C11: grid-fit is idempotent (the arithmetic taken as exact, with the
fixed-point conversions `gxfixed`): applying the per-axis grid-fit
computation to its own output gives the same translation and scale, for
every starting translation, scale and sample count; and applying the whole
grid-fit stage of `gx_image_enum_begin` to its own output, in the same
context, gives the same matrix. -/
theorem grid_fit_idempotent (pgs : Option gs_gstate) (masked : Bool)
    (image_parent_type : Int) (override_in_smask : Bool)
    (dso_in_smask dso_in_pattern_accumulator : Int) (width height : Int)
    (mat : gs_matrix) :
    (∀ (t s : ℚ) (n : Int),
      grid_fit_axis gxfixed (grid_fit_axis gxfixed t s n).1 (grid_fit_axis gxfixed t s n).2 n =
        grid_fit_axis gxfixed t s n) ∧
    grid_fit gxfixed pgs masked image_parent_type override_in_smask dso_in_smask
        dso_in_pattern_accumulator width height
        (grid_fit gxfixed pgs masked image_parent_type override_in_smask dso_in_smask
          dso_in_pattern_accumulator width height mat) =
      grid_fit gxfixed pgs masked image_parent_type override_in_smask dso_in_smask
        dso_in_pattern_accumulator width height mat := by
  refine ⟨grid_fit_axis_idempotent, ?_⟩
  rcases grid_fit_cases gxfixed pgs masked image_parent_type override_in_smask dso_in_smask
      dso_in_pattern_accumulator width height mat with he | ⟨_, ⟨h5, he⟩ | ⟨h6, he⟩⟩
  · rw [he]
    exact he
  · obtain ⟨c1, c2, _, _⟩ := grid_fit_portrait_changes gxfixed
      (gridfitimages override_in_smask dso_in_smask dso_in_pattern_accumulator mat)
      width height mat
    have hxy := (orthogonal_iff mat).1.1 h5
    have horth : orthogonal (grid_fit_portrait gxfixed
        (gridfitimages override_in_smask dso_in_smask dso_in_pattern_accumulator mat)
        width height mat) = orthogonal mat := by
      rw [h5]
      exact (orthogonal_iff _).1.2 ⟨by rw [c1]; exact hxy.1, by rw [c2]; exact hxy.2⟩
    rw [he]
    rcases grid_fit_same_branch gxfixed pgs masked image_parent_type override_in_smask
        dso_in_smask dso_in_pattern_accumulator width height mat _ horth with
      ⟨_, h⟩ | ⟨_, _, h⟩ | ⟨h2, _, _⟩
    · exact h
    · rw [h]
      exact grid_fit_portrait_idempotent _ width height mat
    · rw [h5] at h2
      exact absurd h2 (by decide)
  · obtain ⟨c1, c2, _, _⟩ := grid_fit_landscape_changes gxfixed
      (gridfitimages override_in_smask dso_in_smask dso_in_pattern_accumulator mat)
      width height mat
    have hm := (orthogonal_iff mat).2.1 h6
    rw [he]
    by_cases hcross : (grid_fit_landscape gxfixed
          (gridfitimages override_in_smask dso_in_smask dso_in_pattern_accumulator mat)
          width height mat).xy = 0 ∧
        (grid_fit_landscape gxfixed
          (gridfitimages override_in_smask dso_in_smask dso_in_pattern_accumulator mat)
          width height mat).yx = 0
    · have h1 := (orthogonal_iff _).1.2 hcross
      rcases grid_fit_cases gxfixed pgs masked image_parent_type override_in_smask
          dso_in_smask dso_in_pattern_accumulator width height
          (grid_fit_landscape gxfixed
            (gridfitimages override_in_smask dso_in_smask dso_in_pattern_accumulator mat)
            width height mat) with h | ⟨_, ⟨_, h⟩ | ⟨h2, _⟩⟩
      · exact h
      · rw [h]
        exact grid_fit_portrait_zero_scales gxfixed _ width height _
          (by rw [c1]; exact hm.2.1) (by rw [c2]; exact hm.2.2)
      · rw [h1] at h2
        exact absurd h2 (by decide)
    · have horth : orthogonal (grid_fit_landscape gxfixed
          (gridfitimages override_in_smask dso_in_smask dso_in_pattern_accumulator mat)
          width height mat) = orthogonal mat := by
        rw [h6]
        exact (orthogonal_iff _).2.2
          ⟨hcross, by rw [c1]; exact hm.2.1, by rw [c2]; exact hm.2.2⟩
      rcases grid_fit_same_branch gxfixed pgs masked image_parent_type override_in_smask
          dso_in_smask dso_in_pattern_accumulator width height mat _ horth with
        ⟨_, h⟩ | ⟨h2, _, _⟩ | ⟨_, _, h⟩
      · exact h
      · rw [h6] at h2
        exact absurd h2 (by decide)
      · rw [h]
        exact grid_fit_landscape_idempotent _ width height mat

/-! ### Colorant lookup -/

/-- C19 fails as stated: `strncmp` stops at a zero byte, so the name
`a\0b` (bytes 97, 0, 98) is found as colorant 2 on a device whose only
separation name is `a\0c`, a different name; and the name `a\0c` itself
gets the same number. -/
theorem rinkj_get_color_comp_index_nul :
    rinkj_get_color_comp_index (some [[67], [77]]) [[97, 0, 99]] [97, 0, 98] = 2 ∧
    rinkj_get_color_comp_index (some [[67], [77]]) [[97, 0, 99]] [97, 0, 99] = 2 ∧
    ([97, 0, 98] : List Nat) ∉ [[67], [77], [97, 0, 99]] := by
  decide

/-- For a name without zero bytes, `strncmp` over its length succeeds exactly
when the name is a prefix of the other string. -/
theorem strncmp_eq_of_no_nul (a b : List Nat) (ha : 0 ∉ a) :
    strncmp_eq a b a.length = true ↔ a <+: b := by
  induction a generalizing b with
  | nil => simp [strncmp_eq]
  | cons x xs ih =>
    have hx : x ≠ 0 := fun h => ha (by rw [h]; exact List.mem_cons_self _ _)
    have hxs : 0 ∉ xs := fun h => ha (List.mem_cons_of_mem _ h)
    cases b with
    | nil =>
      simp [strncmp_eq, hx]
    | cons y ys =>
      simp only [List.length_cons, strncmp_eq, List.headD_cons, List.tail_cons,
        List.cons_prefix_cons]
      by_cases hxy : x = y
      · subst hxy
        simp [hx, ih ys hxs]
      · simp [hxy]

/-- For a counted string compared with a name without zero bytes of the same
length, `strncmp` succeeds exactly when the two are equal. -/
theorem strncmp_eq_iff_eq (a b : List Nat) (hb : 0 ∉ b) (hlen : a.length = b.length) :
    strncmp_eq a b a.length = true ↔ a = b := by
  induction a generalizing b with
  | nil =>
    cases b with
    | nil => simp [strncmp_eq]
    | cons y ys => simp at hlen
  | cons x xs ih =>
    cases b with
    | nil => simp at hlen
    | cons y ys =>
      have hy : y ≠ 0 := fun h => hb (by rw [h]; exact List.mem_cons_self _ _)
      have hys : 0 ∉ ys := fun h => hb (List.mem_cons_of_mem _ h)
      have hl : xs.length = ys.length := by simpa using hlen
      simp only [List.length_cons, strncmp_eq, List.headD_cons, List.tail_cons]
      by_cases hxy : x = y
      · subst hxy
        simp [hy, ih ys hys hl]
      · simp [hxy]

/-- The comparison with a standard colorant name, for a name without zero
bytes. -/
theorem compare_std_name (pname pcolor : List Nat) (hp : 0 ∉ pname) :
    compare_color_names pname pname.length pcolor (c_strlen pcolor) = true ↔
      c_string pcolor = pname := by
  simp only [compare_color_names, Bool.and_eq_true, decide_eq_true_eq,
    strncmp_eq_of_no_nul pname pcolor hp, c_strlen]
  constructor
  · rintro ⟨hlen, hpre⟩
    have htw : c_string pcolor <+: pcolor := List.takeWhile_prefix _
    have h1 : c_string pcolor <+: pname :=
      List.prefix_of_prefix_length_le htw hpre (by simp only [c_string]; omega)
    exact h1.eq_of_length (by simp only [c_string]; omega)
  · intro h
    subst h
    exact ⟨rfl, List.takeWhile_prefix _⟩

/-- The comparison with a separation name, for a name without zero bytes. -/
theorem compare_separation_name (pname sep : List Nat) (hp : 0 ∉ pname) :
    compare_color_names sep sep.length pname pname.length = true ↔ sep = pname := by
  simp only [compare_color_names, Bool.and_eq_true, decide_eq_true_eq]
  constructor
  · rintro ⟨hlen, hcmp⟩
    exact (strncmp_eq_iff_eq sep pname hp hlen).1 hcmp
  · intro h
    subst h
    exact ⟨rfl, (strncmp_eq_iff_eq sep sep hp rfl).2 rfl⟩
/-- The first index in a concatenation. -/
theorem first_index_append (name : List Nat) (l1 l2 : List (List Nat)) :
    (name ∈ l1 → first_index name (l1 ++ l2) = first_index name l1) ∧
    (name ∉ l1 → first_index name (l1 ++ l2) = l1.length + first_index name l2) := by
  induction l1 with
  | nil => simp
  | cons s rest ih =>
    by_cases hs : s = name
    · subst hs
      simp [first_index]
    · have hne : ¬ name = s := fun h => hs h.symm
      have e1 : first_index name (s :: rest ++ l2) = first_index name (rest ++ l2) + 1 := by
        show first_index name (s :: (rest ++ l2)) = _
        simp only [first_index, if_neg hs]
      have e2 : first_index name (s :: rest) = first_index name rest + 1 := by
        simp only [first_index, if_neg hs]
      constructor
      · intro h
        rcases List.mem_cons.1 h with h | h
        · exact absurd h hne
        · rw [e1, e2, ih.1 h]
      · intro h
        have hr : name ∉ rest := fun hm => h (List.mem_cons_of_mem _ hm)
        rw [e1, ih.2 hr, List.length_cons]
        omega

/-- The loop over the standard names, for a name without zero bytes. -/
theorem std_names_loop_spec (pname : List Nat) (hp : 0 ∉ pname) (names : List (List Nat))
    (k : Int) :
    std_names_loop pname pname.length names k =
      if pname ∈ names.map c_string then
        .inl (k + (first_index pname (names.map c_string) : Nat))
      else .inr (k + (names.length : Nat)) := by
  induction names generalizing k with
  | nil => simp [std_names_loop]
  | cons s rest ih =>
    simp only [std_names_loop, List.map_cons, List.mem_cons, List.length_cons]
    by_cases hs : c_string s = pname
    · have hc := (compare_std_name pname s hp).2 hs
      rw [if_pos hc, if_pos (Or.inl hs.symm)]
      simp [first_index, hs]
    · have hc : ¬ compare_color_names pname pname.length s (c_strlen s) = true :=
        fun h => hs ((compare_std_name pname s hp).1 h)
      rw [if_neg hc, ih (k + 1)]
      simp only [first_index, if_neg hs]
      have hne : ¬ pname = c_string s := fun h => hs h.symm
      by_cases hm : pname ∈ rest.map c_string
      · rw [if_pos hm, if_pos (Or.inr hm)]
        congr 1
        push_cast
        omega
      · rw [if_neg hm, if_neg (by rintro (h | h); exact hne h; exact hm h)]
        congr 1
        push_cast
        omega

/-- The loop over the separation names, for a name without zero bytes. -/
theorem separation_names_loop_spec (pname : List Nat) (hp : 0 ∉ pname)
    (names : List (List Nat)) (k : Int) :
    separation_names_loop pname pname.length names k =
      if pname ∈ names then k + (first_index pname names : Nat) else -1 := by
  induction names generalizing k with
  | nil => simp [separation_names_loop]
  | cons s rest ih =>
    simp only [separation_names_loop, List.mem_cons]
    by_cases hs : s = pname
    · have hc := (compare_separation_name pname s hp).2 hs
      rw [if_pos hc, if_pos (Or.inl hs.symm)]
      simp [first_index, hs]
    · have hc : ¬ compare_color_names s s.length pname pname.length = true :=
        fun h => hs ((compare_separation_name pname s hp).1 h)
      rw [if_neg hc, ih (k + 1)]
      simp only [first_index, if_neg hs]
      have hne : ¬ pname = s := fun h => hs h.symm
      by_cases hm : pname ∈ rest
      · rw [if_pos hm, if_pos (Or.inr hm)]
        push_cast
        omega
      · rw [if_neg hm, if_neg (by rintro (h | h); exact hne h; exact hm h)]

/-- C19 (amended): for a name `(pname, name_size)` that contains no zero
byte, `rinkj_get_color_comp_index` returns a non-negative colorant number
if and only if the name equals one of the device's standard colorant names
or one of its first `num_names` separation names; the number returned is
the position of the first match, counting the standard names first and then
the separation names, and it is -1 when no name matches. -/
theorem rinkj_get_color_comp_index_spec (std_colorant_names : Option (List (List Nat)))
    (separation_names : List (List Nat)) (pname : List Nat) (hp : 0 ∉ pname) :
    (pname ∈ (std_colorant_names.getD []).map c_string ++ separation_names →
      rinkj_get_color_comp_index std_colorant_names separation_names pname =
        ((first_index pname ((std_colorant_names.getD []).map c_string ++ separation_names)
          : Nat) : Int)) ∧
    (pname ∉ (std_colorant_names.getD []).map c_string ++ separation_names →
      rinkj_get_color_comp_index std_colorant_names separation_names pname = -1) ∧
    (0 ≤ rinkj_get_color_comp_index std_colorant_names separation_names pname ↔
      pname ∈ (std_colorant_names.getD []).map c_string ++ separation_names) := by
  have hmain : rinkj_get_color_comp_index std_colorant_names separation_names pname =
      if pname ∈ (std_colorant_names.getD []).map c_string ++ separation_names then
        ((first_index pname ((std_colorant_names.getD []).map c_string ++ separation_names)
          : Nat) : Int)
      else -1 := by
    unfold rinkj_get_color_comp_index
    cases std_colorant_names with
    | none =>
      simp only [Option.getD_none, List.map_nil, List.nil_append]
      rw [separation_names_loop_spec pname hp]
      simp
    | some names =>
      simp only [Option.getD_some]
      rw [std_names_loop_spec pname hp]
      by_cases h1 : pname ∈ names.map c_string
      · rw [if_pos h1, if_pos (List.mem_append_left _ h1), (first_index_append pname _ _).1 h1]
        simp
      · rw [if_neg h1]
        simp only
        rw [separation_names_loop_spec pname hp, (first_index_append pname _ _).2 h1]
        by_cases h2 : pname ∈ separation_names
        · rw [if_pos h2, if_pos (List.mem_append_right _ h2)]
          simp only [List.length_map]
          push_cast
          omega
        · rw [if_neg h2, if_neg (by
            intro h
            rcases List.mem_append.1 h with h | h
            · exact h1 h
            · exact h2 h)]
  rw [hmain]
  refine ⟨fun h => by rw [if_pos h], fun h => by rw [if_neg h], ?_⟩
  by_cases h : pname ∈ (std_colorant_names.getD []).map c_string ++ separation_names
  · rw [if_pos h]
    exact ⟨fun _ => h, fun _ => Int.natCast_nonneg _⟩
  · rw [if_neg h]
    exact ⟨fun h0 => absurd h0 (by decide), fun h1 => absurd h1 h⟩

/-- Witness of C19 (amended): "Magenta" is the second standard name of a CMYK
device. -/
theorem rinkj_get_color_comp_index_spec_witness :
    (0 : Nat) ∉ [77, 97, 103, 101, 110, 116, 97] ∧
    rinkj_get_color_comp_index
        (some [[67, 121, 97, 110], [77, 97, 103, 101, 110, 116, 97],
          [89, 101, 108, 108, 111, 119], [66, 108, 97, 99, 107]])
        [[79, 114, 97, 110, 103, 101]] [77, 97, 103, 101, 110, 116, 97] = 1 :=
  ⟨by decide,
    ((rinkj_get_color_comp_index_spec
        (some [[67, 121, 97, 110], [77, 97, 103, 101, 110, 116, 97],
          [89, 101, 108, 108, 111, 119], [66, 108, 97, 99, 107]])
        [[79, 114, 97, 110, 103, 101]] [77, 97, 103, 101, 110, 116, 97] (by decide)).1
      (by decide)).trans (by decide)⟩

/-! ### Decoding modes of `image_init_colors` -/

/-- The decoding mode of a component depends only on `decode_type` and the
bit depth. -/
theorem init_sample_map_decoding (bps : Int) (decode_type : Nat) (d0 d1 : ℚ) :
    (init_sample_map bps decode_type d0 d1).1.decoding =
      if decode_type ≠ 0 then .sd_none
      else if bps ≤ 4 then .sd_lookup else .sd_compute := by
  unfold init_sample_map
  simp only
  split_ifs <;> rfl

/-- The maps set by `image_init_colors`, one per component. -/
theorem image_init_colors_maps (clues : Nat → gx_image_clue) (bps spp : Int)
    (decode : Nat → ℚ) (remap_color : ℚ → Int × gx_device_color) (pdcb0 : Bool) :
    (image_init_colors clues bps spp decode remap_color pdcb0).maps =
      (List.range spp.toNat).map
        (fun ci => (init_sample_map bps (decode_type_of decode spp)
          (decode (ci * 2)) (decode (ci * 2 + 1))).1) := by
  unfold image_init_colors
  simp only [List.map_map]
  split_ifs <;> rfl

/-- Once `decode_type` is 0 it stays 0. -/
theorem decode_type_loop_zero (decode : Nat → ℚ) (spp : Int) (fuel ci : Nat) :
    decode_type_loop decode spp fuel ci 0 = 0 := by
  induction fuel generalizing ci with
  | zero => rfl
  | succ n ih =>
    simp only [decode_type_loop, Nat.zero_and]
    split_ifs
    · exact ih _
    · rfl

/-- The value and-ed in for a pair is 1 for `[0, 1]`, 2 for `[1, 0]` and 0
otherwise. -/
theorem decode_pair_type_cases (d0 d1 : ℚ) :
    ((d0 = 0 ∧ d1 = 1) → decode_pair_type d0 d1 = 1) ∧
    ((d0 = 1 ∧ d1 = 0) → decode_pair_type d0 d1 = 2) ∧
    (¬ (d0 = 0 ∧ d1 = 1) → ¬ (d0 = 1 ∧ d1 = 0) → decode_pair_type d0 d1 = 0) := by
  refine ⟨?_, ?_, ?_⟩
  · rintro ⟨h0, h1⟩
    subst h0 h1
    simp [decode_pair_type]
  · rintro ⟨h0, h1⟩
    subst h0 h1
    simp [decode_pair_type]
  · intro h1 h2
    simp [decode_pair_type, h1, h2]

/-- When every pair examined is `[0, 1]`, `decode_type` stays 3 or 1. -/
theorem decode_type_loop_identity (decode : Nat → ℚ) (spp : Int)
    (hall : ∀ j : Nat, (j : Int) < spp → decode (j * 2) = 0 ∧ decode (j * 2 + 1) = 1)
    (fuel j dt : Nat) (hdt : dt = 3 ∨ dt = 1) :
    decode_type_loop decode spp fuel (j * 2) dt = 3 ∨
      decode_type_loop decode spp fuel (j * 2) dt = 1 := by
  induction fuel generalizing j dt with
  | zero => exact hdt
  | succ n ih =>
    simp only [decode_type_loop]
    split_ifs with hlt
    · have hj : (j : Int) < spp := by
        have : ((j * 2 : Nat) : Int) = (j : Int) * 2 := by push_cast; ring
        omega
      rw [((decode_pair_type_cases _ _).1 (hall j hj))]
      have hstep : j * 2 + 2 = (j + 1) * 2 := by ring
      rw [hstep]
      apply ih
      rcases hdt with h | h <;> subst h <;> decide
    · exact hdt

/-- When every pair examined is `[1, 0]`, `decode_type` stays 3 or 2. -/
theorem decode_type_loop_inverted (decode : Nat → ℚ) (spp : Int)
    (hall : ∀ j : Nat, (j : Int) < spp → decode (j * 2) = 1 ∧ decode (j * 2 + 1) = 0)
    (fuel j dt : Nat) (hdt : dt = 3 ∨ dt = 2) :
    decode_type_loop decode spp fuel (j * 2) dt = 3 ∨
      decode_type_loop decode spp fuel (j * 2) dt = 2 := by
  induction fuel generalizing j dt with
  | zero => exact hdt
  | succ n ih =>
    simp only [decode_type_loop]
    split_ifs with hlt
    · have hj : (j : Int) < spp := by
        have : ((j * 2 : Nat) : Int) = (j : Int) * 2 := by push_cast; ring
        omega
      rw [((decode_pair_type_cases _ _).2.1 (hall j hj))]
      have hstep : j * 2 + 2 = (j + 1) * 2 := by ring
      rw [hstep]
      apply ih
      rcases hdt with h | h <;> subst h <;> decide
    · exact hdt

/-- If the first Decode pair is neither `[0, 1]` nor `[1, 0]`, `decode_type`
is 0 for a source with at least one component. -/
theorem decode_type_of_first_pair (decode : Nat → ℚ) (spp : Int) (hspp : 0 < spp)
    (h1 : ¬ (decode 0 = 0 ∧ decode 1 = 1)) (h2 : ¬ (decode 0 = 1 ∧ decode 1 = 0)) :
    decode_type_of decode spp = 0 := by
  unfold decode_type_of
  obtain ⟨n, hn⟩ : ∃ n, spp.toNat = n + 1 := ⟨spp.toNat - 1, by omega⟩
  rw [hn]
  simp only [decode_type_loop]
  rw [if_pos (by simpa using hspp), (decode_pair_type_cases _ _).2.2 h1 h2]
  exact decode_type_loop_zero decode spp n _
/-- C20 fails as stated: for a 4-component 8-bit source with Decode
`[0 1 1 0 0 1 0 1]` the pairs are not all equal, `decode_type` is 0 and every
component gets `sd_compute`, also component 0 whose own pair is `[0, 1]`. -/
theorem image_init_colors_mixed_decode :
    (image_init_colors (fun _ => ⟨⟨.gx_dc_type_pure, 0, 0⟩, 0⟩) 8 4
        (fun i => if i = 1 ∨ i = 2 ∨ i = 5 ∨ i = 7 then 1 else 0)
        (fun _ => (0, ⟨.gx_dc_type_pure, 0, 0⟩)) true).maps.map (fun m => m.decoding) =
      [.sd_compute, .sd_compute, .sd_compute, .sd_compute] ∧
    (fun i : Nat => if i = 1 ∨ i = 2 ∨ i = 5 ∨ i = 7 then (1 : ℚ) else 0) 0 = 0 ∧
    (fun i : Nat => if i = 1 ∨ i = 2 ∨ i = 5 ∨ i = 7 then (1 : ℚ) else 0) 1 = 1 := by
  have hdt : decode_type_of (fun i => if i = 1 ∨ i = 2 ∨ i = 5 ∨ i = 7 then (1 : ℚ) else 0) 4
      = 0 := by
    simp [decode_type_of, decode_type_loop, decode_pair_type]
  refine ⟨?_, by simp, by simp⟩
  rw [image_init_colors_maps, List.map_map, hdt]
  simp [init_sample_map_decoding, List.range_succ]

/-- C20 (amended): `image_init_colors` gives every component the same
decoding mode.  It is `sd_none` for every component when the Decode pairs of
all `spp` components are `[0, 1]`, and when they all are `[1, 0]`; and a
component gets `sd_none` only if the pair of the first component is
`[0, 1]` or `[1, 0]`.  So for a single-component source the mode is
`sd_none` if and only if its Decode pair is `[0, 1]` or `[1, 0]`. -/
theorem image_init_colors_decoding (clues : Nat → gx_image_clue) (bps spp : Int)
    (decode : Nat → ℚ) (remap_color : ℚ → Int × gx_device_color) (pdcb0 : Bool) :
    (image_init_colors clues bps spp decode remap_color pdcb0).maps.length = spp.toNat ∧
    (∀ m ∈ (image_init_colors clues bps spp decode remap_color pdcb0).maps,
      ∀ m' ∈ (image_init_colors clues bps spp decode remap_color pdcb0).maps,
        m.decoding = m'.decoding) ∧
    (((∀ j : Nat, (j : Int) < spp → decode (j * 2) = 0 ∧ decode (j * 2 + 1) = 1) ∨
        (∀ j : Nat, (j : Int) < spp → decode (j * 2) = 1 ∧ decode (j * 2 + 1) = 0)) →
      ∀ m ∈ (image_init_colors clues bps spp decode remap_color pdcb0).maps,
        m.decoding = .sd_none) ∧
    ((∃ m ∈ (image_init_colors clues bps spp decode remap_color pdcb0).maps,
        m.decoding = .sd_none) →
      ((decode 0 = 0 ∧ decode 1 = 1) ∨ (decode 0 = 1 ∧ decode 1 = 0))) ∧
    (spp = 1 →
      ∀ m ∈ (image_init_colors clues bps spp decode remap_color pdcb0).maps,
        (m.decoding = .sd_none ↔
          ((decode 0 = 0 ∧ decode 1 = 1) ∨ (decode 0 = 1 ∧ decode 1 = 0)))) := by
  have hmode : ∀ m ∈ (image_init_colors clues bps spp decode remap_color pdcb0).maps,
      m.decoding = if decode_type_of decode spp ≠ 0 then .sd_none
        else if bps ≤ 4 then .sd_lookup else .sd_compute := by
    intro m hm
    rw [image_init_colors_maps, List.mem_map] at hm
    obtain ⟨ci, _, rfl⟩ := hm
    exact init_sample_map_decoding _ _ _ _
  have hall_none : ((∀ j : Nat, (j : Int) < spp → decode (j * 2) = 0 ∧ decode (j * 2 + 1) = 1) ∨
      (∀ j : Nat, (j : Int) < spp → decode (j * 2) = 1 ∧ decode (j * 2 + 1) = 0)) →
      ∀ m ∈ (image_init_colors clues bps spp decode remap_color pdcb0).maps,
        m.decoding = .sd_none := by
    intro hall m hm
    have hne : decode_type_of decode spp ≠ 0 := by
      unfold decode_type_of
      rcases hall with h | h
      · have := decode_type_loop_identity decode spp h spp.toNat 0 3 (Or.inl rfl)
        simp only [Nat.zero_mul] at this
        omega
      · have := decode_type_loop_inverted decode spp h spp.toNat 0 3 (Or.inl rfl)
        simp only [Nat.zero_mul] at this
        omega
    rw [hmode m hm, if_pos hne]
  have hnone_first : (∃ m ∈ (image_init_colors clues bps spp decode remap_color pdcb0).maps,
      m.decoding = .sd_none) →
      ((decode 0 = 0 ∧ decode 1 = 1) ∨ (decode 0 = 1 ∧ decode 1 = 0)) := by
    rintro ⟨m, hm, hnone⟩
    by_contra hcon
    have h1 : ¬ (decode 0 = 0 ∧ decode 1 = 1) := fun h => hcon (Or.inl h)
    have h2 : ¬ (decode 0 = 1 ∧ decode 1 = 0) := fun h => hcon (Or.inr h)
    have hspp : 0 < spp := by
      have hlen : (image_init_colors clues bps spp decode remap_color pdcb0).maps.length =
          spp.toNat := by
        rw [image_init_colors_maps]
        simp
      have hpos := List.length_pos_of_mem hm
      omega
    rw [hmode m hm, decode_type_of_first_pair decode spp hspp h1 h2] at hnone
    simp only [ne_eq, not_true_eq_false, if_false] at hnone
    split_ifs at hnone
  refine ⟨?_, ?_, hall_none, hnone_first, ?_⟩
  · rw [image_init_colors_maps]
    simp
  · intro m hm m' hm'
    rw [hmode m hm, hmode m' hm']
  · intro hspp m hm
    constructor
    · intro h
      exact hnone_first ⟨m, hm, h⟩
    · intro h
      apply hall_none _ m hm
      rcases h with h | h
      · left
        intro j hj
        have hj0 : j = 0 := by omega
        subst hj0
        simpa using h
      · right
        intro j hj
        have hj0 : j = 0 := by omega
        subst hj0
        simpa using h

/-- Bytes that occupy disjoint bit ranges combine by addition. -/
theorem lor_shift_eq_add (a b k : Nat) (hb : b < 2 ^ k) :
    (a <<< k) ||| b = a * 2 ^ k + b := by
  rw [Nat.shiftLeft_eq, Nat.mul_comm a (2 ^ k), Nat.mul_add_lt_is_or hb a]

/-- The big-endian value of two bytes. -/
theorem be16_value (b0 b1 : Nat) (h1 : b1 < 256) :
    (b0 <<< 8) ||| b1 = 256 * b0 + b1 := by
  rw [lor_shift_eq_add b0 b1 8 (by simpa using h1)]; omega

/-- The big-endian value of four bytes. -/
theorem be32_value (b0 b1 b2 b3 : Nat) (h0 : b0 < 256) (h1 : b1 < 256) (h2 : b2 < 256)
    (h3 : b3 < 256) :
    (((((b0 <<< 24) % 4294967296) ||| ((b1 <<< 16) % 4294967296)) |||
      ((b2 <<< 8) % 4294967296)) ||| b3) % 4294967296 =
      b0 * 2 ^ 24 + b1 * 2 ^ 16 + b2 * 2 ^ 8 + b3 := by
  have e0 : (b0 <<< 24) % 4294967296 = b0 <<< 24 := by
    rw [Nat.shiftLeft_eq]; omega
  have e1 : (b1 <<< 16) % 4294967296 = b1 <<< 16 := by
    rw [Nat.shiftLeft_eq]; omega
  have e2 : (b2 <<< 8) % 4294967296 = b2 <<< 8 := by
    rw [Nat.shiftLeft_eq]; omega
  rw [e0, e1, e2, Nat.lor_assoc, Nat.lor_assoc]
  have s2 : (b2 <<< 8) ||| b3 = b2 * 2 ^ 8 + b3 :=
    lor_shift_eq_add b2 b3 8 (by simpa using h3)
  have s1 : (b1 <<< 16) ||| (b2 * 2 ^ 8 + b3) = b1 * 2 ^ 16 + (b2 * 2 ^ 8 + b3) :=
    lor_shift_eq_add b1 _ 16 (by norm_num; omega)
  have s0 : (b0 <<< 24) ||| (b1 * 2 ^ 16 + (b2 * 2 ^ 8 + b3)) =
      b0 * 2 ^ 24 + (b1 * 2 ^ 16 + (b2 * 2 ^ 8 + b3)) :=
    lor_shift_eq_add b0 _ 24 (by norm_num; omega)
  rw [s2, s1, s0]
  norm_num
  omega

/-- C28: `ttfReader__UShort` takes exactly the two bytes `b0 b1` in one `Read` call and
returns `256 * b0 + b1`; `ttfReader__UInt` takes exactly the four bytes `b0 b1 b2 b3`
in one `Read` call and returns `b0 * 2^24 + b1 * 2^16 + b2 * 2^8 + b3` modulo `2^32`. -/
theorem ttfReader_unsigned_big_endian (b0 b1 b2 b3 : Nat) (rest calls : List Nat)
    (h0 : b0 < 256) (h1 : b1 < 256) (h2 : b2 < 256) (h3 : b3 < 256) :
    ttfReader__UShort ⟨b0 :: b1 :: rest, calls⟩ =
        (256 * b0 + b1, ⟨rest, calls ++ [2]⟩) ∧
      ttfReader__UInt ⟨b0 :: b1 :: b2 :: b3 :: rest, calls⟩ =
        ((b0 * 2 ^ 24 + b1 * 2 ^ 16 + b2 * 2 ^ 8 + b3) % 2 ^ 32,
          ⟨rest, calls ++ [4]⟩) := by
  have m0 : b0 % 256 = b0 := Nat.mod_eq_of_lt h0
  have m1 : b1 % 256 = b1 := Nat.mod_eq_of_lt h1
  have m2 : b2 % 256 = b2 := Nat.mod_eq_of_lt h2
  have m3 : b3 % 256 = b3 := Nat.mod_eq_of_lt h3
  constructor
  · simp only [ttfReader__UShort, ttfReader.Read, buf_at, List.take, List.drop,
      List.getD_cons_zero, List.getD_cons_succ, m0, m1]
    rw [be16_value b0 b1 h1]
    have : (256 * b0 + b1) % 65536 = 256 * b0 + b1 := by omega
    rw [this]
  · simp only [ttfReader__UInt, ttfReader.Read, buf_at, List.take, List.drop,
      List.getD_cons_zero, List.getD_cons_succ, m0, m1, m2, m3]
    rw [be32_value b0 b1 b2 b3 h0 h1 h2 h3]
    have : (b0 * 2 ^ 24 + b1 * 2 ^ 16 + b2 * 2 ^ 8 + b3) % 2 ^ 32 =
        b0 * 2 ^ 24 + b1 * 2 ^ 16 + b2 * 2 ^ 8 + b3 := by
      norm_num; omega
    rw [this]

/-- The two readers on the bytes `18 52 86 120` followed by `7`. -/
theorem ttfReader_unsigned_big_endian_witness :
    ttfReader__UShort ⟨18 :: 52 :: [7], []⟩ = (256 * 18 + 52, ⟨[7], [] ++ [2]⟩) ∧
      ttfReader__UInt ⟨18 :: 52 :: 86 :: 120 :: [7], []⟩ =
        ((18 * 2 ^ 24 + 52 * 2 ^ 16 + 86 * 2 ^ 8 + 120) % 2 ^ 32, ⟨[7], [] ++ [4]⟩) :=
  ttfReader_unsigned_big_endian 18 52 86 120 [7] [] (by decide) (by decide) (by decide)
    (by decide)

/-- C29: the signed readers return the two's-complement reading of the big-endian
bytes: `ttfReader__Short` returns `v` if `v < 32768` and `v - 65536` otherwise, where
`v = 256 * b0 + b1` is what `ttfReader__UShort` returns; `ttfReader__Int` returns the
value `u = b0 * 2^24 + b1 * 2^16 + b2 * 2^8 + b3` of `ttfReader__UInt` read as a signed
32-bit integer, `u` if `u < 2^31` and `u - 2^32` otherwise; `ttfReader__SignedByte`
returns `b` if `b < 128` and `b - 256` otherwise. -/
theorem ttfReader_signed_twos_complement (b0 b1 b2 b3 : Nat) (rest calls : List Nat)
    (h0 : b0 < 256) (h1 : b1 < 256) (h2 : b2 < 256) (h3 : b3 < 256) :
    ((ttfReader__UShort ⟨b0 :: b1 :: rest, calls⟩).1 = 256 * b0 + b1 ∧
      ttfReader__Short ⟨b0 :: b1 :: rest, calls⟩ =
        (if 256 * b0 + b1 < 32768 then ((256 * b0 + b1 : Nat) : Int)
          else ((256 * b0 + b1 : Nat) : Int) - 65536,
          ⟨rest, calls ++ [2]⟩) ∧
      ttfReader__Short ⟨b0 :: b1 :: rest, calls⟩ =
        (if (ttfReader__UShort ⟨b0 :: b1 :: rest, calls⟩).1 < 32768
          then ((ttfReader__UShort ⟨b0 :: b1 :: rest, calls⟩).1 : Int)
          else ((ttfReader__UShort ⟨b0 :: b1 :: rest, calls⟩).1 : Int) - 65536,
          ⟨rest, calls ++ [2]⟩)) ∧
      ((ttfReader__UInt ⟨b0 :: b1 :: b2 :: b3 :: rest, calls⟩).1 =
          b0 * 2 ^ 24 + b1 * 2 ^ 16 + b2 * 2 ^ 8 + b3 ∧
        ttfReader__Int ⟨b0 :: b1 :: b2 :: b3 :: rest, calls⟩ =
          (if b0 * 2 ^ 24 + b1 * 2 ^ 16 + b2 * 2 ^ 8 + b3 < 2147483648
            then ((b0 * 2 ^ 24 + b1 * 2 ^ 16 + b2 * 2 ^ 8 + b3 : Nat) : Int)
            else ((b0 * 2 ^ 24 + b1 * 2 ^ 16 + b2 * 2 ^ 8 + b3 : Nat) : Int) - 4294967296,
            ⟨rest, calls ++ [4]⟩) ∧
        ttfReader__Int ⟨b0 :: b1 :: b2 :: b3 :: rest, calls⟩ =
          (if (ttfReader__UInt ⟨b0 :: b1 :: b2 :: b3 :: rest, calls⟩).1 < 2147483648
            then ((ttfReader__UInt ⟨b0 :: b1 :: b2 :: b3 :: rest, calls⟩).1 : Int)
            else ((ttfReader__UInt ⟨b0 :: b1 :: b2 :: b3 :: rest, calls⟩).1 : Int) -
              4294967296,
            ⟨rest, calls ++ [4]⟩)) ∧
      ttfReader__SignedByte ⟨b0 :: rest, calls⟩ =
        (if b0 < 128 then (b0 : Int) else (b0 : Int) - 256, ⟨rest, calls ++ [1]⟩) := by
  have m0 : b0 % 256 = b0 := Nat.mod_eq_of_lt h0
  have m1 : b1 % 256 = b1 := Nat.mod_eq_of_lt h1
  have m2 : b2 % 256 = b2 := Nat.mod_eq_of_lt h2
  have m3 : b3 % 256 = b3 := Nat.mod_eq_of_lt h3
  have w16 : (256 * b0 + b1) % 65536 = 256 * b0 + b1 := by omega
  have w32 : (b0 * 2 ^ 24 + b1 * 2 ^ 16 + b2 * 2 ^ 8 + b3) % 4294967296 =
      b0 * 2 ^ 24 + b1 * 2 ^ 16 + b2 * 2 ^ 8 + b3 := by
    norm_num; omega
  have w8 : b0 % 2 ^ 8 = b0 := by simpa using m0
  have hus : (ttfReader__UShort ⟨b0 :: b1 :: rest, calls⟩).1 = 256 * b0 + b1 := by
    simp only [ttfReader__UShort, ttfReader.Read, buf_at, List.take, List.drop,
      List.getD_cons_zero, List.getD_cons_succ, m0, m1]
    rw [be16_value b0 b1 h1, w16]
  have hs : ttfReader__Short ⟨b0 :: b1 :: rest, calls⟩ =
      (if 256 * b0 + b1 < 32768 then ((256 * b0 + b1 : Nat) : Int)
        else ((256 * b0 + b1 : Nat) : Int) - 65536, ⟨rest, calls ++ [2]⟩) := by
    simp only [ttfReader__Short, ttfReader.Read, buf_at, List.take,
      List.drop, List.getD_cons_zero, List.getD_cons_succ, m0, m1, to_signed]
    rw [be16_value b0 b1 h1]
    have e : (256 * b0 + b1) % 2 ^ 16 = 256 * b0 + b1 := by simpa using w16
    rw [e]
    norm_num
  have hui : (ttfReader__UInt ⟨b0 :: b1 :: b2 :: b3 :: rest, calls⟩).1 =
      b0 * 2 ^ 24 + b1 * 2 ^ 16 + b2 * 2 ^ 8 + b3 := by
    simp only [ttfReader__UInt, ttfReader.Read, buf_at, List.take, List.drop,
      List.getD_cons_zero, List.getD_cons_succ, m0, m1, m2, m3]
    rw [be32_value b0 b1 b2 b3 h0 h1 h2 h3]
  have hi : ttfReader__Int ⟨b0 :: b1 :: b2 :: b3 :: rest, calls⟩ =
      (if b0 * 2 ^ 24 + b1 * 2 ^ 16 + b2 * 2 ^ 8 + b3 < 2147483648
        then ((b0 * 2 ^ 24 + b1 * 2 ^ 16 + b2 * 2 ^ 8 + b3 : Nat) : Int)
        else ((b0 * 2 ^ 24 + b1 * 2 ^ 16 + b2 * 2 ^ 8 + b3 : Nat) : Int) - 4294967296,
        ⟨rest, calls ++ [4]⟩) := by
    simp only [ttfReader__Int, ttfReader__UInt, ttfReader.Read, buf_at, List.take,
      List.drop, List.getD_cons_zero, List.getD_cons_succ, m0, m1, m2, m3, to_signed]
    rw [be32_value b0 b1 b2 b3 h0 h1 h2 h3]
    have e : (b0 * 2 ^ 24 + b1 * 2 ^ 16 + b2 * 2 ^ 8 + b3) % 2 ^ 32 =
        b0 * 2 ^ 24 + b1 * 2 ^ 16 + b2 * 2 ^ 8 + b3 := by simpa using w32
    rw [e]
    norm_num
  refine ⟨⟨hus, hs, ?_⟩, ⟨hui, hi, ?_⟩, ?_⟩
  · rw [hus]; exact hs
  · rw [hui]; exact hi
  · simp only [ttfReader__SignedByte, ttfReader.Read, buf_at, List.take, List.drop,
      List.getD_cons_zero, m0, to_signed, w8]
    norm_num

/-- The signed readers on bytes with the top bit set: `ff fe` reads as -2,
`ff fe ff 00` as -65792, and `ff` as -1; with the top bit clear, `12 34 56 78`
reads as 305419896. -/
theorem ttfReader_signed_twos_complement_witness :
    ttfReader__Short ⟨255 :: 254 :: [7], []⟩ = (-2, ⟨[7], [2]⟩) ∧
      ttfReader__UInt ⟨255 :: 254 :: 255 :: 0 :: [7], []⟩ = (4294901504, ⟨[7], [4]⟩) ∧
      ttfReader__Int ⟨255 :: 254 :: 255 :: 0 :: [7], []⟩ = (-65792, ⟨[7], [4]⟩) ∧
      ttfReader__Int ⟨18 :: 52 :: 86 :: 120 :: [7], []⟩ = (305419896, ⟨[7], [4]⟩) ∧
      ttfReader__SignedByte ⟨255 :: [7], []⟩ = (-1, ⟨[7], [1]⟩) :=
  ⟨(ttfReader_signed_twos_complement 255 254 255 0 [7] [] (by decide) (by decide)
      (by decide) (by decide)).1.2.1.trans (by decide),
    by decide,
    (ttfReader_signed_twos_complement 255 254 255 0 [7] [] (by decide) (by decide)
      (by decide) (by decide)).2.1.2.1.trans (by decide),
    (ttfReader_signed_twos_complement 18 52 86 120 [7] [] (by decide) (by decide)
      (by decide) (by decide)).2.1.2.1.trans (by decide),
    (ttfReader_signed_twos_complement 255 254 255 0 [7] [] (by decide) (by decide)
      (by decide) (by decide)).2.2.trans (by decide)⟩

/-- Setting bit 7 of a natural number and clearing the seven bits below it. -/
theorem nat_set_half_bit (m : Nat) : Nat.ldiff (m ||| 128) 127 = 256 * (m / 256) + 128 := by
  apply Nat.eq_of_testBit_eq
  intro j
  have h128 : (128 : Nat) = 2 ^ 7 := by norm_num
  have h127 : (127 : Nat) = 2 ^ 7 - 1 := by norm_num
  have h256 : (256 : Nat) = 2 ^ 8 := by norm_num
  rw [Nat.testBit_ldiff, Nat.testBit_lor, h256,
    Nat.testBit_mul_pow_two_add (m / 2 ^ 8) (by norm_num : 128 < 2 ^ 8) j,
    ← Nat.shiftRight_eq_div_pow, Nat.testBit_shiftRight, h128, h127,
    Nat.testBit_two_pow, Nat.testBit_two_pow_sub_one]
  by_cases h8 : j < 8
  · by_cases h7 : j < 7
    · have : ¬ 7 = j := by omega
      simp [h8, h7, this]
    · have : 7 = j := by omega
      simp [h8, this]
  · have h7 : ¬ j < 7 := by omega
    have e : ¬ 7 = j := by omega
    have a : 8 + (j - 8) = j := by omega
    simp [h8, h7, e, a]

/-- Clearing bit 7 of a natural number and setting the seven bits below it. -/
theorem nat_clear_half_bit (m : Nat) :
    (Nat.ldiff m 128) ||| 127 = 256 * (m / 256) + 127 := by
  apply Nat.eq_of_testBit_eq
  intro j
  have h128 : (128 : Nat) = 2 ^ 7 := by norm_num
  have h127 : (127 : Nat) = 2 ^ 7 - 1 := by norm_num
  have h256 : (256 : Nat) = 2 ^ 8 := by norm_num
  rw [Nat.testBit_lor, Nat.testBit_ldiff, h256,
    Nat.testBit_mul_pow_two_add (m / 2 ^ 8) (by norm_num : 127 < 2 ^ 8) j,
    ← Nat.shiftRight_eq_div_pow, Nat.testBit_shiftRight, h128, h127,
    Nat.testBit_two_pow, Nat.testBit_two_pow_sub_one]
  by_cases h8 : j < 8
  · by_cases h7 : j < 7
    · simp [h8, h7]
    · have : 7 = j := by omega
      simp [h8, h7, this]
  · have h7 : ¬ j < 7 := by omega
    have e : ¬ 7 = j := by omega
    have a : 8 + (j - 8) = j := by omega
    simp [h8, h7, e, a]

/-- The value of `(v | fixed_half) & -fixed_half`: the pixel of `v`, plus half a pixel. -/
theorem lor_land_fixed_half (v : Int) :
    Int.land (Int.lor v fixed_half) (-fixed_half) = 256 * (v / 256) + 128 := by
  cases v with
  | ofNat m =>
      show Int.land (Int.lor (Int.ofNat m) (Int.ofNat 128)) (Int.negSucc 127) = _
      simp only [Int.lor, Int.land]
      rw [nat_set_half_bit]
      simp only [Int.ofNat_eq_coe]
      push_cast
      omega
  | negSucc m =>
      show Int.land (Int.lor (Int.negSucc m) (Int.ofNat 128)) (Int.negSucc 127) = _
      simp only [Int.lor, Int.land]
      rw [nat_clear_half_bit]
      rw [Int.negSucc_eq, Int.negSucc_eq]
      push_cast
      omega

/-- C30: the origin adjustment `mtx' = (((mtx + diff) | fixed_half) & -fixed_half) - diff`
puts the midpoint on the centre of the pixel it was already in:
`(mtx' + diff) mod fixed_1 = fixed_half` and
`fixed2int(mtx' + diff) = fixed2int(mtx + diff)`, for every `mtx` and `diff`; and
this is the adjustment made to `mtx` (to `mty`) when the image is 1 sample wide on
that device axis and its extent there is less than one pixel. -/
theorem centre_origin_pixel_centre (mt diff : Int) :
    ((centre_origin mt diff + diff) % fixed_1 = fixed_half ∧
      gxfixed.fixed2int (centre_origin mt diff + diff) = gxfixed.fixed2int (mt + diff)) ∧
    (∀ (posture : image_posture) (width height : Int)
        (row_extent col_extent : gs_fixed_point) (mty : Int),
      (posture = .image_portrait ∧ width = 1 ∨ posture = .image_landscape ∧ height = 1) →
      max row_extent.x 0 + max col_extent.x 0 -
          (min row_extent.x 0 + min col_extent.x 0) < fixed_1 →
        (centre_thin_image posture width height row_extent col_extent mt mty).1 =
          centre_origin mt (arith_rshift_1 (row_extent.x + col_extent.x))) ∧
    (∀ (posture : image_posture) (width height : Int)
        (row_extent col_extent : gs_fixed_point) (mtx : Int),
      (posture = .image_portrait ∧ height = 1 ∨ posture = .image_landscape ∧ width = 1) →
      max row_extent.y 0 + max col_extent.y 0 -
          (min row_extent.y 0 + min col_extent.y 0) < fixed_1 →
        (centre_thin_image posture width height row_extent col_extent mtx mt).2 =
          centre_origin mt (arith_rshift_1 (row_extent.y + col_extent.y))) := by
  refine ⟨?_, ?_, ?_⟩
  · have e : centre_origin mt diff + diff = 256 * ((mt + diff) / 256) + 128 := by
      unfold centre_origin
      rw [lor_land_fixed_half]
      omega
    rw [e]
    simp only [fixed_1, fixed_half, gxfixed]
    omega
  · intro posture width height re ce mty hp h
    rcases hp with ⟨hp, hw⟩ | ⟨hp, hw⟩ <;> subst hp <;> subst hw <;>
      simp only [centre_thin_image] <;> rw [if_pos ⟨trivial, h⟩]
  · intro posture width height re ce mtx hp h
    rcases hp with ⟨hp, hw⟩ | ⟨hp, hw⟩ <;> subst hp <;> subst hw <;>
      simp only [centre_thin_image] <;> rw [if_pos ⟨trivial, h⟩]

set_option maxRecDepth 100000 in
/-- The tables of the two default Decode pairs, entry by entry. -/
theorem image_init_map_default_tables (map_size : Nat)
    (h : map_size = 2 ∨ map_size = 4 ∨ map_size = 16 ∨ map_size = 256) :
    image_init_map map_size 0 1 =
      (List.range map_size).map (fun i => i * (255 / (map_size - 1))) ∧
    image_init_map map_size 1 0 =
      (List.range map_size).map (fun i => 255 - i * (255 / (map_size - 1))) := by
  rw [image_init_map_identity_loop map_size h, image_init_map_inverted_loop map_size h]
  rcases h with rfl | rfl | rfl | rfl
  · decide
  · decide
  · decide
  · refine ⟨?_, ?_⟩ <;> decide

/-- The interpolated entries of the two default Decode pairs. -/
theorem interpolated_entry_default (map_size : Nat)
    (h : map_size = 2 ∨ map_size = 4 ∨ map_size = 16 ∨ map_size = 256) (i : Nat)
    (hi : i < map_size) :
    interpolated_entry map_size 0 1 i = i * (255 / (map_size - 1)) ∧
      interpolated_entry map_size 1 0 i = 255 - i * (255 / (map_size - 1)) := by
  have key : ∀ c : Nat, (c : ℚ) * ((map_size : ℚ) - 1) = 255 → i * c ≤ 255 →
      interpolated_entry map_size 0 1 i = i * c ∧
        interpolated_entry map_size 1 0 i = 255 - i * c := by
    intro c hc hle
    have hne : ((map_size : ℚ) - 1) ≠ 0 := by
      intro h0
      rw [h0] at hc
      norm_num at hc
    have e1 : (255 : ℚ) * (0 + (1 - 0) * (i : ℚ) / ((map_size : ℚ) - 1)) =
        (((i * c : Nat) : Int) : ℚ) := by
      push_cast
      field_simp
      rw [← hc]; ring
    have e2 : (255 : ℚ) * (1 + (0 - 1) * (i : ℚ) / ((map_size : ℚ) - 1)) =
        ((255 - ((i * c : Nat) : Int) : Int) : ℚ) := by
      push_cast
      field_simp
      rw [← hc]; ring
    constructor
    · simp only [interpolated_entry]
      rw [e1, c_trunc_intCast]
      split_ifs <;> omega
    · simp only [interpolated_entry]
      rw [e2, c_trunc_intCast]
      split_ifs <;> omega
  rcases h with rfl | rfl | rfl | rfl
  · exact key 255 (by norm_num) (by omega)
  · exact key 85 (by norm_num) (by omega)
  · exact key 17 (by norm_num) (by omega)
  · have := key 1 (by norm_num) (by omega)
    simpa using this

/-- The `float` nearest to a number of binary exponent `e`. -/
theorem round_float_eval (q : ℚ) (e z : Int) (h1 : (2 : ℚ) ^ e ≤ |q|)
    (h2 : |q| < (2 : ℚ) ^ (e + 1))
    (hz : round_half_even (q / (2 : ℚ) ^ (e + 1 - 24)) = z) :
    round_float q = (z : ℚ) * (2 : ℚ) ^ (e + 1 - 24) := by
  have := round_to_of_exponent 24 q e h1 h2
  simp only [round_float]
  rw [this]
  push_cast
  rw [hz]

/-- The floating branch of `image_init_map` on Decode `[1, 0]` with 4 entries,
operation by operation in `float`. -/
theorem init_map_float_loop_inverted_4 :
    init_map_float_loop 4 0 4 1 (-1) = [255, 169, 84, 0] := by
  have rz : ∀ z : Int, |z| < 2 ^ 24 → round_float (z : ℚ) = z := round_float_intCast
  have r0 : round_float 0 = 0 := by simpa using rz 0 (by norm_num)
  have r1 : round_float 1 = 1 := by simpa using rz 1 (by norm_num)
  have rm1 : round_float (-1) = -1 := by simpa using rz (-1) (by norm_num)
  have rm2 : round_float (-2) = -2 := by simpa using rz (-2) (by norm_num)
  have rm3 : round_float (-3) = -3 := by simpa using rz (-3) (by norm_num)
  have r255 : round_float 255 = 255 := by simpa using rz 255 (by norm_num)
  have a1 : round_float (-1 / 3) = -11184811 / 33554432 := by
    have h := round_float_eval (-1 / 3) (-2) (-11184811)
      (by rw [abs_of_neg (by norm_num)]; norm_num)
      (by rw [abs_of_neg (by norm_num)]; norm_num)
      (round_half_even_near _ _ (by norm_num) (by norm_num))
    rw [h]; norm_num
  have a2 : round_float (1 + -11184811 / 33554432) = 11184810 / 16777216 := by
    have t := round_half_even_tie 11184810
    rw [if_pos (by decide)] at t
    have h := round_float_eval (1 + -11184811 / 33554432) (-1) 11184810
      (by rw [abs_of_pos (by norm_num)]; norm_num)
      (by rw [abs_of_pos (by norm_num)]; norm_num)
      (by rw [← t]; congr 1; norm_num)
    rw [h]; norm_num
  have a3 : round_float (11184810 / 16777216 * 255) = 11141119 / 65536 := by
    have h := round_float_eval (11184810 / 16777216 * 255) 7 11141119
      (by rw [abs_of_pos (by norm_num)]; norm_num)
      (by rw [abs_of_pos (by norm_num)]; norm_num)
      (round_half_even_near _ _ (by norm_num) (by norm_num))
    rw [h]; norm_num
  have b1 : round_float (-2 / 3) = -11184811 / 16777216 := by
    have h := round_float_eval (-2 / 3) (-1) (-11184811)
      (by rw [abs_of_neg (by norm_num)]; norm_num)
      (by rw [abs_of_neg (by norm_num)]; norm_num)
      (round_half_even_near _ _ (by norm_num) (by norm_num))
    rw [h]; norm_num
  have b2 : round_float (1 + -11184811 / 16777216) = 5592405 / 16777216 := by
    have h := round_to_representable 24 5592405 (-24) (by norm_num)
    simp only [round_float]
    have e : (1 : ℚ) + -11184811 / 16777216 = ((5592405 : Int) : ℚ) * (2 : ℚ) ^ (-24 : Int) := by
      norm_num
    rw [e, h]; norm_num
  have b3 : round_float (5592405 / 16777216 * 255) = 11141119 / 131072 := by
    have h := round_float_eval (5592405 / 16777216 * 255) 6 11141119
      (by rw [abs_of_pos (by norm_num)]; norm_num)
      (by rw [abs_of_pos (by norm_num)]; norm_num)
      (round_half_even_near _ _ (by norm_num) (by norm_num))
    rw [h]; norm_num
  have c1 : c_trunc (11141119 / 65536) = 169 := by
    unfold c_trunc
    rw [if_pos (by norm_num), Int.floor_eq_iff]
    norm_num
  have c2 : c_trunc (11141119 / 131072) = 84 := by
    unfold c_trunc
    rw [if_pos (by norm_num), Int.floor_eq_iff]
    norm_num
  have c0 : c_trunc 0 = 0 := by simp [c_trunc]
  have c255 : c_trunc 255 = 255 := by
    have := c_trunc_intCast 255
    simpa using this
  have key : ∀ (i : Int) (x1 x2 x3 x4 : ℚ) (v : Int),
      round_float ((-1 : ℚ) * (i : ℚ)) = x1 →
      round_float (x1 / (((4 : Int) - 1 : Int) : ℚ)) = x2 →
      round_float (1 + x2) = x3 → round_float (x3 * 255) = x4 → c_trunc x4 = v →
      c_trunc (round_float (round_float (1 + round_float (round_float ((-1 : ℚ) * (i : ℚ)) /
        (((4 : Int) - 1 : Int) : ℚ))) * 255)) = v := by
    intro i x1 x2 x3 x4 v h1 h2 h3 h4 h5
    rw [h1, h2, h3, h4, h5]
  have k0 := key 0 0 0 1 255 255
    (by rw [show ((-1 : ℚ) * ((0 : Int) : ℚ)) = 0 from by norm_num]; exact r0)
    (by rw [show ((0 : ℚ) / (((4 : Int) - 1 : Int) : ℚ)) = 0 from by norm_num]; exact r0)
    (by rw [show ((1 : ℚ) + 0) = 1 from by norm_num]; exact r1)
    (by rw [show ((1 : ℚ) * 255) = 255 from by norm_num]; exact r255)
    c255
  have k1 := key (0 + 1) (-1) (-11184811 / 33554432) (11184810 / 16777216)
    (11141119 / 65536) 169
    (by rw [show ((-1 : ℚ) * ((0 + 1 : Int) : ℚ)) = -1 from by norm_num]; exact rm1)
    (by rw [show ((-1 : ℚ) / (((4 : Int) - 1 : Int) : ℚ)) = -1 / 3 from by norm_num]; exact a1)
    a2 a3 c1
  have k2 := key (0 + 1 + 1) (-2) (-11184811 / 16777216) (5592405 / 16777216)
    (11141119 / 131072) 84
    (by rw [show ((-1 : ℚ) * ((0 + 1 + 1 : Int) : ℚ)) = -2 from by norm_num]; exact rm2)
    (by rw [show ((-2 : ℚ) / (((4 : Int) - 1 : Int) : ℚ)) = -2 / 3 from by norm_num]; exact b1)
    b2 b3 c2
  have k3 := key (0 + 1 + 1 + 1) (-3) (-1) 0 0 0
    (by rw [show ((-1 : ℚ) * ((0 + 1 + 1 + 1 : Int) : ℚ)) = -3 from by norm_num]; exact rm3)
    (by rw [show ((-3 : ℚ) / (((4 : Int) - 1 : Int) : ℚ)) = -1 from by norm_num]; exact rm1)
    (by rw [show ((1 : ℚ) + -1) = 0 from by norm_num]; exact r0)
    (by rw [show ((0 : ℚ) * 255) = 0 from by norm_num]; exact r0)
    c0
  simp only [init_map_float_loop, k0, k1, k2, k3]
  decide

/-- C22, amended: for every `map_size` in {2, 4, 16, 256} and the Decode pairs `[0, 1]`
and `[1, 0]`, `image_init_map` steps with integers, from 0 by
`0xffff / (map_size - 1)` or from `0xffff` by its negative, and the table is exact:
each entry is the linear interpolation `255 * (d0 + (d1 - d0) * i / (map_size - 1))`
truncated to an integer and clamped to 0..255. -/
theorem image_init_map_stepping_exact (map_size : Nat) (d0 d1 : ℚ)
    (h : map_size = 2 ∨ map_size = 4 ∨ map_size = 16 ∨ map_size = 256)
    (hd : (d0 = 0 ∧ d1 = 1) ∨ (d0 = 1 ∧ d1 = 0)) :
    image_init_map map_size d0 d1 =
        init_map_step_loop map_size (if d0 = 0 then 0 else 65535)
          ((if d0 = 0 then 1 else -1) * Int.tdiv 65535 ((map_size : Int) - 1)) ∧
      image_init_map map_size d0 d1 =
        (List.range map_size).map (interpolated_entry map_size d0 d1) := by
  rcases hd with ⟨rfl, rfl⟩ | ⟨rfl, rfl⟩
  · refine ⟨?_, ?_⟩
    · rw [image_init_map_identity_loop map_size h, if_pos rfl, if_pos rfl, one_mul]
    · rw [(image_init_map_default_tables map_size h).1]
      apply List.map_congr_left
      intro i hi
      exact ((interpolated_entry_default map_size h i (List.mem_range.1 hi)).1).symm
  · refine ⟨?_, ?_⟩
    · rw [image_init_map_inverted_loop map_size h, if_neg (by norm_num),
        if_neg (by norm_num), neg_one_mul]
    · rw [(image_init_map_default_tables map_size h).2]
      apply List.map_congr_left
      intro i hi
      exact ((interpolated_entry_default map_size h i (List.mem_range.1 hi)).2).symm

/-- The 2-bit table of Decode `[1, 0]` is `[255, 170, 85, 0]`, stepped from `0xffff`
by `-0x5555`, and these are the interpolated entries. -/
theorem image_init_map_stepping_exact_witness :
    ((4 : Nat) = 2 ∨ (4 : Nat) = 4 ∨ (4 : Nat) = 16 ∨ (4 : Nat) = 256) ∧
      (((1 : ℚ) = 0 ∧ (0 : ℚ) = 1) ∨ ((1 : ℚ) = 1 ∧ (0 : ℚ) = 0)) ∧
      image_init_map 4 1 0 = [255, 170, 85, 0] ∧
      (List.range 4).map (interpolated_entry 4 1 0) = [255, 170, 85, 0] :=
  ⟨by decide, Or.inr ⟨rfl, rfl⟩,
    (image_init_map_stepping_exact 4 1 0 (by decide) (Or.inr ⟨rfl, rfl⟩)).1.trans
      (by rw [if_neg (by norm_num), if_neg (by norm_num)]; decide),
    ((image_init_map_stepping_exact 4 1 0 (by decide) (Or.inr ⟨rfl, rfl⟩)).2).symm.trans
      ((image_init_map_stepping_exact 4 1 0 (by decide) (Or.inr ⟨rfl, rfl⟩)).1.trans
        (by rw [if_neg (by norm_num), if_neg (by norm_num)]; decide))⟩

/-- C22 fails as stated: for Decode `[1, 0]` and 4 entries the integer-stepped table
is `[255, 170, 85, 0]`, the interpolation, while the floating branch computes
`[255, 169, 84, 0]` for the same pair: in `float`, `1 - 1/3` is `0.6666666`, and
`1 - 2/3` is `0.3333333`, whose products with 255 fall below 170 and 85. -/
theorem image_init_map_float_branch_differs :
    round_float ((0 : ℚ) - 1) = -1 ∧
      image_init_map 4 1 0 = [255, 170, 85, 0] ∧
      (List.range 4).map (interpolated_entry 4 1 0) = [255, 170, 85, 0] ∧
      init_map_float_loop 4 0 4 1 (round_float ((0 : ℚ) - 1)) = [255, 169, 84, 0] := by
  have e1 : round_float ((0 : ℚ) - 1) = -1 := by
    have := round_float_intCast (-1) (by norm_num)
    simpa using this
  have ht : image_init_map 4 1 0 = [255, 170, 85, 0] := by
    rw [image_init_map_inverted_loop 4 (by decide)]
    decide
  have hi : (List.range 4).map (interpolated_entry 4 1 0) = [255, 170, 85, 0] := by
    rw [← ht, (image_init_map_default_tables 4 (by decide)).2]
    apply List.map_congr_left
    intro i hi
    exact (interpolated_entry_default 4 (by decide) i (List.mem_range.1 hi)).2
  refine ⟨e1, ht, hi, ?_⟩
  rw [e1]
  exact init_map_float_loop_inverted_4

/-- The integer-stepped table of a Decode pair of delta 1 outside 0..1: for
`[1/2, 3/2]` and 4 entries it is stepped from `0x7fff` by `0x5555` and stored
without clamping, `[127, 213, 42, 127]`, where the interpolation is
`[127, 212, 255, 255]`. -/
theorem image_init_map_offset_pair :
    image_init_map 4 (1 / 2) (3 / 2) = [127, 213, 42, 127] ∧
      (List.range 4).map (interpolated_entry 4 (1 / 2) (3 / 2)) = [127, 212, 255, 255] := by
  have d : round_float ((3 / 2 : ℚ) - 1 / 2) = 1 := by
    have := round_float_intCast 1 (by norm_num)
    rw [show ((3 / 2 : ℚ) - 1 / 2) = ((1 : Int) : ℚ) from by norm_num]
    exact this
  have v : round_float ((1 / 2 : ℚ) * 65535) = 65535 / 2 := by
    have h := round_to_representable 24 65535 (-1) (by norm_num)
    simp only [round_float]
    rw [show ((1 / 2 : ℚ) * 65535) = ((65535 : Int) : ℚ) * (2 : ℚ) ^ (-1 : Int) from by norm_num,
      h]
    norm_num
  have f1 : c_trunc (65535 / 2) = 32767 := by
    unfold c_trunc
    rw [if_pos (by norm_num), Int.floor_eq_iff]
    norm_num
  have f2 : c_trunc (round_float ((1 : ℚ) *
      ((Int.tdiv 65535 (((4 : Nat) : Int) - 1) : Int) : ℚ))) = 21845 := by
    have : (Int.tdiv 65535 (((4 : Nat) : Int) - 1) : Int) = 21845 := by decide
    rw [this, one_mul, round_float_intCast 21845 (by norm_num), c_trunc_intCast]
  have g : ∀ (q : ℚ) (z : Int), 0 ≤ q → (z : ℚ) ≤ q → q < z + 1 → c_trunc q = z := by
    intro q z h0 h1 h2
    unfold c_trunc
    rw [if_pos h0, Int.floor_eq_iff]
    exact ⟨h1, h2⟩
  refine ⟨?_, ?_⟩
  · simp only [image_init_map]
    rw [d, if_pos (Or.inl rfl), v, f1, f2]
    decide
  · have a0 : interpolated_entry 4 (1 / 2) (3 / 2) 0 = 127 := by
      simp only [interpolated_entry]
      rw [g _ 127 (by norm_num) (by norm_num) (by norm_num)]
      decide
    have a1 : interpolated_entry 4 (1 / 2) (3 / 2) 1 = 212 := by
      simp only [interpolated_entry]
      rw [g _ 212 (by norm_num) (by norm_num) (by norm_num)]
      decide
    have a2 : interpolated_entry 4 (1 / 2) (3 / 2) 2 = 255 := by
      simp only [interpolated_entry]
      rw [g _ 297 (by norm_num) (by norm_num) (by norm_num)]
      decide
    have a3 : interpolated_entry 4 (1 / 2) (3 / 2) 3 = 255 := by
      simp only [interpolated_entry]
      rw [g _ 382 (by norm_num) (by norm_num) (by norm_num)]
      decide
    simp only [List.range, List.range.loop, List.map, a0, a1, a2, a3]

/-- Reading entry `s` of a table given entry by entry. -/
theorem getD_map_range (n s : Nat) (f : Nat → Nat) (hs : s < n) :
    ((List.range n).map f).getD s 0 = f s := by
  rw [List.getD_eq_getElem?_getD, List.getElem?_map, List.getElem?_range hs]
  rfl

/-- C25: for every bit depth in {1, 2, 4, 8}, every mask-colour pair `(m0, m1)` and
every sample `s` within `0 .. 2^bps - 1`, the pair `(v0, v1)` that
`gx_image_scale_mask_colors` produces satisfies `m0 ≤ s ≤ m1` exactly when
`v0 ≤ T[s] ≤ v1`, for `T` the table `image_init_map` builds with Decode `[1, 0]`
when the component's map has decoding `sd_none` and is inverted, and with Decode
`[0, 1]` otherwise; an ordered pair stays ordered. -/
theorem scale_mask_colors_matches_map (bps : Int) (m : sample_map) (m0 m1 s : Nat)
    (h : bps = 1 ∨ bps = 2 ∨ bps = 4 ∨ bps = 8)
    (h0 : m0 ≤ 2 ^ bps.toNat - 1) (h1 : m1 ≤ 2 ^ bps.toNat - 1)
    (hs : s ≤ 2 ^ bps.toNat - 1) :
    ((m0 ≤ s ∧ s ≤ m1) ↔
      ((gx_image_scale_mask_colors bps m (m0, m1)).1 ≤
          (image_init_map (2 ^ bps.toNat)
            (if m.decoding = .sd_none ∧ m.inverted = true then 1 else 0)
            (if m.decoding = .sd_none ∧ m.inverted = true then 0 else 1)).getD s 0 ∧
        (image_init_map (2 ^ bps.toNat)
            (if m.decoding = .sd_none ∧ m.inverted = true then 1 else 0)
            (if m.decoding = .sd_none ∧ m.inverted = true then 0 else 1)).getD s 0 ≤
          (gx_image_scale_mask_colors bps m (m0, m1)).2)) ∧
      (m0 ≤ m1 → (gx_image_scale_mask_colors bps m (m0, m1)).1 ≤
        (gx_image_scale_mask_colors bps m (m0, m1)).2) := by
  have key : ∀ (n c : Nat), 2 ^ bps.toNat = n →
      (n = 2 ∨ n = 4 ∨ n = 16 ∨ n = 256) → 255 / (n - 1) = c → (n - 1) * c = 255 →
      ((Int.tdiv 255 ((2 : Int) ^ bps.toNat - 1)) % 4294967296).toNat = c →
      ((m0 ≤ s ∧ s ≤ m1) ↔
        ((gx_image_scale_mask_colors bps m (m0, m1)).1 ≤
            (image_init_map (2 ^ bps.toNat)
              (if m.decoding = .sd_none ∧ m.inverted = true then 1 else 0)
              (if m.decoding = .sd_none ∧ m.inverted = true then 0 else 1)).getD s 0 ∧
          (image_init_map (2 ^ bps.toNat)
              (if m.decoding = .sd_none ∧ m.inverted = true then 1 else 0)
              (if m.decoding = .sd_none ∧ m.inverted = true then 0 else 1)).getD s 0 ≤
            (gx_image_scale_mask_colors bps m (m0, m1)).2)) ∧
        (m0 ≤ m1 → (gx_image_scale_mask_colors bps m (m0, m1)).1 ≤
          (gx_image_scale_mask_colors bps m (m0, m1)).2) := by
    intro n c hn hcases hc hmul hscale
    rw [hn] at h0 h1 hs
    have hpos : 0 < c := by
      rcases Nat.eq_zero_or_pos c with hz | hz
      · rw [hz] at hmul; omega
      · exact hz
    have hn1 : 1 ≤ n := by rcases hcases with rfl | rfl | rfl | rfl <;> omega
    have b0 : m0 * c ≤ 255 := by
      calc m0 * c ≤ (n - 1) * c := Nat.mul_le_mul_right c h0
        _ = 255 := hmul
    have b1 : m1 * c ≤ 255 := by
      calc m1 * c ≤ (n - 1) * c := Nat.mul_le_mul_right c h1
        _ = 255 := hmul
    have bs : s * c ≤ 255 := by
      calc s * c ≤ (n - 1) * c := Nat.mul_le_mul_right c hs
        _ = 255 := hmul
    have l0 : m0 ≤ s ↔ m0 * c ≤ s * c :=
      ⟨fun hh => Nat.mul_le_mul_right c hh, fun hh => Nat.le_of_mul_le_mul_right hh hpos⟩
    have l1 : s ≤ m1 ↔ s * c ≤ m1 * c :=
      ⟨fun hh => Nat.mul_le_mul_right c hh, fun hh => Nat.le_of_mul_le_mul_right hh hpos⟩
    have l2 : m0 ≤ m1 ↔ m0 * c ≤ m1 * c :=
      ⟨fun hh => Nat.mul_le_mul_right c hh, fun hh => Nat.le_of_mul_le_mul_right hh hpos⟩
    have hsn : s < n := by omega
    simp only [gx_image_scale_mask_colors, hscale]
    rw [hn]
    have e0 : m0 * c % 4294967296 = m0 * c := by omega
    have e1 : m1 * c % 4294967296 = m1 * c := by omega
    rw [e0, e1]
    by_cases hinv : m.decoding = .sd_none ∧ m.inverted = true
    · rw [if_pos hinv, if_pos hinv, if_pos hinv]
      rw [(image_init_map_default_tables n hcases).2, getD_map_range n s _ hsn, hc]
      have g0 : (((255 : Int) - ((m1 * c : Nat) : Int)) % 4294967296).toNat =
          255 - m1 * c := by omega
      have g1 : (((255 : Int) - ((m0 * c : Nat) : Int)) % 4294967296).toNat =
          255 - m0 * c := by omega
      simp only [g0, g1]
      rw [l0, l1, l2]
      constructor
      · constructor <;> intro hh <;> omega
      · intro hh; omega
    · rw [if_neg hinv, if_neg hinv, if_neg hinv]
      rw [(image_init_map_default_tables n hcases).1, getD_map_range n s _ hsn, hc]
      rw [l0, l1, l2]
      exact ⟨Iff.rfl, fun hh => hh⟩
  rcases h with rfl | rfl | rfl | rfl
  · exact key 2 255 (by decide) (by decide) (by decide) (by decide) (by decide)
  · exact key 4 85 (by decide) (by decide) (by decide) (by decide) (by decide)
  · exact key 16 17 (by decide) (by decide) (by decide) (by decide) (by decide)
  · exact key 256 1 (by decide) (by decide) (by decide) (by decide) (by decide)

/-- The mask-colour pair `(1, 2)` of a 2-bit component with Decode `[1, 0]` stays
ordered, and the sample 1 lies within it before and after scaling. -/
theorem scale_mask_colors_matches_map_witness :
    ((2 : Int) = 1 ∨ (2 : Int) = 2 ∨ (2 : Int) = 4 ∨ (2 : Int) = 8) ∧
      (1 : Nat) ≤ 2 ^ (2 : Int).toNat - 1 ∧ (2 : Nat) ≤ 2 ^ (2 : Int).toNat - 1 ∧
      (gx_image_scale_mask_colors 2 (init_sample_map 2 2 1 0).1 (1, 2)).1 ≤
        (gx_image_scale_mask_colors 2 (init_sample_map 2 2 1 0).1 (1, 2)).2 ∧
      (gx_image_scale_mask_colors 2 (init_sample_map 2 2 1 0).1 (1, 2)).1 ≤
        (image_init_map (2 ^ (2 : Int).toNat)
          (if (init_sample_map 2 2 1 0).1.decoding = .sd_none ∧
            (init_sample_map 2 2 1 0).1.inverted = true then 1 else 0)
          (if (init_sample_map 2 2 1 0).1.decoding = .sd_none ∧
            (init_sample_map 2 2 1 0).1.inverted = true then 0 else 1)).getD 1 0 :=
  ⟨by decide, by decide, by decide,
    (scale_mask_colors_matches_map 2 (init_sample_map 2 2 1 0).1 1 2 1 (by decide)
      (by decide) (by decide) (by decide)).2 (by decide),
    ((scale_mask_colors_matches_map 2 (init_sample_map 2 2 1 0).1 1 2 1 (by decide)
      (by decide) (by decide) (by decide)).1.1 ⟨by decide, by decide⟩).1⟩

/-- With a custom Decode pair and at most 4 bits, the sample map uses small-lookup
decoding and every index below 16 decodes to the interpolation for sample 0. -/
theorem image_cache_decode_lookup_index (bps : Int) (d0 d1 : ℚ) (k : Nat) (scale : Bool)
    (hb : bps ≤ 4) (hk : k < 16) :
    (init_sample_map bps 0 d0 d1).1.decoding = .sd_lookup ∧
      image_cache_decode (init_sample_map bps 0 d0 d1).1 k scale =
        interpolated_byte bps.toNat d0 d1 0 := by
  have h8 : bps ≤ 8 := by omega
  have hd : (init_sample_map bps 0 d0 d1).1.decoding = .sd_lookup := by
    simp [init_sample_map, hb]
  have hbase : (init_sample_map bps 0 d0 d1).1.decode_base = d0 := by
    simp [init_sample_map, hb]
  refine ⟨hd, ?_⟩
  have hsh : (k % 256) >>> 4 = 0 := by
    rw [Nat.shiftRight_eq_div_pow]
    omega
  simp only [image_cache_decode, hd, hsh, decode_lookup_at, if_pos, hbase,
    interpolated_byte]
  congr 3
  simp
  rw [mul_comm]

/-- C21 fails in the code: for a source of 4, 2 or 1 bits with small-lookup decoding
of Decode `[d0, d1]`, every decoded source value of `image_init_color_cache` is the
interpolation for sample 0, whatever the index `k`: `image_cache_decode` reads
`decode_lookup[k >> 4]`, which is entry 0.  With 4 bits and Decode `[0, 1/2]` the
value for `k = 15` is 0, where the interpolation for sample 15 is 127. -/
theorem image_cache_decode_lookup_ignores_index (d0 d1 : ℚ) (scale : Bool) :
    ((init_sample_map 4 0 d0 d1).1.decoding = .sd_lookup ∧
      cache_decoded_values (init_sample_map 4 0 d0 d1).1 4 scale =
        List.replicate 16 (interpolated_byte 4 d0 d1 0)) ∧
    cache_decoded_values (init_sample_map 2 0 d0 d1).1 2 scale =
        List.replicate 4 (interpolated_byte 2 d0 d1 0) ∧
    cache_decoded_values (init_sample_map 1 0 d0 d1).1 1 scale =
        List.replicate 2 (interpolated_byte 1 d0 d1 0) ∧
    (cache_decoded_values (init_sample_map 4 0 0 (1 / 2)).1 4 true).getD 15 0 = 0 ∧
    interpolated_byte 4 0 (1 / 2) 15 = 127 := by
  have hall : ∀ (bps : Int) (n : Nat) (e0 e1 : ℚ) (sc : Bool), bps ≤ 4 → n ≤ 16 →
      (List.range n).map
          (fun k => image_cache_decode (init_sample_map bps 0 e0 e1).1 k sc) =
        List.replicate n (interpolated_byte bps.toNat e0 e1 0) := by
    intro bps n e0 e1 sc hb hn
    apply List.ext_getElem
    · simp
    · intro i h1 h2
      simp only [List.getElem_map, List.getElem_range, List.getElem_replicate]
      have hi : i < n := by simpa using h1
      exact (image_cache_decode_lookup_index bps e0 e1 i sc hb (by omega)).2
  have c0 : clamp_255 0 = 0 := by norm_num [clamp_255]
  have c1 : clamp_255 (255 / 2) = 255 / 2 := by norm_num [clamp_255]
  have z : interpolated_byte 4 0 (1 / 2) 0 = 0 := by
    simp only [interpolated_byte]
    have e : (255 : ℚ) * (0 + (1 / 2 - 0) * ((0 : Nat) : ℚ) / ((2 : ℚ) ^ 4 - 1)) = 0 := by
      norm_num
    rw [e, c0]
    have f : c_trunc 0 = 0 := by simp [c_trunc]
    rw [f]
    decide
  refine ⟨⟨(image_cache_decode_lookup_index 4 d0 d1 0 scale (by decide) (by decide)).1,
    hall 4 16 d0 d1 scale (by decide) (by decide)⟩,
    hall 2 4 d0 d1 scale (by decide) (by decide),
    hall 1 2 d0 d1 scale (by decide) (by decide), ?_, ?_⟩
  · have h := hall 4 16 0 (1 / 2) true (by decide) (by decide)
    rw [show Int.toNat 4 = 4 from rfl, z] at h
    simp only [cache_decoded_values]
    rw [show (1 <<< 4 : Nat) = 16 from rfl, h]
    decide
  · simp only [interpolated_byte]
    have e : (255 : ℚ) * (0 + (1 / 2 - 0) * ((15 : Nat) : ℚ) / ((2 : ℚ) ^ 4 - 1)) = 255 / 2 := by
      norm_num
    rw [e, c1]
    have f : c_trunc (255 / 2) = 127 := by
      unfold c_trunc
      rw [if_pos (by norm_num), Int.floor_eq_iff]
      norm_num
    rw [f]
    decide

/-! ### Grid-fit extents -/

/-- The whole pixel of a fixed-point coordinate, as `fixed2int` computes it. -/
theorem gxfixed_fixed2int_floor (x : Int) :
    ((gxfixed.fixed2int x : Int) : ℚ) = ((⌊gxfixed.fixed2float x⌋ : Int) : ℚ) := by
  simp only [gxfixed]
  have h : ⌊(x : ℚ) / 256⌋ = x / 256 := by
    have := Rat.floor_intCast_div_natCast x 256
    simpa using this
  rw [h]

/-- The whole pixel a fixed-point coordinate rounds up to, as `fixed2int_ceiling`
computes it. -/
theorem gxfixed_fixed2int_ceiling_ceil (x : Int) :
    ((gxfixed.fixed2int_ceiling x : Int) : ℚ) = ((⌈gxfixed.fixed2float x⌉ : Int) : ℚ) := by
  simp only [gxfixed]
  have h : ⌈(x : ℚ) / 256⌉ = (x + 255) / 256 := by
    rw [Int.ceil_eq_iff]
    have h1 : 256 * ((x + 255) / 256) ≤ x + 255 := Int.mul_ediv_self_le (by norm_num)
    have h2 : x + 255 < 256 * ((x + 255) / 256) + 256 :=
      Int.lt_mul_ediv_self_add (by norm_num)
    constructor
    · rw [lt_div_iff₀ (by norm_num)]
      have : (((x + 255) / 256 : Int) : ℚ) * 256 - 256 < (x : ℚ) := by
        have h3 : 256 * ((x + 255) / 256) - 256 < x := by omega
        exact_mod_cast (by linarith : ((x + 255) / 256) * 256 - 256 < x)
      linarith
    · rw [div_le_iff₀ (by norm_num)]
      have h3 : x ≤ ((x + 255) / 256) * 256 := by omega
      exact_mod_cast h3
  rw [h]

/-- Truncation to 1/256 keeps the floor of a non-negative coordinate, the ceiling of
a non-positive one, and every multiple of 1/256. -/
theorem gxfixed_fixed_value (v : ℚ) :
    (0 ≤ v → ⌊fixed_value gxfixed v⌋ = ⌊v⌋) ∧
      (v ≤ 0 → ⌈fixed_value gxfixed v⌉ = ⌈v⌉) ∧
      (∀ k : Int, fixed_value gxfixed ((k : ℚ) / 256) = (k : ℚ) / 256) := by
  refine ⟨?_, ?_, ?_⟩
  · intro hv
    simp only [fixed_value, gxfixed]
    rw [if_pos hv, Int.floor_eq_iff]
    constructor
    · rw [le_div_iff₀ (by norm_num)]
      have : ((⌊v⌋ * 256 : Int) : ℚ) ≤ v * 256 := by
        push_cast
        have := Int.floor_le v
        linarith
      have h2 : ⌊v⌋ * 256 ≤ ⌊v * 256⌋ := Int.le_floor.2 this
      exact_mod_cast h2
    · have h1 : ((⌊v * 256⌋ : Int) : ℚ) ≤ v * 256 := Int.floor_le _
      have h2 : v < ⌊v⌋ + 1 := Int.lt_floor_add_one v
      rw [div_lt_iff₀ (by norm_num)]
      linarith
  · intro hv
    simp only [fixed_value, gxfixed]
    have hc : (if 0 ≤ v then ⌊v * 256⌋ else ⌈v * 256⌉) = ⌈v * 256⌉ := by
      split_ifs with h0
      · have : v = 0 := le_antisymm hv h0
        subst this
        simp
      · rfl
    rw [hc, Int.ceil_eq_iff]
    constructor
    · have h1 : v * 256 ≤ ((⌈v * 256⌉ : Int) : ℚ) := Int.le_ceil _
      have h2 : ((⌈v⌉ : Int) : ℚ) - 1 < v := by
        have := Int.ceil_lt_add_one v
        linarith
      rw [lt_div_iff₀ (by norm_num)]
      linarith
    · rw [div_le_iff₀ (by norm_num)]
      have : v * 256 ≤ ((⌈v⌉ * 256 : Int) : ℚ) := by
        push_cast
        have := Int.le_ceil v
        linarith
      have h2 : ⌈v * 256⌉ ≤ ⌈v⌉ * 256 := Int.ceil_le.2 this
      exact_mod_cast h2
  · intro k
    simp only [fixed_value, gxfixed]
    have e : (k : ℚ) / 256 * 256 = ((k : Int) : ℚ) := by
      field_simp
    rw [e, Int.floor_intCast, Int.ceil_intCast]
    simp

/-- The two grid-fit blocks in `double` arithmetic, on whole pixels of the
fixed-point coordinates. -/
theorem grid_fit_axis_double_extent (t s : ℚ) (n : Int) :
    (0 < s →
      (grid_fit_axis_double gxfixed t s n).1 = ((⌊fixed_value gxfixed t⌋ : Int) : ℚ) ∧
        (grid_fit_axis_double gxfixed t s n).2 =
          round_double
            ((((⌈fixed_value gxfixed (axis_end_double t s n)⌉ : Int) : ℚ) -
              ((⌊fixed_value gxfixed t⌋ : Int) : ℚ)) / n)) ∧
      (s < 0 →
        (grid_fit_axis_double gxfixed t s n).1 = ((⌈fixed_value gxfixed t⌉ : Int) : ℚ) ∧
          (grid_fit_axis_double gxfixed t s n).2 =
            round_double
              ((((⌊fixed_value gxfixed (axis_end_double t s n)⌋ : Int) :
                  ℚ) -
                ((⌈fixed_value gxfixed t⌉ : Int) : ℚ)) / n)) := by
  have back : ∀ z : Int, gxfixed.fixed2float (gxfixed.int2fixed z) = (z : ℚ) := by
    intro z
    simp only [gxfixed]
    push_cast
    field_simp
  have diff : ∀ a b : Int, gxfixed.fixed2float (gxfixed.int2fixed b - gxfixed.int2fixed a) =
      (b : ℚ) - a := by
    intro a b
    simp only [gxfixed]
    push_cast
    field_simp
    ring
  constructor
  · intro hs
    have hax : grid_fit_axis_double gxfixed t s n = grid_fit_pos_double gxfixed t s n := by
      simp only [grid_fit_axis_double]
      rw [if_pos hs]
    rw [hax]
    simp only [grid_fit_pos_double, back, diff, fixed_value]
    rw [gxfixed_fixed2int_floor, gxfixed_fixed2int_ceiling_ceil]
    exact ⟨rfl, rfl⟩
  · intro hs
    have hax : grid_fit_axis_double gxfixed t s n = grid_fit_neg_double gxfixed t s n := by
      simp only [grid_fit_axis_double]
      rw [if_neg (not_lt.2 hs.le), if_pos hs]
    rw [hax]
    simp only [grid_fit_neg_double, back, diff, fixed_value]
    rw [gxfixed_fixed2int_floor, gxfixed_fixed2int_ceiling_ceil]
    exact ⟨rfl, rfl⟩

/-- An integer of fewer than 53 bits is a `double`. -/
theorem round_double_intCast (z : Int) (h : |z| < 2 ^ 53) : round_double (z : ℚ) = z := by
  have := round_to_representable 53 z 0 h
  simpa [round_double] using this

/-- C23, amended: a grid-fit block works on the coordinates converted to fixed
point, that is truncated toward zero to a multiple of 1/256, and on the end
`x1 = t + s * n` as computed in `double`.  For a sample count `n ≠ 0`: if the scale
is positive the new origin is the floor of the converted origin and the new scale is
(ceiling of the converted `x1` - new origin) / n rounded to `double`; if it is
negative, the ceiling and the floor.  New origin + new scale * n is the snapped end
whenever that quotient is a `double`, as it is for `n = 1`.  The converted value has
the floor of `v` when `v ≥ 0`, the ceiling of `v` when `v ≤ 0`, and is `v` for a
multiple of 1/256. -/
theorem grid_fit_snaps_fixed_extent (t s : ℚ) (n : Int) (hn : n ≠ 0) :
    (0 < s →
      (grid_fit_axis_double gxfixed t s n).1 = ((⌊fixed_value gxfixed t⌋ : Int) : ℚ) ∧
        (grid_fit_axis_double gxfixed t s n).2 =
          round_double
            ((((⌈fixed_value gxfixed (axis_end_double t s n)⌉ : Int) : ℚ) -
              ((⌊fixed_value gxfixed t⌋ : Int) : ℚ)) / n) ∧
        (round_double
            ((((⌈fixed_value gxfixed (axis_end_double t s n)⌉ : Int) : ℚ) -
              ((⌊fixed_value gxfixed t⌋ : Int) : ℚ)) / n) =
            (((⌈fixed_value gxfixed (axis_end_double t s n)⌉ : Int) : ℚ) -
              ((⌊fixed_value gxfixed t⌋ : Int) : ℚ)) / n →
          (grid_fit_axis_double gxfixed t s n).1 +
              (grid_fit_axis_double gxfixed t s n).2 * n =
            ((⌈fixed_value gxfixed (axis_end_double t s n)⌉ : Int) : ℚ))) ∧
      (s < 0 →
        (grid_fit_axis_double gxfixed t s n).1 = ((⌈fixed_value gxfixed t⌉ : Int) : ℚ) ∧
          (grid_fit_axis_double gxfixed t s n).2 =
            round_double
              ((((⌊fixed_value gxfixed (axis_end_double t s n)⌋ : Int) : ℚ) -
                ((⌈fixed_value gxfixed t⌉ : Int) : ℚ)) / n) ∧
          (round_double
              ((((⌊fixed_value gxfixed (axis_end_double t s n)⌋ : Int) : ℚ) -
                ((⌈fixed_value gxfixed t⌉ : Int) : ℚ)) / n) =
              (((⌊fixed_value gxfixed (axis_end_double t s n)⌋ : Int) : ℚ) -
                ((⌈fixed_value gxfixed t⌉ : Int) : ℚ)) / n →
            (grid_fit_axis_double gxfixed t s n).1 +
                (grid_fit_axis_double gxfixed t s n).2 * n =
              ((⌊fixed_value gxfixed (axis_end_double t s n)⌋ : Int) : ℚ))) ∧
      (∀ a b : Int, |b - a| < 2 ^ 53 →
        round_double (((b : ℚ) - (a : ℚ)) / ((1 : Int) : ℚ)) =
          ((b : ℚ) - (a : ℚ)) / ((1 : Int) : ℚ)) ∧
      (∀ v : ℚ, (0 ≤ v → ⌊fixed_value gxfixed v⌋ = ⌊v⌋) ∧
        (v ≤ 0 → ⌈fixed_value gxfixed v⌉ = ⌈v⌉) ∧
        (∀ k : Int, fixed_value gxfixed ((k : ℚ) / 256) = (k : ℚ) / 256)) := by
  have hnq : (n : ℚ) ≠ 0 := by exact_mod_cast hn
  refine ⟨?_, ?_, ?_, gxfixed_fixed_value⟩
  · intro hs
    obtain ⟨h1, h2⟩ := (grid_fit_axis_double_extent t s n).1 hs
    refine ⟨h1, h2, ?_⟩
    intro hr
    rw [h1, h2, hr]
    field_simp
  · intro hs
    obtain ⟨h1, h2⟩ := (grid_fit_axis_double_extent t s n).2 hs
    refine ⟨h1, h2, ?_⟩
    intro hr
    rw [h1, h2, hr]
    field_simp
  · intro a b hab
    have := round_double_intCast (b - a) hab
    push_cast at this ⊢
    rw [div_one]
    exact this

/-- An integer of fewer than 53 bits scaled by a power of two is a `double`. -/
theorem round_double_representable (m k : Int) (hm : |m| < 2 ^ 53) :
    round_double ((m : ℚ) * (2 : ℚ) ^ k) = (m : ℚ) * (2 : ℚ) ^ k := by
  simpa [round_double] using round_to_representable 53 m k hm

/-- The end of one sample of scale `-0.2` from `1.2`, both as `double`: the exact sum
lies halfway between two `double`s and is rounded to 1. -/
theorem axis_end_double_example :
    axis_end_double (5404319552844595 / 4503599627370496)
      (-3602879701896397 / 18014398509481984) 1 = 1 := by
  have p : round_double ((-3602879701896397 / 18014398509481984 : ℚ) * ((1 : Int) : ℚ)) =
      -3602879701896397 / 18014398509481984 := by
    have h := round_double_representable (-3602879701896397) (-54) (by norm_num)
    rw [show ((-3602879701896397 / 18014398509481984 : ℚ) * ((1 : Int) : ℚ)) =
      ((-3602879701896397 : Int) : ℚ) * (2 : ℚ) ^ (-54 : Int) from by norm_num, h]
    norm_num
  have t := round_half_even_tie 9007199254740991
  rw [if_neg (by decide)] at t
  have q := round_to_of_exponent 53
    ((5404319552844595 / 4503599627370496 : ℚ) + -3602879701896397 / 18014398509481984)
    (-1)
    (by rw [abs_of_pos (by norm_num)]; norm_num)
    (by rw [abs_of_pos (by norm_num)]; norm_num)
  have e : ((5404319552844595 / 4503599627370496 : ℚ) + -3602879701896397 / 18014398509481984) /
      (2 : ℚ) ^ ((-1 : Int) + 1 - ((53 : Nat) : Int)) =
      ((9007199254740991 : Int) : ℚ) + 1 / 2 := by
    norm_num
  rw [e, t] at q
  simp only [axis_end_double, round_double]
  rw [show round_to 53 ((-3602879701896397 / 18014398509481984 : ℚ) * ((1 : Int) : ℚ)) =
    -3602879701896397 / 18014398509481984 from p, q]
  norm_num

/-- The grid-fit block on one sample of scale `-0.2` from `1.2`: origin 2,
scale -1. -/
theorem grid_fit_axis_double_example :
    (((⌈fixed_value gxfixed (5404319552844595 / 4503599627370496)⌉ : Int) : ℚ) = 2) ∧
      round_double
        ((((⌊fixed_value gxfixed (axis_end_double (5404319552844595 / 4503599627370496)
              (-3602879701896397 / 18014398509481984) 1)⌋ : Int) : ℚ) -
            ((⌈fixed_value gxfixed (5404319552844595 / 4503599627370496)⌉ : Int) : ℚ)) /
          ((1 : Int) : ℚ)) = -1 := by
  have c : ⌈fixed_value gxfixed (5404319552844595 / 4503599627370496)⌉ = 2 := by
    have f : ⌊(5404319552844595 / 4503599627370496 : ℚ) * 256⌋ = 307 := by
      rw [Int.floor_eq_iff]
      norm_num
    simp only [fixed_value, gxfixed]
    rw [if_pos (by norm_num), f, Int.ceil_eq_iff]
    norm_num
  have fl : ⌊fixed_value gxfixed 1⌋ = 1 := by
    have := (gxfixed_fixed_value 1).1 (by norm_num)
    rw [this, Int.floor_eq_iff]
    norm_num
  rw [axis_end_double_example, c, fl]
  refine ⟨by norm_num, ?_⟩
  have := round_double_intCast (-1) (by norm_num)
  rw [show ((((1 : Int) : ℚ) - ((2 : Int) : ℚ)) / ((1 : Int) : ℚ)) = (((-1 : Int)) : ℚ) from by
    norm_num]
  rw [this]
  norm_num

/-- One sample of scale `-0.2` from `1.2`, both as `double`, is snapped to the pixel
from 2 down to 1: origin 2, scale -1. -/
theorem grid_fit_snaps_fixed_extent_witness :
    (1 : Int) ≠ 0 ∧ (-3602879701896397 / 18014398509481984 : ℚ) < 0 ∧
      (grid_fit_axis_double gxfixed (5404319552844595 / 4503599627370496)
        (-3602879701896397 / 18014398509481984) 1).1 = 2 ∧
      (grid_fit_axis_double gxfixed (5404319552844595 / 4503599627370496)
        (-3602879701896397 / 18014398509481984) 1).2 = -1 :=
  ⟨by decide, by norm_num,
    (((grid_fit_snaps_fixed_extent (5404319552844595 / 4503599627370496)
      (-3602879701896397 / 18014398509481984) 1 (by decide)).2.1 (by norm_num)).1).trans
      grid_fit_axis_double_example.1,
    (((grid_fit_snaps_fixed_extent (5404319552844595 / 4503599627370496)
      (-3602879701896397 / 18014398509481984) 1 (by decide)).2.1 (by norm_num)).2.1).trans
      grid_fit_axis_double_example.2⟩

/-- C23 fails as stated: one sample of scale `1/512` at 0 is snapped to scale 0, so
that new origin + new scale * n is 0, where `ceil(t + s * n)` is 1; and one sample of
scale 1 at `-1/512` gets the origin 0, where `floor(t)` is -1. -/
theorem grid_fit_below_fixed_resolution :
    (0 < (1 / 512 : ℚ) ∧
      grid_fit_axis_double gxfixed 0 (1 / 512) 1 = (0, 0) ∧
      ⌈(0 : ℚ) + 1 / 512 * ((1 : Int) : ℚ)⌉ = 1) ∧
    (0 < (1 : ℚ) ∧
      grid_fit_axis_double gxfixed (-1 / 512) 1 1 = (0, 1) ∧
      ⌊(-1 / 512 : ℚ)⌋ = -1) := by
  have r0 : round_double 0 = 0 := by simpa using round_double_intCast 0 (by norm_num)
  have r1 : round_double 1 = 1 := by simpa using round_double_intCast 1 (by norm_num)
  have ra : round_double (1 / 512) = 1 / 512 := by
    have h := round_double_representable 1 (-9) (by norm_num)
    rw [show ((1 / 512 : ℚ)) = ((1 : Int) : ℚ) * (2 : ℚ) ^ (-9 : Int) from by norm_num, h]
  have rb : round_double (511 / 512) = 511 / 512 := by
    have h := round_double_representable 511 (-9) (by norm_num)
    rw [show ((511 / 512 : ℚ)) = ((511 : Int) : ℚ) * (2 : ℚ) ^ (-9 : Int) from by norm_num, h]
  have x1 : axis_end_double 0 (1 / 512) 1 = 1 / 512 := by
    simp only [axis_end_double]
    rw [show ((1 / 512 : ℚ) * ((1 : Int) : ℚ)) = 1 / 512 from by norm_num, ra,
      show ((0 : ℚ) + 1 / 512) = 1 / 512 from by norm_num, ra]
  have x2 : axis_end_double (-1 / 512) 1 1 = 511 / 512 := by
    simp only [axis_end_double]
    rw [show ((1 : ℚ) * ((1 : Int) : ℚ)) = 1 from by norm_num, r1,
      show ((-1 / 512 : ℚ) + 1) = 511 / 512 from by norm_num, rb]
  have a1 : grid_fit_axis_double gxfixed 0 (1 / 512) 1 = (0, 0) := by
    simp only [grid_fit_axis_double]
    rw [if_pos (by norm_num)]
    simp only [grid_fit_pos_double, x1, gxfixed]
    norm_num
    exact r0
  have c : ⌈(-(1 / 2) : ℚ)⌉ = 0 := by
    rw [Int.ceil_eq_iff]
    norm_num
  have a2 : grid_fit_axis_double gxfixed (-1 / 512) 1 1 = (0, 1) := by
    simp only [grid_fit_axis_double]
    rw [if_pos (by norm_num)]
    simp only [grid_fit_pos_double, x2, gxfixed]
    norm_num
    rw [c]
    norm_num
    exact r1
  refine ⟨⟨by norm_num, a1, ?_⟩, ⟨by norm_num, a2, ?_⟩⟩
  · rw [Int.ceil_eq_iff]
    norm_num
  · rw [Int.floor_eq_iff]
    norm_num

/-! ### Interpolation and the projected source box -/

/-- The macro `any_abs` gives the absolute value. -/
theorem any_abs_eq_abs (x : ℚ) : any_abs x = |x| := by
  unfold any_abs
  split_ifs with h
  · exact (abs_of_neg h).symm
  · exact (abs_of_nonneg (not_lt.1 h)).symm

/-- The statement `if (b > support) support = b;` leaves the larger value. -/
theorem if_gt_eq_max (a b : ℚ) : (if b > a then b else a) = max a b := by
  split_ifs with h
  · exact (max_eq_right h.le).symm
  · exact (max_eq_left (not_lt.1 h)).symm

/-- The support is 2, or `ceil(2 * m)` when the largest magnitude `m` of the four
coefficients exceeds 1. -/
theorem filter_isupport_eq (mi : gs_matrix) :
    filter_isupport mi =
      if max (max (max |mi.xx| |mi.yy|) |mi.xy|) |mi.yx| > 1
      then ⌈2 * max (max (max |mi.xx| |mi.yy|) |mi.xy|) |mi.yx|⌉ else 2 := by
  simp only [filter_isupport, any_abs_eq_abs, if_gt_eq_max]
  norm_num

/-- C24, amended: whenever the source's own flag `pim->Interpolate` is set and the
rectangle-restriction stage ran, interpolation is enabled (`interp_on`, or
`interp_force` when it is also forced) and the projected source box was expanded by
the filter support (2 samples, or `ceil(2 * m)` when the largest magnitude `m` of
the inverse matrix coefficients exceeds 1, plus one extra row on the trailing y
edge) before `rrect` and `drect` were intersected with it.  When the flag is clear
the box is not expanded, also when interpolation is forced. -/
theorem restriction_expands_on_source_flag (dso : Int) (mat mi : gs_matrix)
    (rect_src : gs_rect) (rect : image_rect) :
    (((begin_interpolation dso mat true (some (mi, rect_src)) rect).1 = .interp_on ∨
        (begin_interpolation dso mat true (some (mi, rect_src)) rect).1 = .interp_force) ∧
      (begin_interpolation dso mat true (some (mi, rect_src)) rect).2 =
        restriction_stage rect
          (some (irect_of (expand_rect rect_src (filter_isupport mi))))) ∧
    (filter_isupport mi =
        (if max (max (max |mi.xx| |mi.yy|) |mi.xy|) |mi.yx| > 1
          then ⌈2 * max (max (max |mi.xx| |mi.yy|) |mi.xy|) |mi.yx|⌉ else 2) ∧
      expand_rect rect_src (filter_isupport mi) =
        ⟨⟨rect_src.p.x - filter_isupport mi, rect_src.p.y - filter_isupport mi⟩,
          ⟨rect_src.q.x + filter_isupport mi,
            rect_src.q.y + ((filter_isupport mi + 1 : Int) : ℚ)⟩⟩) ∧
    (((begin_interpolation dso mat false (some (mi, rect_src)) rect).1 = .interp_off ∨
        (begin_interpolation dso mat false (some (mi, rect_src)) rect).1 = .interp_force) ∧
      (begin_interpolation dso mat false (some (mi, rect_src)) rect).2 =
        restriction_stage rect (some (irect_of rect_src))) := by
  refine ⟨⟨?_, rfl⟩, ⟨filter_isupport_eq mi, rfl⟩, ⟨?_, rfl⟩⟩
  · simp only [begin_interpolation, interpolate_of]
    by_cases hf : force_interpolation (in_pattern_accumulator dso) (orthogonal mat) mat = true
    · right
      rw [if_pos hf]
    · left
      rw [if_neg hf]
      simp
  · simp only [begin_interpolation, interpolate_of]
    by_cases hf : force_interpolation (in_pattern_accumulator dso) (orthogonal mat) mat = true
    · right
      rw [if_pos hf]
    · left
      rw [if_neg hf]
      simp

/-- C24 fails as stated: in a pattern accumulator an image scaled by 1/2 with
`Interpolate` false ends with `interp_force`, and the box (10,10)-(20,20) restricts
`rrect` and `drect` of a 100 x 100 image to 10 x 10 samples at (10,10); expanded by
the support `ceil(2 * 2) = 4` the box is (6,6)-(24,25), which leaves 18 x 19 samples
at (6,6). -/
theorem restriction_forced_not_expanded :
    begin_interpolation 1 ⟨1 / 2, 0, 0, 1 / 2, 0, 0⟩ false
          (some (⟨2, 0, 0, 2, 0, 0⟩, ⟨⟨10, 10⟩, ⟨20, 20⟩⟩)) ⟨0, 0, 100, 100⟩ =
        (.interp_force, ⟨⟨0, 0, 100, 100⟩, ⟨10, 10, 10, 10⟩, ⟨10, 10, 10, 10⟩⟩) ∧
      irect_of (expand_rect ⟨⟨10, 10⟩, ⟨20, 20⟩⟩ (filter_isupport ⟨2, 0, 0, 2, 0, 0⟩)) =
        ⟨⟨6, 6⟩, ⟨24, 25⟩⟩ ∧
      restriction_stage ⟨0, 0, 100, 100⟩ (some ⟨⟨6, 6⟩, ⟨24, 25⟩⟩) =
        ⟨⟨0, 0, 100, 100⟩, ⟨6, 6, 18, 19⟩, ⟨6, 6, 18, 19⟩⟩ := by
  have hforce : force_interpolation (in_pattern_accumulator 1)
      (orthogonal ⟨1 / 2, 0, 0, 1 / 2, 0, 0⟩) ⟨1 / 2, 0, 0, 1 / 2, 0, 0⟩ = true := by
    have o : orthogonal ⟨1 / 2, 0, 0, 1 / 2, 0, 0⟩ = 1 := by simp [orthogonal]
    have a : in_pattern_accumulator 1 = 1 := by decide
    rw [o, a]
    simp only [force_interpolation, fixed_1, fixed_epsilon]
    norm_num
  have hsup : filter_isupport ⟨2, 0, 0, 2, 0, 0⟩ = 4 := by
    simp only [filter_isupport, any_abs]
    norm_num
  have hir : irect_of ⟨⟨10, 10⟩, ⟨20, 20⟩⟩ = ⟨⟨10, 10⟩, ⟨20, 20⟩⟩ := by
    simp only [irect_of]
    have f : ⌊(10 : ℚ)⌋ = 10 := by
      rw [Int.floor_eq_iff]; norm_num
    have c : ⌈(20 : ℚ)⌉ = 20 := by
      rw [Int.ceil_eq_iff]; norm_num
    rw [f, c]
  have hex : irect_of (expand_rect ⟨⟨10, 10⟩, ⟨20, 20⟩⟩ 4) = ⟨⟨6, 6⟩, ⟨24, 25⟩⟩ := by
    simp only [irect_of, expand_rect]
    have f : ⌊(10 : ℚ) - ((4 : Int) : ℚ)⌋ = 6 := by
      rw [Int.floor_eq_iff]; norm_num
    have c1 : ⌈(20 : ℚ) + ((4 : Int) : ℚ)⌉ = 24 := by
      rw [Int.ceil_eq_iff]; norm_num
    have c2 : ⌈(20 : ℚ) + (((4 : Int) + 1 : Int) : ℚ)⌉ = 25 := by
      rw [Int.ceil_eq_iff]; norm_num
    rw [f, c1, c2]
  refine ⟨?_, ?_, by decide⟩
  · simp only [begin_interpolation, hforce, interpolate_of, restriction_irect,
      Option.map, hir]
    refine Prod.ext rfl ?_
    simp only [if_neg (by decide : ¬ (false = true))]
    rw [hir]
    decide
  · rw [hsup, hex]

/-! ### Colour encoding -/

/-- The encoding loop handles the colorants one after the other. -/
theorem encode_color_loop_append (index_bits bpc : Nat) (colround : Nat → Nat) (color : Nat)
    (cs : List Nat) (c : Nat) :
    encode_color_loop index_bits bpc colround color (cs ++ [c]) =
      (((encode_color_loop index_bits bpc colround color cs <<< bpc) % 2 ^ index_bits) |||
        (colround c % 2 ^ index_bits)) := by
  induction cs generalizing color with
  | nil => rfl
  | cons d rest ih =>
    simp only [List.cons_append, encode_color_loop]
    exact ih _

/-- Below the width of `gx_color_index` the encoding loop packs the rounded
colorants without loss, and the decoding loop unpacks them. -/
theorem encode_decode_loop (index_bits bpc : Nat) (colround : Nat → Nat)
    (hb : bpc ≤ 16) (hr : ∀ c, colround c < 2 ^ bpc) (colors : List Nat) :
    colors.length * bpc < index_bits →
      encode_color_loop index_bits bpc colround 0 colors < 2 ^ (colors.length * bpc) ∧
        decode_color_loop bpc colors.length
            (encode_color_loop index_bits bpc colround 0 colors) =
          colors.map (fun c => colround c <<< (16 - bpc)) := by
  induction colors using List.reverseRecOn with
  | nil =>
    intro _
    simp [encode_color_loop, decode_color_loop]
  | append_singleton cs c ih =>
    intro hw
    have hlen : (cs ++ [c]).length = cs.length + 1 := by simp
    rw [hlen] at hw ⊢
    have hw' : cs.length * bpc < index_bits := by
      have : cs.length * bpc ≤ (cs.length + 1) * bpc := Nat.mul_le_mul_right _ (by omega)
      omega
    obtain ⟨hlt, hdec⟩ := ih hw'
    have hrc : colround c < 2 ^ bpc := hr c
    have hpw : 2 ^ ((cs.length + 1) * bpc) = 2 ^ (cs.length * bpc) * 2 ^ bpc := by
      rw [← pow_add]; congr 1; ring
    have hle : 2 ^ ((cs.length + 1) * bpc) ≤ 2 ^ index_bits :=
      Nat.pow_le_pow_right (by norm_num) hw.le
    have hle1 : 2 ^ bpc ≤ 2 ^ index_bits := by
      apply Nat.pow_le_pow_right (by norm_num)
      have : bpc ≤ (cs.length + 1) * bpc := Nat.le_mul_of_pos_left _ (by omega)
      omega
    set v := encode_color_loop index_bits bpc colround 0 cs with hv
    have hvb : v * 2 ^ bpc + colround c < 2 ^ ((cs.length + 1) * bpc) := by
      rw [hpw]
      have : (v + 1) * 2 ^ bpc ≤ 2 ^ (cs.length * bpc) * 2 ^ bpc :=
        Nat.mul_le_mul_right _ hlt
      have e : (v + 1) * 2 ^ bpc = v * 2 ^ bpc + 2 ^ bpc := by ring
      omega
    have henc : encode_color_loop index_bits bpc colround 0 (cs ++ [c]) =
        v * 2 ^ bpc + colround c := by
      rw [encode_color_loop_append, ← hv, Nat.shiftLeft_eq]
      have m1 : (v * 2 ^ bpc) % 2 ^ index_bits = v * 2 ^ bpc :=
        Nat.mod_eq_of_lt (by omega)
      have m2 : colround c % 2 ^ index_bits = colround c := Nat.mod_eq_of_lt (by omega)
      rw [m1, m2, Nat.mul_comm v (2 ^ bpc), Nat.mul_add_lt_is_or hrc v]
    rw [henc]
    refine ⟨hvb, ?_⟩
    simp only [decode_color_loop, List.map_append, List.map_cons, List.map_nil]
    have hsr : (v * 2 ^ bpc + colround c) >>> bpc = v := by
      rw [Nat.shiftRight_eq_div_pow, Nat.mul_comm v (2 ^ bpc),
        Nat.mul_add_div (Nat.two_pow_pos bpc), Nat.div_eq_of_lt hrc]
      rfl
    have hmask : (v * 2 ^ bpc + colround c) &&& ((1 <<< bpc) - 1) = colround c := by
      rw [Nat.shiftLeft_eq, Nat.one_mul, Nat.and_pow_two_sub_one_eq_mod,
        Nat.mul_comm v (2 ^ bpc), Nat.mul_add_mod, Nat.mod_eq_of_lt hrc]
    have hout : (colround c <<< (16 - bpc)) % 65536 = colround c <<< (16 - bpc) := by
      apply Nat.mod_eq_of_lt
      rw [Nat.shiftLeft_eq]
      have h16 : 2 ^ bpc * 2 ^ (16 - bpc) = 65536 := by
        rw [← pow_add]
        have : bpc + (16 - bpc) = 16 := by omega
        rw [this]
        norm_num
      have : colround c * 2 ^ (16 - bpc) < 2 ^ bpc * 2 ^ (16 - bpc) :=
        Nat.mul_lt_mul_of_pos_right hrc (Nat.two_pow_pos (16 - bpc))
      omega
    rw [hsr, hmask, hout, hdec]

/-- C26: with `bpc` bits per component (at most 16, the width of a `gx_color_value`),
`ncomp * bpc` less than the width of `gx_color_index`, and `COLROUND_ROUND` rounding
to `bpc` bits, decoding an encoded colour `c` returns in every position `i` the
value `COLROUND_ROUND(c[i])` shifted left by `16 - bpc`, and
`rinkj_encode_color` does not return `gx_no_color_index`. -/
theorem rinkj_decode_encode_color (index_bits bpc : Nat) (colround : Nat → Nat)
    (colors : List Nat) (hb : bpc ≤ 16) (hw : colors.length * bpc < index_bits)
    (hr : ∀ c, colround c < 2 ^ bpc) :
    rinkj_decode_color bpc colors.length
        (rinkj_encode_color index_bits bpc colround colors) =
      colors.map (fun c => colround c <<< (16 - bpc)) ∧
    rinkj_encode_color index_bits bpc colround colors ≠
      gx_no_color_index_of index_bits := by
  obtain ⟨hlt, hdec⟩ := encode_decode_loop index_bits bpc colround hb hr colors hw
  have hpow : 2 ^ (colors.length * bpc) < 2 ^ index_bits :=
    Nat.pow_lt_pow_right (by norm_num) hw
  have hne : encode_color_loop index_bits bpc colround 0 colors ≠
      gx_no_color_index_of index_bits := by
    simp only [gx_no_color_index_of]
    omega
  have henc : rinkj_encode_color index_bits bpc colround colors =
      encode_color_loop index_bits bpc colround 0 colors := by
    simp only [rinkj_encode_color]
    rw [if_neg hne]
  rw [henc]
  exact ⟨hdec, hne⟩

/-- Four colorants of 8 bits in a 64-bit `gx_color_index`, rounded by dropping the low
byte: `(65535, 0, 32768, 4660)` is encoded as `0xff008012` and decoded as
`(65280, 0, 32768, 4608)`. -/
theorem rinkj_decode_encode_color_witness :
    (8 : Nat) ≤ 16 ∧ [65535, 0, 32768, 4660].length * 8 < 64 ∧
      rinkj_encode_color 64 8 (fun v => (v >>> 8) % 256) [65535, 0, 32768, 4660] =
        4278222866 ∧
      rinkj_decode_color 8 4
          (rinkj_encode_color 64 8 (fun v => (v >>> 8) % 256) [65535, 0, 32768, 4660]) =
        [65280, 0, 32768, 4608] :=
  ⟨by decide, by decide, by decide,
    (rinkj_decode_encode_color 64 8 (fun v => (v >>> 8) % 256) [65535, 0, 32768, 4660]
      (by decide) (by decide) (fun c => Nat.mod_lt _ (by decide))).1.trans (by decide)⟩

/-! ### Curve lookup -/

/-- When no point of the curve lies beyond `x`, the loop runs to its end. -/
theorem graph_lookup_loop_runs_out (graph_x : Nat → ℚ) (x : ℚ) (remaining i : Nat)
    (h : ∀ j, i + 1 ≤ j → j ≤ i + remaining → graph_x j ≤ x) :
    (graph_lookup_loop graph_x x remaining i).1 = i + remaining := by
  induction remaining generalizing i with
  | zero => rfl
  | succ r ih =>
    simp only [graph_lookup_loop]
    have h1 : ¬ graph_x (i + 1) > x := not_lt.2 (h (i + 1) (le_refl _) (by omega))
    rw [if_neg h1]
    have := ih (i + 1) (fun j hj1 hj2 => h j (by omega) (by omega))
    simp only [this]
    omega

/-- C27 fails in the code: after the loop `rinkj_graph_lookup` reads the entries
`i` and `i + 1`, and `i` is `n_graph - 1` whenever no `graph_x[j]` with
`1 ≤ j < n_graph` exceeds `x`; then index `n_graph` is read in both arrays.  A curve
of 1 point, or of none, is read at index 1 for every `x`.  With the curve
`(0,0), (1,1)` the lookup for `x = 255/255` of `rinkj_apply_luts` reads index 2. -/
theorem rinkj_graph_lookup_reads_past_end (graph_x graph_y : Nat → ℚ) (x : ℚ) :
    ((rinkj_graph_lookup graph_x graph_y 1 x).x_reads = [0, 1, 0] ∧
      (rinkj_graph_lookup graph_x graph_y 1 x).y_reads = [0, 1, 0]) ∧
    ((rinkj_graph_lookup graph_x graph_y 0 x).x_reads = [0, 1, 0] ∧
      (rinkj_graph_lookup graph_x graph_y 0 x).y_reads = [0, 1, 0]) ∧
    (∀ n : Nat, 1 ≤ n → (∀ j, 1 ≤ j → j < n → graph_x j ≤ x) →
      n ∈ (rinkj_graph_lookup graph_x graph_y (n : Int) x).x_reads ∧
        n ∈ (rinkj_graph_lookup graph_x graph_y (n : Int) x).y_reads) ∧
    (rinkj_apply_luts_lookups (graph_array [0, 1] 7) (graph_array [0, 1] 9) 2)[255]? =
        some (rinkj_graph_lookup (graph_array [0, 1] 7) (graph_array [0, 1] 9) 2 1) ∧
    rinkj_graph_lookup (graph_array [0, 1] 7) (graph_array [0, 1] 9) 2 1 =
        ⟨1, [1, 1, 2, 1], [1, 2, 1]⟩ := by
  refine ⟨⟨rfl, rfl⟩, ⟨rfl, rfl⟩, ?_, ?_, ?_⟩
  · intro n hn h
    have ht : ((n : Int) - 1).toNat = n - 1 := by omega
    have hi : (graph_lookup_loop graph_x x (n - 1) 0).1 = n - 1 := by
      have := graph_lookup_loop_runs_out graph_x x (n - 1) 0
        (fun j hj1 hj2 => h j (by omega) (by omega))
      omega
    simp only [rinkj_graph_lookup, ht, hi]
    have e : n - 1 + 1 = n := by omega
    rw [e]
    simp
  · simp only [rinkj_apply_luts_lookups]
    rw [List.getElem?_map, List.getElem?_range (by decide)]
    simp
  · have a0 : graph_array [0, 1] 7 0 = 0 := rfl
    have a1 : graph_array [0, 1] 7 1 = 1 := rfl
    have a2 : graph_array [0, 1] 7 2 = 7 := rfl
    have b0 : graph_array [0, 1] 9 0 = 0 := rfl
    have b1 : graph_array [0, 1] 9 1 = 1 := rfl
    have b2 : graph_array [0, 1] 9 2 = 9 := rfl
    have hl : graph_lookup_loop (graph_array [0, 1] 7) 1 1 0 = (1, [1]) := by
      simp only [graph_lookup_loop, a1]
      norm_num
    have ht : ((2 : Int) - 1).toNat = 1 := by decide
    simp only [rinkj_graph_lookup, ht, hl, a1, a2, b1, b2]
    norm_num

end Ghostpdl




